import Mathlib

/-!
boltkit: session validation, audit logging and expiry

A shallow embedding of the session and access-control code of `boltkit`
(`service/service.go`, `service/session.go`, `util/misc.go`, `util/time.go`,
`util/error.go`, `util/const.go`, `entity/session.go`, `entity/user.go`,
`entity/invite.go`, `entity/passreset.go`, `entity/requestlog.go`), of its
creating handlers (`service/invite.go`, `service/passreset.go`,
`service/user.go`), of its listings and of its expiry scheduler
(`scheduler/scheduler.go`), together with theorems about them.

Conventions of the embedding:

* Go `string` and `[]byte` are `String`; a nil byte slice and an empty one
  are told apart only where the source tests for nil.
* `time.Time` is an instant in nanoseconds since the Unix epoch (`Int`);
  `time.Duration` is a number of nanoseconds.  The `int64` Unix-second fields
  of the records are `Int`.  The fields computed from a reading of the clock
  are far inside the `int64` range; the renewal, which computes the expiry of
  a session from the expiry the state holds, reduces its result to the `int64`
  range (`wrapInt64`).
* Go `error` is `Option Err` (`none` is `nil`).
* The in-memory session map (`cmap.ConcurrentMap`) and the bolt buckets are
  association lists; one call is modelled as one atomic state transition.
* Standard-library and third-party functions whose results the code only
  passes along (`encoding/json`, `url.Values.Encode`, `fmtdate.Format`) are the
  fields of a `Lib` record (of an `EntityLib` record for the entity code);
  the clock readings and the faults of the storage transactions of one call
  are the fields of a `World` record (`LoginWorld`, `TxWorld`,
  `HandlerWorld`).
* `uint32` values are `Nat` with explicit reduction modulo `U32`; a run-time
  panic is the value `panic` of `Run` or `Outcome`.
* A decoder `json.Unmarshal(v, x)` is a function of the bytes and of the
  record `x` it decodes into: the loops that reuse one record across
  iterations pass it along.  Where the code returns the record of a failed
  decoding (`GetUser`, `GetInvite`), a second function gives what the failed
  call leaves in `x`.
-/

namespace Boltkit

/-! ## Errors (`util/error.go` and the bolt errors the audit write can raise) -/

/-- The error values of `util/error.go`, the errors of the bolt calls made
by the code (`ErrTx` carries the message of a failed transaction),
`ErrJSON`, an error of `encoding/json` that the code passes on as it is, and
`ErrorsNew msg`, the value `errors.New(msg)`. -/
inductive Err where
  | ErrUnauthorizedAccess
  | ErrExpiredSession
  | ErrExpiredReset
  | ErrMalformedRequest
  | ErrMalformedPayload
  | ErrMalformedJSON
  | ErrEntityUpdate
  | ErrReadBody
  | ErrBcryptHash
  | ErrUnexpectedAuthorization
  | ErrAuthorizationNotFound
  | ErrPasswordMismatch
  | ErrResetUsed
  | ErrNoUpdate
  | ErrKeyNotFound (key : String)
  | ErrInvalidParameter (key : String)
  | ErrNotApplicable (entity : String)
  | ErrBucketNameRequired
  | ErrKeyRequired
  | ErrKeyTooLarge
  | ErrTx (msg : String)
  | ErrJSON
  | ErrorsNew (msg : String)
  deriving DecidableEq, Repr

/-- The errors that come from the storage layer (bolt), as opposed to the
validation errors of `util/error.go`. -/
def Err.isStorage : Err → Bool
  | .ErrBucketNameRequired => true
  | .ErrKeyRequired => true
  | .ErrKeyTooLarge => true
  | .ErrTx _ => true
  | _ => false

/-! ## Constants (`util/const.go`) -/

/-- Access privilege `util.Admin`. -/
def Admin : String := "admin"
/-- Access privilege `util.Management`. -/
def Management : String := "management"
/-- Access privilege `util.Finance`. -/
def Finance : String := "finance"

/-! ## Time (`util/time.go`) -/

/-- An instant: nanoseconds since the Unix epoch. -/
abbrev Time := Int
/-- A `time.Duration`: nanoseconds. -/
abbrev Duration := Int

/-- The constant `time.Second`. -/
def Second : Duration := 1000000000
/-- The constant `time.Minute`. -/
def Minute : Duration := 60 * Second
/-- The constant `time.Hour`. -/
def Hour : Duration := 60 * Minute

/-- The Go call `time.Unix(sec, nsec)`. -/
def timeUnix (sec nsec : Int) : Time := sec * 1000000000 + nsec

/-- The value an `int64` holds after a computation whose exact result is `x`:
the result reduced modulo `2^64` to the range from `-2^63` to `2^63 - 1`
(two's complement wrap-around). -/
def wrapInt64 (x : Int) : Int :=
  (x + 9223372036854775808) % 18446744073709551616 - 9223372036854775808

/-- The method `Time.Unix()`: whole seconds since the epoch, rounded down. -/
def Time.Unix (t : Time) : Int := t / 1000000000

/-- The function `GetFutureTime` of `util/time.go`: extends a base time to a
time in the future. -/
def GetFutureTime (date : Time) (days hours minutes seconds : Duration) : Time :=
  let duration := ((Hour * 24) * days) + (Hour * hours) +
    (Minute * minutes) + (Second * seconds)
  let futureTime := date + duration
  futureTime

/-! ## Key-value containers -/

/-- An association list keyed by strings: the representation of both the
in-memory session map and the bolt buckets. -/
abbrev KV (α : Type) := List (String × α)

/-- Lookup of a key: the value of the first entry with that key. -/
def KV.Get {α : Type} : KV α → String → Option α
  | [], _ => none
  | (k', v) :: rest, k => if k' = k then some v else KV.Get rest k

/-- Membership test for a key (`cmap.Has`). -/
def KV.Has {α : Type} (m : KV α) (k : String) : Bool := (m.Get k).isSome

/-- Removal of a key (`cmap.Remove`, `Bucket.Delete`). -/
def KV.Remove {α : Type} (m : KV α) (k : String) : KV α :=
  m.filter (fun p => decide (p.1 ≠ k))

/-- The session map write `cmap.Set`: the key is bound to the new value. -/
def KV.Set {α : Type} (m : KV α) (k : String) (v : α) : KV α :=
  (k, v) :: m.Remove k

/-- The keys of the container (`cmap.Keys`, or a cursor walk of a bucket). -/
def KV.Keys {α : Type} (m : KV α) : List String := m.map Prod.fst

/-- The entry of an existing key takes a new value, in place. -/
def KV.replace {α : Type} : KV α → String → α → KV α
  | [], _, _ => []
  | (k', v') :: rest, k, v =>
    if k' = k then (k, v) :: rest else (k', v') :: KV.replace rest k v

/-- A new entry is inserted before the first entry with a greater key. -/
def KV.insert {α : Type} : KV α → String → α → KV α
  | [], k, v => [(k, v)]
  | (k', v') :: rest, k, v =>
    if k < k' then (k, v) :: (k', v') :: rest else (k', v') :: KV.insert rest k v

/-- The bolt write `Bucket.Put`: the value of an existing key is replaced, a
new key is inserted at its place in key order. -/
def KV.Put {α : Type} (m : KV α) (k : String) (v : α) : KV α :=
  if m.Has k then m.replace k v else m.insert k v

/-! ## Sessions (`entity/session.go`) -/

/-- The record `entity.Session`. -/
structure Session where
  User : String
  Token : String
  Access : String
  CreatedOn : Int
  Expiry : Int
  deriving DecidableEq, Repr

/-- What the session map holds under a key: an `interface{}` whose dynamic
type is either `entity.Session` (a value) or `*entity.Session` (a pointer,
named by its address). -/
inductive Entry where
  | val (s : Session)
  | ptr (addr : Nat)
  deriving DecidableEq, Repr

/-- The in-memory session map (`cmap.ConcurrentMap`). -/
abbrev ConcurrentMap := KV Entry

/-! ## Requests and request logs (`net/http`, `entity/requestlog.go`) -/

/-- The type `url.Values` (and `http.Header`): keys with their value lists. -/
abbrev Values := KV (List String)

/-- A non-nil request body, by what reading it to the end gives. -/
inductive BodyReader where
  | fails
  | yields (bytes : String)
  deriving DecidableEq, Repr

/-- The parts of an `*http.Request` the code reads.  `Form` is `req.Form` as
`req.ParseForm()` leaves it, and `Body` is the body that call leaves to be
read (`none` is a nil body). -/
structure Request where
  Header : Values
  Body : Option BodyReader
  RemoteAddr : String
  Method : String
  URLPath : String
  Form : Values
  deriving DecidableEq, Repr

/-- The record `entity.RequestLog`; `P` is the decoded form of a JSON object
(`map[string]interface{}`). -/
structure RequestLog (P : Type) where
  Origin : String
  Requestor : String
  RequestType : String
  Route : String
  QueryParams : String
  Payload : P

/-- The library functions the code calls and whose results it only passes
along. -/
structure Lib (P : Type) where
  /-- The literal `map[string]interface{}{}`. -/
  emptyPayload : P
  /-- The call `json.Unmarshal(body, &payload)`; `none` is a decoding error. -/
  jsonUnmarshal : String → Option P
  /-- The call `json.Marshal(reqLog)`; `none` is an encoding error. -/
  jsonMarshal : RequestLog P → Option String
  /-- The method `url.Values.Encode`. -/
  formEncode : Values → String
  /-- The call `fmtdate.Format(util.DateFormat, t)`. -/
  fmtdateFormat : Time → String

/-- What one call of `ValidateRequest` reads from its environment: the clock
at the expiry check, the clock inside the storage transaction, and the
message of the error, if any, with which bolt fails to begin or to commit the
transaction. -/
structure World where
  now : Time
  txNow : Time
  beginErr : Option String
  commitErr : Option String
  deriving DecidableEq, Repr

/-! ## The durable store (bolt) -/

/-- The bolt database.  Each top-level bucket of `createBuckets` is a field;
`log` is the bucket `util.LogBucket`, nested day → token → record key. -/
structure DB where
  log : KV (KV (KV String))
  session : KV String
  user : KV String
  invite : KV String
  cache : KV String
  passreset : KV String
  feedback : KV String
  deriving DecidableEq, Repr

/-- The bolt constant `MaxKeySize`. -/
def MaxKeySize : Nat := 32768

/-- The bolt call `Bucket.CreateBucketIfNotExists(name)` on a bucket of
buckets: the existing sub-bucket, or a new empty one. -/
def CreateBucketIfNotExists {α : Type} (b : KV (KV α)) (name : String) :
    Except Err (KV α) :=
  if name.utf8ByteSize = 0 then .error .ErrBucketNameRequired
  else match b.Get name with
    | some child => .ok child
    | none => .ok []

/-- The key checks of the bolt call `Bucket.Put`. -/
def putCheck (key : String) : Option Err :=
  if key.utf8ByteSize = 0 then some .ErrKeyRequired
  else if key.utf8ByteSize > MaxKeySize then some .ErrKeyTooLarge
  else none

/-- The bolt call `DB.Update(fn)`: the transaction is begun, `fn` is run on
it and it is committed; when any of the three fails the error is returned and
the database is left as it was. -/
def DB.Update (db : DB) (beginErr commitErr : Option String)
    (fn : DB → Except Err DB) : Option Err × DB :=
  match beginErr with
  | some msg => (some (.ErrTx msg), db)
  | none =>
    match fn db with
    | .error e => (some e, db)
    | .ok db' =>
      match commitErr with
      | some msg => (some (.ErrTx msg), db)
      | none => (none, db')

/-- The application state: `Service.SessionMap` and `Service.Bolt`. -/
structure Service where
  SessionMap : ConcurrentMap
  Bolt : DB
  deriving DecidableEq, Repr

/-! ## `GetSessionToken` (`util/misc.go`) -/

/-- The cut of a character list at its first space, if it has one. -/
def cutAtSpace : List Char → Option (List Char × List Char)
  | [] => none
  | c :: cs =>
    if c = ' ' then some ([], cs)
    else match cutAtSpace cs with
      | none => none
      | some (a, b) => some (c :: a, b)

/-- The call `strings.SplitN(s, " ", 2)`: the string itself when it has no
space, otherwise what precedes and what follows its first space. -/
def SplitN (s : String) : List String :=
  match cutAtSpace s.data with
  | none => [s]
  | some (a, b) => [String.mk a, String.mk b]

/-- The function `GetSessionToken` of `util/misc.go`: retrieves the session
token from a request.  The Authorization format expected is
`Token sessiontoken`. -/
def GetSessionToken (request : Request) : Except Err String :=
  match (request.Header.Get "Authorization").getD [] with
  | first :: _ =>
    let auth := SplitN first
    match auth with
    | [a0, a1] => if a0 ≠ "Token" then .error .ErrUnexpectedAuthorization else .ok a1
    | _ => .error .ErrUnexpectedAuthorization
  | [] => .error .ErrAuthorizationNotFound

/-! ## `ValidateRequest` (`service/service.go`) -/

/-- The result of a call: the pair it returns, or a run-time panic. -/
inductive Outcome where
  | ret (granted : Bool) (err : Option Err)
  | panic
  deriving DecidableEq, Repr

/-- The call `ioutil.ReadAll(req.Body)`: the bytes read, as a slice that is
never nil, or a read error. -/
def ReadAll : BodyReader → Except Unit (Option String)
  | .fails => .error ()
  | .yields bytes => .ok (some bytes)

/-- Lines 152-172 of `ValidateRequest`: the payload of the request, parsed
from its body when it has one. -/
def parseRequest {P : Type} (lib : Lib P) (req : Request) : Except Err P :=
  let payload := lib.emptyPayload
  match req.Body with
  | none => .ok payload
  | some reader =>
    match ReadAll reader with
    | .error _ => .error .ErrMalformedRequest
    | .ok none => .ok payload
    | .ok (some body) =>
      match lib.jsonUnmarshal body with
      | none => .error .ErrMalformedPayload
      | some payload => .ok payload

/-- Lines 174-184 of `ValidateRequest`: the log record of the request. -/
def mkRequestLog {P : Type} (lib : Lib P) (req : Request) (token : String)
    (payload : P) : RequestLog P :=
  { Origin := req.RemoteAddr
    Requestor := token
    RequestType := req.Method
    Route := req.URLPath
    QueryParams := lib.formEncode req.Form
    Payload := payload }

/-- The body of the transaction of lines 194-209: the record is put, with a
nil value, under its own bytes in the bucket of the token inside the bucket of
the day. -/
def logTx (dateStr token logBytes : String) (db : DB) : Except Err DB :=
  match CreateBucketIfNotExists db.log dateStr with
  | .error err => .error err
  | .ok dayBucket =>
    match CreateBucketIfNotExists dayBucket token with
    | .error err => .error err
    | .ok tokenBucket =>
      match putCheck logBytes with
      | some err => .error err
      | none =>
        .ok { db with
          log := db.log.Put dateStr (dayBucket.Put token (tokenBucket.Put logBytes "")) }

/-- Lines 217-222 of `ValidateRequest`: the loop over the allowed roles. -/
def roleLoop (access : String) : List String → Bool
  | [] => false
  | role :: rest => if role = access then true else roleLoop access rest

/-- Lines 211-226 of `ValidateRequest`: the access decision and the error
that goes with it, given the error of the audit write. -/
def checkAccess (access : String) (allowedRoles : List String) (err : Option Err) :
    Bool × Option Err :=
  if access = Admin then (true, err)
  else
    let granted := roleLoop access allowedRoles
    if !granted then (granted, some .ErrUnauthorizedAccess) else (granted, err)

/-- The method `Service.ValidateRequest`: asserts the authenticity and
requested privileges of a request.  Returns the outcome and the state the
call leaves. -/
def ValidateRequest {P : Type} (lib : Lib P) (w : World) (service : Service)
    (allowedRoles : List String) (req : Request) : Outcome × Service :=
  -- Get the session token
  match GetSessionToken req with
  | .error err => (.ret false (some err), service)
  | .ok token =>
    -- Assert the session token is valid
    if !service.SessionMap.Has token then
      (.ret false (some .ErrUnauthorizedAccess), service)
    else
      -- Retrieve the session and assert it has not expired.
      match service.SessionMap.Get token with
      | none => (.panic, service)
      | some (.ptr _) => (.panic, service)
      | some (.val session) =>
        if w.now.Unix > session.Expiry then
          (.ret false (some .ErrExpiredSession),
            { service with SessionMap := service.SessionMap.Remove token })
        else
          -- Parse the request
          match parseRequest lib req with
          | .error err => (.ret false (some err), service)
          | .ok payload =>
            match lib.jsonMarshal (mkRequestLog lib req token payload) with
            | none => (.ret false (some .ErrMalformedPayload), service)
            | some logBytes =>
              -- Log the request.
              let (err, bolt) := service.Bolt.Update w.beginErr w.commitErr
                (logTx (lib.fmtdateFormat w.txNow) token logBytes)
              -- Assert the calling user has the required access for the endpoint.
              let (granted, err) := checkAccess session.Access allowedRoles err
              -- Extend session expiry by one minute for every successful validation.
              if granted then
                let curExpiry := timeUnix session.Expiry 0
                -- `session.Expiry` is an `int64`: the seconds wrap around.
                let session := { session with
                  Expiry := wrapInt64 (GetFutureTime curExpiry 0 0 1 0).Unix }
                (.ret granted err,
                  { SessionMap := service.SessionMap.Set session.Token (.val session)
                    Bolt := bolt })
              else
                (.ret granted err, { service with Bolt := bolt })

/-! ## Instances used to evaluate the definitions on concrete inputs -/

/-- A small instance of the library record.  A payload is kept as the text
of its body; a body decodes when it opens and closes with a brace; a log
record is encoded as its six fields, one per line; a form is encoded as its
`key=values` pairs joined by `&`; a date is formatted as the number of its
day. -/
def demoLib : Lib String where
  emptyPayload := "\x7b\x7d"
  jsonUnmarshal := fun body =>
    if body.data.head? == some (Char.ofNat 123) && body.data.getLast? == some (Char.ofNat 125)
    then some body else none
  jsonMarshal := fun r => some (String.intercalate "\n"
    [r.Origin, r.Requestor, r.RequestType, r.Route, r.QueryParams, r.Payload])
  formEncode := fun v =>
    String.intercalate "&" (v.map (fun p => p.1 ++ "=" ++ String.intercalate "," p.2))
  fmtdateFormat := fun t => "day-" ++ toString (t / (86400 * 1000000000))

/-- An empty database. -/
def emptyDB : DB :=
  { log := [], session := [], user := [], invite := [], cache := [], passreset := [], feedback := [] }

/-- A session of access level `finance`, created at second 1000 with the
two-hour lifetime. -/
def exSession : Session :=
  { User := "U1", Token := "tok", Access := "finance", CreatedOn := 1000, Expiry := 8200 }

/-- A session of access level `admin`. -/
def exAdmin : Session :=
  { User := "root", Token := "adm", Access := "admin", CreatedOn := 1000, Expiry := 8200 }

/-- A session whose expiry, second 1500, has passed at second 2000. -/
def exStale : Session :=
  { User := "U2", Token := "old", Access := "management", CreatedOn := 0, Expiry := 1500 }

/-- A session whose expiry is second 2000 exactly. -/
def exEdge : Session :=
  { User := "U3", Token := "edge", Access := "finance", CreatedOn := 0, Expiry := 2000 }

/-- A state with the four sessions cached under their tokens and an empty
store. -/
def exService : Service :=
  { SessionMap := [("tok", .val exSession), ("adm", .val exAdmin), ("old", .val exStale),
      ("edge", .val exEdge)]
    Bolt := emptyDB }

/-- A request with the given Authorization header values and body. -/
def exRequest (auth : List String) (body : Option BodyReader) : Request :=
  { Header := [("Content-Type", ["application/json"]), ("Authorization", auth)]
    Body := body
    RemoteAddr := "10.0.0.7:4242"
    Method := "GET"
    URLPath := "/invites"
    Form := [("limit", ["10"])] }

/-- A request without an Authorization header. -/
def exAnonymous : Request :=
  { Header := [("Content-Type", ["application/json"])]
    Body := none
    RemoteAddr := "10.0.0.7:4242"
    Method := "GET"
    URLPath := "/invites"
    Form := [] }

/-- The clock reads second 2000 (and a few nanoseconds) and the storage
transaction succeeds. -/
def exWorld : World :=
  { now := 2000 * 1000000000 + 5, txNow := 2000 * 1000000000 + 9, beginErr := none,
    commitErr := none }

/-- The clock reads second 2000 and the commit of the storage transaction
fails. -/
def exWorldFault : World :=
  { now := 2000 * 1000000000 + 5, txNow := 2000 * 1000000000 + 9, beginErr := none,
    commitErr := some "disk full" }

/-- The sum of a measure over the values of a container. -/
def KV.total {α : Type} (f : α → Nat) (m : KV α) : Nat := (m.map (fun p => f p.2)).sum

/-- The number of records of a token bucket. -/
def recordCount (tokenBucket : KV String) : Nat := tokenBucket.total (fun _ => 1)

/-- The number of audit records stored in the log bucket: the numbers of
records of the token buckets of all days, summed. -/
def auditCount (db : DB) : Nat := db.log.total (KV.total recordCount)

/-- The lookup of an audit record: day bucket, then token bucket, then key. -/
def auditGet (db : DB) (dateStr token key : String) : Option String :=
  match db.log.Get dateStr with
  | none => none
  | some dayBucket =>
    match dayBucket.Get token with
    | none => none
    | some tokenBucket => tokenBucket.Get key

/-! ## Entities (`entity/user.go`, `entity/invite.go`, `entity/passreset.go`) -/

/-- The record `entity.User`. -/
structure User where
  Uuid : String
  FirstName : String
  LastName : String
  Password : String
  Email : String
  Role : String
  LastLogin : Int
  LastModified : Int
  CreatedOn : Int
  Deleted : Bool
  Invite : String
  deriving DecidableEq, Repr

/-- The record `entity.Invite`. -/
structure Invite where
  Uuid : String
  Email : String
  Role : String
  Status : String
  LastModified : Int
  CreatedOn : Int
  Expiry : Int
  InvitedBy : String
  Deleted : Bool
  deriving DecidableEq, Repr

/-- The record `entity.PassReset`. -/
structure PassReset where
  Uuid : String
  Email : String
  User : String
  ResetURL : String
  Expiry : Int
  LastModified : Int
  CreatedOn : Int
  Used : Bool
  deriving DecidableEq, Repr

/-- Invitation status `entity.Pending`. -/
def Pending : String := "pending"
/-- Invitation status `entity.Cancelled`. -/
def Cancelled : String := "cancelled"
/-- Invitation status `entity.Accepted`. -/
def Accepted : String := "accepted"

/-- Scheduled job `util.InviteJob`. -/
def InviteJob : String := "invite"
/-- Scheduled job `util.PassResetJob`. -/
def PassResetJob : String := "passreset"

/-- The value `new(entity.Session)`: every field zero. -/
def zeroSession : Session :=
  { User := "", Token := "", Access := "", CreatedOn := 0, Expiry := 0 }

/-- The value `new(User)`. -/
def zeroUser : User :=
  { Uuid := "", FirstName := "", LastName := "", Password := "", Email := "", Role := "",
    LastLogin := 0, LastModified := 0, CreatedOn := 0, Deleted := false, Invite := "" }

/-- The value `new(entity.Invite)`. -/
def zeroInvite : Invite :=
  { Uuid := "", Email := "", Role := "", Status := "", LastModified := 0, CreatedOn := 0,
    Expiry := 0, InvitedBy := "", Deleted := false }

/-- The value `new(entity.PassReset)`. -/
def zeroReset : PassReset :=
  { Uuid := "", Email := "", User := "", ResetURL := "", Expiry := 0, LastModified := 0,
    CreatedOn := 0, Used := false }

/-- The library functions the entity code calls.  A decoder
`json.Unmarshal(v, x)` takes the bytes and the record `x` it decodes into,
whose fields it overwrites; `none` is a decoding error.  For the records that
`GetUser` and `GetInvite` return together with the error, a second function
gives what a failed decoding leaves in `x`: the fields it could set. -/
structure EntityLib (P : Type) where
  /-- The type assertion `payload[key].(string)`. -/
  payloadString : P → String → Option String
  /-- The function `base58.Encode`. -/
  base58Encode : String → String
  /-- The call `bcrypt.CompareHashAndPassword(hash, password)`; `true` is a
  nil error. -/
  compareHashAndPassword : String → String → Bool
  /-- The call `json.Marshal(session)`. -/
  marshalSession : Session → Option String
  /-- The call `json.Unmarshal(v, session)`. -/
  unmarshalSession : String → Session → Option Session
  /-- The call `json.Marshal(user)`. -/
  marshalUser : User → Option String
  /-- The call `json.Unmarshal(v, user)`. -/
  unmarshalUser : String → User → Option User
  /-- The call `json.Marshal(invite)`. -/
  marshalInvite : Invite → Option String
  /-- The call `json.Unmarshal(v, invite)`. -/
  unmarshalInvite : String → Invite → Option Invite
  /-- The call `json.Marshal(reset)`. -/
  marshalReset : PassReset → Option String
  /-- The call `json.Unmarshal(v, reset)`. -/
  unmarshalReset : String → PassReset → Option PassReset
  /-- The record `json.Unmarshal(v, user)` leaves in `user` when it returns an
  error. -/
  unmarshalUserFailed : String → User → User
  /-- The record `json.Unmarshal(v, invite)` leaves in `invite` when it returns
  an error. -/
  unmarshalInviteFailed : String → Invite → Invite

/-- What a call that opens storage transactions reads from its environment:
the clock, and the messages of the errors, if any, with which bolt fails to
begin the read transaction, to begin the write transaction and to commit
it. -/
structure TxWorld where
  now : Time
  viewErr : Option String
  beginErr : Option String
  commitErr : Option String
  deriving DecidableEq, Repr

/-- What one call of `CreateSession` reads from its environment: the clock at
line 78, the clock at line 85, the string of the identifier `ksuid.New()`, and
the transaction faults. -/
structure LoginWorld where
  now : Time
  expiryNow : Time
  token : String
  viewErr : Option String
  beginErr : Option String
  commitErr : Option String
  deriving DecidableEq, Repr

/-- The result of running code that can panic. -/
inductive Run (α : Type) where
  | done (a : α)
  | panic
  deriving Repr

/-- What a handler writes to the client: `util.RespondWithError(w, code, err)`
or `util.RespondWithJSON(w, code, payload)`. -/
inductive Response (α : Type) where
  | error (code : Nat) (err : Err)
  | json (code : Nat) (payload : α)
  deriving Repr

/-- The status `http.StatusOK`. -/
def StatusOK : Nat := 200
/-- The status `http.StatusCreated`. -/
def StatusCreated : Nat := 201
/-- The status `http.StatusBadRequest`. -/
def StatusBadRequest : Nat := 400

/-- The bolt constant `MaxValueSize`. -/
def MaxValueSize : Nat := 2147483646

/-- The checks of the bolt call `Bucket.Put(key, value)` on a bucket of plain
values. -/
def putCheckValue (key value : String) : Option Err :=
  match putCheck key with
  | some err => some err
  | none => if value.utf8ByteSize > MaxValueSize then some (.ErrTx "value too large") else none

/-- The bolt call `DB.View(fn)`: `fn` runs on the database when the read
transaction begins; it updates the variables it captures, whose values are
`init` at the call, and returns an error or nil. -/
def DB.View {σ : Type} (db : DB) (beginErr : Option String) (init : σ)
    (fn : DB → σ × Option Err) : σ × Option Err :=
  match beginErr with
  | some msg => (init, some (.ErrTx msg))
  | none => fn db

/-! ## Session creation and lookup (`entity/session.go`, `service/session.go`) -/

/-- The function `entity.GetSession`: fetches the session associated with the
provided id.  The type assertion `entry.(Session)` panics on an entry that is
not a `Session` value. -/
def GetSession (id : String) (sessionMap : ConcurrentMap) : Run (Except Err Session) :=
  match sessionMap.Get id with
  | none => .done (.error (.ErrKeyNotFound id))
  | some (.val session) => .done (.ok session)
  | some (.ptr _) => .panic

/-- The method `Session.Update`: stores the most updated state of the session
entity, by value, under its token. -/
def Session.Update (session : Session) (sessionMap : ConcurrentMap) : ConcurrentMap :=
  sessionMap.Set session.Token (.val session)

/-- The function `entity.GetUser`: fetches the user associated with the
provided id. -/
def GetUser {P : Type} (elib : EntityLib P) (id : String) (db : DB)
    (viewErr : Option String) : User × Option Err :=
  db.View viewErr zeroUser (fun db =>
    match db.user.Get id with
    | none => (zeroUser, some (.ErrKeyNotFound id))
    | some v =>
      match elib.unmarshalUser v zeroUser with
      | none => (elib.unmarshalUserFailed v zeroUser, some .ErrJSON)
      | some user => (user, none))

/-- The method `User.Update`: stores the most updated state of the user
entity. -/
def User.Update {P : Type} (elib : EntityLib P) (user : User) (db : DB)
    (beginErr commitErr : Option String) : Option Err × DB :=
  db.Update beginErr commitErr (fun db =>
    match elib.marshalUser user with
    | none => .error .ErrMalformedJSON
    | some userBytes =>
      match putCheckValue user.Uuid userBytes with
      | some err => .error err
      | none => .ok { db with user := db.user.Put user.Uuid userBytes })

/-- The handler `Service.GetSession`, for the path variable `id`. -/
def Service.GetSession (service : Service) (id : String) : Run (Response Session) :=
  match Boltkit.GetSession id service.SessionMap with
  | .panic => .panic
  | .done (.error err) => .done (.error StatusBadRequest err)
  | .done (.ok session) => .done (.json StatusOK session)

/-- The handler `Service.CreateSession`.  Returns what is written to the
client and the state the call leaves; reading a nil body panics. -/
def CreateSession {P : Type} (lib : Lib P) (elib : EntityLib P) (w : LoginWorld)
    (service : Service) (req : Request) : Run (Response Session) × Service :=
  match req.Body with
  | none => (.panic, service)
  | some reader =>
    match ReadAll reader with
    | .error _ => (.done (.error StatusBadRequest .ErrReadBody), service)
    | .ok body =>
      if (body.getD "").utf8ByteSize = 0 then
        (.done (.error StatusBadRequest .ErrMalformedPayload), service)
      else
        match lib.jsonUnmarshal (body.getD "") with
        | none => (.done (.error StatusBadRequest .ErrMalformedJSON), service)
        | some payload =>
          match elib.payloadString payload "email" with
          | none => (.done (.error StatusBadRequest (.ErrKeyNotFound "email")), service)
          | some email =>
            match elib.payloadString payload "password" with
            | none =>
              (.done (.error StatusBadRequest (.ErrKeyNotFound "password")), service)
            | some password =>
              -- Assert the requesting user exists and the supplied password matches.
              let emailB58 := elib.base58Encode email
              match GetUser elib emailB58 service.Bolt w.viewErr with
              | (_, some err) => (.done (.error StatusBadRequest err), service)
              | (user, none) =>
                if !elib.compareHashAndPassword user.Password password then
                  (.done (.error StatusBadRequest .ErrUnauthorizedAccess), service)
                else
                  -- Create the session, with expiry set to two hours from time created.
                  let now := w.now
                  let token := w.token
                  let session : Session :=
                    { User := user.Uuid
                      Token := token
                      Access := user.Role
                      CreatedOn := now.Unix
                      Expiry := (GetFutureTime w.expiryNow 0 2 0 0).Unix }
                  let user := { user with LastLogin := now.Unix }
                  let sessionMap := session.Update service.SessionMap
                  let bolt := (user.Update elib service.Bolt w.beginErr w.commitErr).2
                  (.done (.json StatusCreated session),
                    { SessionMap := sessionMap, Bolt := bolt })

/-! ## The session checkpoint (`service/service.go`) -/

/-- The loop of `SaveSessions` over the keys of the session map, on the
session bucket of the write transaction. -/
def saveLoop {P : Type} (elib : EntityLib P) (now : Int) (sessionMap : ConcurrentMap) :
    List String → KV String → Run (Except Err (KV String))
  | [], bucket => .done (.ok bucket)
  | key :: keys, bucket =>
    match sessionMap.Get key with
    | some (.val session) =>
      -- Only save unexpired sessions
      if now < session.Expiry then
        match elib.marshalSession session with
        | none => .done (.error .ErrJSON)
        | some sessionBytes =>
          match putCheckValue key sessionBytes with
          | some err => .done (.error err)
          | none => saveLoop elib now sessionMap keys (bucket.Put key sessionBytes)
      else saveLoop elib now sessionMap keys bucket
    | _ => .panic

/-- The method `Service.SaveSessions`: persists all unexpired sessions.  The
write transaction is begun, the loop runs on it and it is committed; an error
of any of the three leaves the store as it was. -/
def SaveSessions {P : Type} (elib : EntityLib P) (w : TxWorld) (service : Service) :
    Run (Option Err) × Service :=
  match w.beginErr with
  | some msg => (.done (some (.ErrTx msg)), service)
  | none =>
    match saveLoop elib w.now.Unix service.SessionMap service.SessionMap.Keys
        service.Bolt.session with
    | .panic => (.panic, service)
    | .done (.error err) => (.done (some err), service)
    | .done (.ok bucket) =>
      match w.commitErr with
      | some msg => (.done (some (.ErrTx msg)), service)
      | none => (.done none, { service with Bolt := { service.Bolt with session := bucket } })

/-- The loop of `LoadSessions` over the session bucket: `session` is the one
record allocated before the loop, at address `addr`, that every decoding
overwrites and that every stored entry points to. -/
def loadLoop {P : Type} (elib : EntityLib P) (now : Int) (addr : Nat) :
    KV String → Session → ConcurrentMap → (Session × ConcurrentMap) × Option Err
  | [], session, sessionMap => ((session, sessionMap), none)
  | (k, v) :: rest, session, sessionMap =>
    match elib.unmarshalSession v session with
    | none => ((session, sessionMap), some .ErrJSON)
    | some session =>
      -- Only load unexpired sessions
      if now > session.Expiry then
        loadLoop elib now addr rest session (sessionMap.Set k (.ptr addr))
      else loadLoop elib now addr rest session sessionMap

/-- What `LoadSessions` leaves: the error it returns, the state, and the
content of the record at `addr`. -/
structure LoadResult where
  err : Option Err
  service : Service
  cell : Session
  deriving Repr

/-- The method `Service.LoadSessions`: fetches sessions into memory. -/
def LoadSessions {P : Type} (elib : EntityLib P) (w : TxWorld) (addr : Nat)
    (service : Service) : LoadResult :=
  let r := service.Bolt.View w.viewErr (zeroSession, service.SessionMap) (fun db =>
    loadLoop elib w.now.Unix addr db.session zeroSession service.SessionMap)
  { err := r.2, service := { service with SessionMap := r.1.2 }, cell := r.1.1 }

/-! ## The expiry scheduler (`scheduler/scheduler.go`) -/

/-- The condition of line 79: the invitation is expired and not pending, or
cancelled. -/
def staleInvite (now : Int) (invite : Invite) : Bool :=
  (decide (now > invite.Expiry) && decide (invite.Status ≠ Pending))
    || decide (invite.Status = Cancelled)

/-- The condition of line 124: the password reset is expired and unused. -/
def staleReset (now : Int) (reset : PassReset) : Bool :=
  decide (now > reset.Expiry) && !reset.Used

/-- The cursor loop of `ExpiredInvites`: `invite` is the one record every
decoding overwrites, `expiredInvites` the list collected so far. -/
def scanInvites {P : Type} (elib : EntityLib P) (now : Int) :
    KV String → Invite → List Invite → List Invite × Option Err
  | [], _, expiredInvites => (expiredInvites, none)
  | (_, v) :: rest, invite, expiredInvites =>
    match elib.unmarshalInvite v invite with
    | none => (expiredInvites, some .ErrJSON)
    | some invite =>
      -- Only load expired or cancelled invites.
      if staleInvite now invite then
        scanInvites elib now rest invite (expiredInvites ++ [invite])
      else scanInvites elib now rest invite expiredInvites

/-- The cursor loop of `ExpiredPassReset`. -/
def scanResets {P : Type} (elib : EntityLib P) (now : Int) :
    KV String → PassReset → List PassReset → List PassReset × Option Err
  | [], _, expiredResets => (expiredResets, none)
  | (_, v) :: rest, reset, expiredResets =>
    match elib.unmarshalReset v reset with
    | none => (expiredResets, some .ErrJSON)
    | some reset =>
      -- Only load expired and unused password resets.
      if staleReset now reset then
        scanResets elib now rest reset (expiredResets ++ [reset])
      else scanResets elib now rest reset expiredResets

/-- The delete loops of the sweeps: `bucket.Delete` for each collected
identifier in turn. -/
def deleteAll (bucket : KV String) : List String → KV String
  | [] => bucket
  | uuid :: rest => deleteAll (bucket.Remove uuid) rest

/-- The function `ExpiredInvites`: removes expired invitations from
storage.  The errors of the two transactions are logged and dropped. -/
def ExpiredInvites {P : Type} (elib : EntityLib P) (w : TxWorld) (app : Service) : Service :=
  let expiredInvites := (app.Bolt.View w.viewErr [] (fun db =>
    scanInvites elib w.now.Unix db.invite zeroInvite [])).1
  if expiredInvites.length > 0 then
    { app with
      Bolt := (app.Bolt.Update w.beginErr w.commitErr (fun db =>
        .ok { db with
          invite := deleteAll db.invite (expiredInvites.map (fun invite => invite.Uuid)) })).2 }
  else app

/-- The function `ExpiredPassReset`: removes expired password resets from
storage. -/
def ExpiredPassReset {P : Type} (elib : EntityLib P) (w : TxWorld) (app : Service) : Service :=
  let expiredResets := (app.Bolt.View w.viewErr [] (fun db =>
    scanResets elib w.now.Unix db.passreset zeroReset [])).1
  if expiredResets.length > 0 then
    { app with
      Bolt := (app.Bolt.Update w.beginErr w.commitErr (fun db =>
        .ok { db with
          passreset := deleteAll db.passreset (expiredResets.map (fun reset => reset.Uuid)) })).2 }
  else app

/-- The body of the loop of `Scheduler.Process` for one received job: the
`switch` compares the job with `util.InviteJob` in both of its cases, taken in
order; the default case logs the job. -/
def dispatch {P : Type} (elib : EntityLib P) (w : TxWorld) (job : String) (app : Service) :
    Service :=
  if job = InviteJob then ExpiredInvites elib w app
  else if job = InviteJob then ExpiredPassReset elib w app
  else app

/-- The method `Scheduler.Process` on the jobs received from the channel, in
order, each with the environment of its run. -/
def Process {P : Type} (elib : EntityLib P) : List (String × TxWorld) → Service → Service
  | [], app => app
  | (job, w) :: rest, app => Process elib rest (dispatch elib w job app)

/-! ## Instances used to evaluate the entity code on concrete inputs -/

/-- The pieces of a character list between the occurrences of a separator. -/
def splitOnChar (sep : Char) : List Char → List (List Char)
  | [] => [[]]
  | c :: cs =>
    if c = sep then [] :: splitOnChar sep cs
    else match splitOnChar sep cs with
      | [] => [[c]]
      | h :: t => (c :: h) :: t

/-- The fields of a text, cut at a separator. -/
def fieldsOf (sep : Char) (s : String) : List String :=
  (splitOnChar sep s.data).map String.mk

/-- The number written by a list of decimal digits, after `acc`. -/
def digitsToNat : List Char → Nat → Option Nat
  | [], acc => some acc
  | c :: cs, acc =>
    if 48 ≤ c.toNat ∧ c.toNat ≤ 57 then digitsToNat cs (acc * 10 + (c.toNat - 48)) else none

/-- The integer written in decimal, with an optional minus sign. -/
def parseInt (s : String) : Option Int :=
  match s.data with
  | [] => none
  | '-' :: ds => if ds = [] then none else (digitsToNat ds 0).map (fun n => - (n : Int))
  | ds => (digitsToNat ds 0).map (fun n => (n : Int))

/-- The boolean written `true` or `false`. -/
def parseBool (s : String) : Option Bool :=
  if s = "true" then some true else if s = "false" then some false else none

/-- The fields of a record, joined by bars. -/
def joinFields (fields : List String) : String := String.intercalate "|" fields

/-- The demo encoding of a session. -/
def encSession (x : Session) : String :=
  joinFields [x.User, x.Token, x.Access, toString x.CreatedOn, toString x.Expiry]

/-- The demo decoding of a session: five fields, the last two integers. -/
def decSession (v : String) : Option Session :=
  match fieldsOf '|' v with
  | [user, token, access, createdOn, expiry] =>
    match parseInt createdOn, parseInt expiry with
    | some c, some e =>
      some { User := user, Token := token, Access := access, CreatedOn := c, Expiry := e }
    | _, _ => none
  | _ => none

/-- The demo encoding of a user. -/
def encUser (x : User) : String :=
  joinFields [x.Uuid, x.FirstName, x.LastName, x.Password, x.Email, x.Role,
    toString x.LastLogin, toString x.LastModified, toString x.CreatedOn, toString x.Deleted,
    x.Invite]

/-- The demo decoding of a user. -/
def decUser (v : String) : Option User :=
  match fieldsOf '|' v with
  | [uuid, firstName, lastName, password, email, role, lastLogin, lastModified, createdOn,
      deleted, invite] =>
    match parseInt lastLogin, parseInt lastModified, parseInt createdOn, parseBool deleted with
    | some l, some m, some c, some d =>
      some { Uuid := uuid, FirstName := firstName, LastName := lastName, Password := password,
             Email := email, Role := role, LastLogin := l, LastModified := m, CreatedOn := c,
             Deleted := d, Invite := invite }
    | _, _, _, _ => none
  | _ => none

/-- The demo encoding of an invitation. -/
def encInvite (x : Invite) : String :=
  joinFields [x.Uuid, x.Email, x.Role, x.Status, toString x.LastModified,
    toString x.CreatedOn, toString x.Expiry, x.InvitedBy, toString x.Deleted]

/-- The demo decoding of an invitation. -/
def decInvite (v : String) : Option Invite :=
  match fieldsOf '|' v with
  | [uuid, email, role, status, lastModified, createdOn, expiry, invitedBy, deleted] =>
    match parseInt lastModified, parseInt createdOn, parseInt expiry, parseBool deleted with
    | some m, some c, some e, some d =>
      some { Uuid := uuid, Email := email, Role := role, Status := status, LastModified := m,
             CreatedOn := c, Expiry := e, InvitedBy := invitedBy, Deleted := d }
    | _, _, _, _ => none
  | _ => none

/-- What a failed demo decoding leaves in an invitation: from a value of nine
fields, the text fields and those of the other fields that parse; the fields
that do not parse, and every field of a value that has not nine fields, keep
what the record held. -/
def decInviteFailed (v : String) (invite : Invite) : Invite :=
  match fieldsOf '|' v with
  | [uuid, email, role, status, lastModified, createdOn, expiry, invitedBy, deleted] =>
    { Uuid := uuid, Email := email, Role := role, Status := status,
      LastModified := (parseInt lastModified).getD invite.LastModified,
      CreatedOn := (parseInt createdOn).getD invite.CreatedOn,
      Expiry := (parseInt expiry).getD invite.Expiry, InvitedBy := invitedBy,
      Deleted := (parseBool deleted).getD invite.Deleted }
  | _ => invite

/-- The demo encoding of a password reset. -/
def encReset (x : PassReset) : String :=
  joinFields [x.Uuid, x.Email, x.User, x.ResetURL, toString x.Expiry,
    toString x.LastModified, toString x.CreatedOn, toString x.Used]

/-- The demo decoding of a password reset. -/
def decReset (v : String) : Option PassReset :=
  match fieldsOf '|' v with
  | [uuid, email, user, resetURL, expiry, lastModified, createdOn, used] =>
    match parseInt expiry, parseInt lastModified, parseInt createdOn, parseBool used with
    | some e, some m, some c, some u =>
      some { Uuid := uuid, Email := email, User := user, ResetURL := resetURL, Expiry := e,
             LastModified := m, CreatedOn := c, Used := u }
    | _, _, _, _ => none
  | _ => none

/-- The value of a key in a demo payload: the text between braces is a list
of `key=value` pairs separated by semicolons. -/
def demoPayloadString (payload key : String) : Option String :=
  let pairs := ((splitOnChar ';' (payload.data.drop 1).dropLast).map (splitOnChar '=')).filterMap
    (fun kv => match kv with
      | [k, v] => some (String.mk k, String.mk v)
      | _ => none)
  KV.Get pairs key

/-- A small instance of the entity library.  Records are encoded as their
fields joined by bars and every decoding overwrites all the fields; a failed
decoding leaves a user as it was and sets the fields of an invitation that
parse; the base-58 encoding of a text is the text after `b58:`; the hash of a
password is the password after `hash:`. -/
def demoEntityLib : EntityLib String where
  payloadString := demoPayloadString
  base58Encode := fun s => "b58:" ++ s
  compareHashAndPassword := fun hash password => decide (hash = "hash:" ++ password)
  marshalSession := fun x => some (encSession x)
  unmarshalSession := fun v _ => decSession v
  marshalUser := fun x => some (encUser x)
  unmarshalUser := fun v _ => decUser v
  marshalInvite := fun x => some (encInvite x)
  unmarshalInvite := fun v _ => decInvite v
  marshalReset := fun x => some (encReset x)
  unmarshalReset := fun v _ => decReset v
  unmarshalUserFailed := fun _ user => user
  unmarshalInviteFailed := decInviteFailed

/-- The administrator, whose password is `secret`. -/
def exUser : User :=
  { Uuid := "b58:admin@x.io", FirstName := "boltkit", LastName := "admin",
    Password := "hash:secret", Email := "admin@x.io", Role := "admin", LastLogin := 0,
    LastModified := 0, CreatedOn := 500, Deleted := false, Invite := "-" }

/-- A state with an empty session map and the administrator stored. -/
def exLoginService : Service :=
  { SessionMap := []
    Bolt := { emptyDB with user := [("b58:admin@x.io", encUser exUser)] } }

/-- A login request with the given body. -/
def exLoginRequest (body : String) : Request :=
  { Header := [("Content-Type", ["application/json"])]
    Body := some (.yields body)
    RemoteAddr := "10.0.0.7:4242"
    Method := "POST"
    URLPath := "/sessions"
    Form := [] }

/-- Both clock readings of the login fall in second 1000. -/
def exLoginWorld : LoginWorld :=
  { now := 1000 * 1000000000 + 5, expiryNow := 1000 * 1000000000 + 9, token := "tok-1",
    viewErr := none, beginErr := none, commitErr := none }

/-- The first clock reading of the login is the last nanosecond of second
1000, the second one the first nanosecond of second 1001. -/
def exLoginWorldTick : LoginWorld :=
  { now := 1000 * 1000000000 + 999999999, expiryNow := 1001 * 1000000000, token := "tok-1",
    viewErr := none, beginErr := none, commitErr := none }

/-- The clock reads second 2000 and no transaction fails. -/
def exTxWorld : TxWorld :=
  { now := 2000 * 1000000000 + 5, viewErr := none, beginErr := none, commitErr := none }

/-- An invitation with the given identifier, status and expiry. -/
def exInvite (uuid status : String) (expiry : Int) : Invite :=
  { Uuid := uuid, Email := uuid ++ "@x.io", Role := "finance", Status := status,
    LastModified := 0, CreatedOn := 100, Expiry := expiry, InvitedBy := "root",
    Deleted := false }

/-- A password reset with the given identifier, expiry and use. -/
def exReset (uuid : String) (expiry : Int) (used : Bool) : PassReset :=
  { Uuid := uuid, Email := uuid ++ "@x.io", User := "U1", ResetURL := "/reset/" ++ uuid,
    Expiry := expiry, LastModified := 0, CreatedOn := 100, Used := used }

/-- A state whose invitation and password-reset buckets hold the given
entries. -/
def exStore (invites resets : KV String) : Service :=
  { SessionMap := [], Bolt := { emptyDB with invite := invites, passreset := resets } }

/-- Four invitations under their own identifiers: cancelled and not yet
expired, pending and expired, accepted and expired, accepted and not yet
expired. -/
def exInvites : KV String :=
  [("a", encInvite (exInvite "a" "cancelled" 9000)),
   ("b", encInvite (exInvite "b" "pending" 1500)),
   ("c", encInvite (exInvite "c" "accepted" 1500)),
   ("d", encInvite (exInvite "d" "accepted" 9000))]

/-- Three password resets under their own identifiers: expired and unused,
expired and used, not yet expired and unused. -/
def exResets : KV String :=
  [("p", encReset (exReset "p" 1500 false)),
   ("q", encReset (exReset "q" 1500 true)),
   ("r", encReset (exReset "r" 9000 false))]

/-- A state whose session bucket holds a session that expired at second 1500
and one that expires at second 9000, with an empty session map. -/
def exCheckpoint : Service :=
  { SessionMap := []
    Bolt := { emptyDB with
      session := [("dead", encSession { exStale with Token := "dead" }),
                  ("live", encSession { exSession with Token := "live", Expiry := 9000 })] } }

/-! ## Invitations, password resets and users (`service/invite.go`,
`service/passreset.go`, `service/user.go`) -/

/-- What one call of a creating handler reads from its environment: its
first and second reading of the clock, the string of the identifier
`ksuid.New()`, the result of `util.BcryptHash` (`none` is an error), and the
messages of the errors, if any, with which bolt fails to begin the read
transaction of a fetch by key, the read transaction of a cursor walk, the write
transaction, and to commit the write transaction. -/
structure HandlerWorld where
  now : Time
  now2 : Time
  ident : String
  hash : Option String
  viewErr : Option String
  scanErr : Option String
  beginErr : Option String
  commitErr : Option String
  deriving DecidableEq, Repr

/-- The function `entity.GetInvite`: fetches the invite associated with the
provided id. -/
def GetInvite {P : Type} (elib : EntityLib P) (id : String) (db : DB)
    (viewErr : Option String) : Invite × Option Err :=
  db.View viewErr zeroInvite (fun db =>
    match db.invite.Get id with
    | none => (zeroInvite, some (.ErrKeyNotFound id))
    | some v =>
      match elib.unmarshalInvite v zeroInvite with
      | none => (elib.unmarshalInviteFailed v zeroInvite, some .ErrJSON)
      | some invite => (invite, none))

/-- The method `Invite.Update`: stores the most updated state of the
invite entity. -/
def Invite.Update {P : Type} (elib : EntityLib P) (invite : Invite) (db : DB)
    (beginErr commitErr : Option String) : Option Err × DB :=
  db.Update beginErr commitErr (fun db =>
    match elib.marshalInvite invite with
    | none => .error .ErrMalformedJSON
    | some inviteBytes =>
      match putCheckValue invite.Uuid inviteBytes with
      | some err => .error err
      | none => .ok { db with invite := db.invite.Put invite.Uuid inviteBytes })

/-- The method `PassReset.Update`: stores the most updated state of the
password reset entity. -/
def PassReset.Update {P : Type} (elib : EntityLib P) (reset : PassReset) (db : DB)
    (beginErr commitErr : Option String) : Option Err × DB :=
  db.Update beginErr commitErr (fun db =>
    match elib.marshalReset reset with
    | none => .error .ErrMalformedJSON
    | some resetBytes =>
      match putCheckValue reset.Uuid resetBytes with
      | some err => .error err
      | none => .ok { db with passreset := db.passreset.Put reset.Uuid resetBytes })

/-- The cursor loop of lines 104-121 of `CreateInvite`: whether an invitation
with the email is found before the walk ends or a value fails to decode. -/
def emailInvited {P : Type} (elib : EntityLib P) (email : String) :
    KV String → Invite → Bool
  | [], _ => false
  | (_, v) :: rest, currInvite =>
    match elib.unmarshalInvite v currInvite with
    | none => false
    | some currInvite =>
      if currInvite.Email = email then true else emailInvited elib email rest currInvite

/-- Lines 55-158 of `CreateInvite`: the handler once the request is granted. -/
def createInviteGranted {P : Type} (lib : Lib P) (elib : EntityLib P) (w : HandlerWorld)
    (service : Service) (req : Request) : Run (Response Invite) × Service :=
  match req.Body with
  | none => (.panic, service)
  | some reader =>
    match ReadAll reader with
    | .error _ => (.done (.error StatusBadRequest .ErrReadBody), service)
    | .ok body =>
      if (body.getD "").utf8ByteSize = 0 then
        (.done (.error StatusBadRequest .ErrMalformedPayload), service)
      else
        match lib.jsonUnmarshal (body.getD "") with
        | none => (.done (.error StatusBadRequest .ErrMalformedJSON), service)
        | some payload =>
          match elib.payloadString payload "email" with
          | none => (.done (.error StatusBadRequest (.ErrKeyNotFound "email")), service)
          | some email =>
            match elib.payloadString payload "role" with
            | none => (.done (.error StatusBadRequest (.ErrKeyNotFound "role")), service)
            | some role =>
              match elib.payloadString payload "invitedBy" with
              | none =>
                (.done (.error StatusBadRequest (.ErrKeyNotFound "invitedBy")), service)
              | some invitedBy =>
                match (GetUser elib invitedBy service.Bolt w.viewErr).2 with
                | some _ =>
                  (.done (.error StatusBadRequest (.ErrKeyNotFound "invitedBy")), service)
                | none =>
                  -- Assert the email of the invited is not already in the system.
                  let found := (service.Bolt.View w.scanErr false (fun db =>
                    (emailInvited elib email db.invite zeroInvite, none))).1
                  if found then
                    (.done (.error StatusBadRequest
                      (.ErrorsNew "invite already exists for provided email.")), service)
                  else
                    let now := w.now
                    let invite : Invite :=
                      { Uuid := w.ident
                        LastModified := 0
                        CreatedOn := now.Unix
                        Expiry := (GetFutureTime now 0 7 0 0).Unix
                        Deleted := false
                        Email := email
                        Status := Pending
                        Role := role
                        InvitedBy := invitedBy }
                    match invite.Update elib service.Bolt w.beginErr w.commitErr with
                    | (some err, _) => (.done (.error StatusBadRequest err), service)
                    | (none, bolt) =>
                      (.done (.json StatusCreated invite), { service with Bolt := bolt })

/-- The handler `Service.CreateInvite`: the request is validated for the role
`admin` and, when granted, handled; `none` is a return without an answer.  The
body is read again as `ValidateRequest` restored it. -/
def CreateInvite {P : Type} (lib : Lib P) (elib : EntityLib P) (vw : World)
    (w : HandlerWorld) (service : Service) (req : Request) :
    Run (Option (Response Invite)) × Service :=
  match ValidateRequest lib vw service [Admin] req with
  | (.panic, service) => (.panic, service)
  | (.ret _ (some err), service) => (.done (some (.error StatusBadRequest err)), service)
  | (.ret true none, service) =>
    match createInviteGranted lib elib w service req with
    | (.panic, service) => (.panic, service)
    | (.done response, service) => (.done (some response), service)
  | (.ret false none, service) => (.done none, service)

/-- The method `PassReset.Sanitize`: removes the sensitive details. -/
def PassReset.Sanitize (reset : PassReset) : PassReset := { reset with ResetURL := "" }

/-- The method `User.Sanitize`: removes the sensitive details. -/
def User.Sanitize (user : User) : User := { user with Password := "" }

/-- The handler `Service.CreateReset`; `frontend` is `service.Cfg.Frontend`. -/
def CreateReset {P : Type} (lib : Lib P) (elib : EntityLib P) (w : HandlerWorld)
    (frontend : String) (service : Service) (req : Request) :
    Run (Response PassReset) × Service :=
  match req.Body with
  | none => (.panic, service)
  | some reader =>
    match ReadAll reader with
    | .error _ => (.done (.error StatusBadRequest .ErrReadBody), service)
    | .ok body =>
      if (body.getD "").utf8ByteSize = 0 then
        (.done (.error StatusBadRequest .ErrMalformedPayload), service)
      else
        match lib.jsonUnmarshal (body.getD "") with
        | none => (.done (.error StatusBadRequest .ErrMalformedJSON), service)
        | some payload =>
          match elib.payloadString payload "email" with
          | none => (.done (.error StatusBadRequest (.ErrKeyNotFound "email")), service)
          | some email =>
            match elib.payloadString payload "user" with
            | none => (.done (.error StatusBadRequest (.ErrKeyNotFound "user")), service)
            | some user =>
              -- Create the password reset, setting an expiry of 5 days.
              let now := w.now
              let token := w.ident
              let resetURL := frontend ++ "/#!/reset/" ++ token
              let reset : PassReset :=
                { User := user
                  Email := email
                  Uuid := token
                  CreatedOn := now.Unix
                  Used := false
                  ResetURL := resetURL
                  Expiry := (GetFutureTime w.now2 0 5 0 0).Unix
                  LastModified := 0 }
              match reset.Update elib service.Bolt w.beginErr w.commitErr with
              | (some err, _) => (.done (.error StatusBadRequest err), service)
              | (none, bolt) =>
                (.done (.json StatusCreated reset.Sanitize), { service with Bolt := bolt })

/-- Lines 104-151 of `CreateUser`: the handler once the six keys of the
payload are read.  The error of `GetInvite` is answered without a return, so
the answers are a list. -/
def createUserFrom {P : Type} (elib : EntityLib P) (w : HandlerWorld) (service : Service)
    (inviteRef firstName lastName _password email role : String) :
    List (Response User) × Service :=
  let (invite, err) := GetInvite elib inviteRef service.Bolt w.viewErr
  let answered : List (Response User) :=
    match err with
    | some err => [.error StatusBadRequest err]
    | none => []
  if invite.Email ≠ email then
    (answered ++ [.error StatusBadRequest
      (.ErrorsNew "invite not associated with user being created")], service)
  else if invite.Expiry < w.now.Unix then
    (answered ++ [.error StatusBadRequest (.ErrorsNew "invite expired")], service)
  else
    match w.hash with
    | none => (answered ++ [.error StatusBadRequest .ErrBcryptHash], service)
    | some hashedPassword =>
      let now := w.now2
      let user : User :=
        { Uuid := elib.base58Encode email
          LastLogin := 0
          LastModified := 0
          CreatedOn := now.Unix
          Deleted := false
          FirstName := firstName
          LastName := lastName
          Password := hashedPassword
          Email := email
          Role := role
          Invite := inviteRef }
      match user.Update elib service.Bolt w.beginErr w.commitErr with
      | (some err, _) => (answered ++ [.error StatusBadRequest err], service)
      | (none, bolt) =>
        (answered ++ [.json StatusCreated user.Sanitize], { service with Bolt := bolt })

/-- The handler `Service.CreateUser`.  Returns the answers written to the
client, in order, and the state the call leaves. -/
def CreateUser {P : Type} (lib : Lib P) (elib : EntityLib P) (w : HandlerWorld)
    (service : Service) (req : Request) : Run (List (Response User)) × Service :=
  match req.Body with
  | none => (.panic, service)
  | some reader =>
    match ReadAll reader with
    | .error _ => (.done [.error StatusBadRequest .ErrReadBody], service)
    | .ok body =>
      if (body.getD "").utf8ByteSize = 0 then
        (.done [.error StatusBadRequest .ErrMalformedPayload], service)
      else
        match lib.jsonUnmarshal (body.getD "") with
        | none => (.done [.error StatusBadRequest .ErrMalformedJSON], service)
        | some payload =>
          match elib.payloadString payload "invite" with
          | none => (.done [.error StatusBadRequest (.ErrKeyNotFound "invite")], service)
          | some inviteRef =>
          match elib.payloadString payload "firstName" with
          | none => (.done [.error StatusBadRequest (.ErrKeyNotFound "firstName")], service)
          | some firstName =>
          match elib.payloadString payload "lastName" with
          | none => (.done [.error StatusBadRequest (.ErrKeyNotFound "lastName")], service)
          | some lastName =>
          match elib.payloadString payload "password" with
          | none => (.done [.error StatusBadRequest (.ErrKeyNotFound "password")], service)
          | some password =>
          match elib.payloadString payload "email" with
          | none => (.done [.error StatusBadRequest (.ErrKeyNotFound "email")], service)
          | some email =>
          match elib.payloadString payload "role" with
          | none => (.done [.error StatusBadRequest (.ErrKeyNotFound "role")], service)
          | some role =>
            let r := createUserFrom elib w service inviteRef firstName lastName password
              email role
            (.done r.1, r.2)

/-! ## Listings (`entity/invite.go`, `entity/requestlog.go`) -/

/-- The library functions the listing code calls. -/
structure ListLib (P : Type) where
  /-- The function `strings.ToLower`. -/
  toLower : String → String
  /-- The function `strings.Contains(s, substr)`. -/
  contains : String → String → Bool
  /-- The call `fmtdate.Parse(util.TimeFormat, date)`, with the message of its
  error. -/
  fmtdateParse : String → Except String Time
  /-- The call `json.Unmarshal(v, currLog)`. -/
  unmarshalRequestLog : String → RequestLog P → Option (RequestLog P)

/-- The number of values of a `uint32`. -/
def U32 : Nat := 4294967296

/-- Lines 88-94 of `ListInvites`: the data size target, in `uint32`
arithmetic. -/
def pageTarget (pageLimit offset : Nat) : Nat :=
  if offset > 0 then (pageLimit * ((offset + 1) % U32)) % U32 else pageLimit

/-- The condition of lines 103-105 of `ListInvites`. -/
def inviteMatches {P : Type} (slib : ListLib P) (term : String) (currInvite : Invite) : Bool :=
  (slib.contains (slib.toLower currInvite.Email) (slib.toLower term) ||
    slib.contains (slib.toLower currInvite.InvitedBy) (slib.toLower term) ||
    slib.contains (slib.toLower currInvite.Role) (slib.toLower term)) && !currInvite.Deleted

/-- The cursor loop of `ListInvites`, lines 96-121: `currInvite` is the one
record every decoding overwrites, `inviteList` the list collected so far; a
`break` ends the walk. -/
def listInvitesLoop {P : Type} (elib : EntityLib P) (slib : ListLib P) (term : String)
    (target : Nat) : KV String → Invite → List Invite → List Invite × Option Err
  | [], _, inviteList => (inviteList, none)
  | (_, v) :: rest, currInvite, inviteList =>
    match elib.unmarshalInvite v currInvite with
    | none => (inviteList, some .ErrMalformedJSON)
    | some currInvite =>
      if term ≠ "" ∧ inviteMatches slib term currInvite = true then
        -- Stop iterating when data target has been met.
        if (inviteList ++ [currInvite]).length % U32 = target then
          (inviteList ++ [currInvite], none)
        else listInvitesLoop elib slib term target rest currInvite (inviteList ++ [currInvite])
      else if term = "" ∧ currInvite.Deleted = false then
        if (inviteList ++ [currInvite]).length % U32 = target then
          (inviteList ++ [currInvite], none)
        else listInvitesLoop elib slib term target rest currInvite (inviteList ++ [currInvite])
      else listInvitesLoop elib slib term target rest currInvite inviteList

/-- The slice expression `list[(pageLimit * offset):]` of the listings: a
run-time panic when the bound exceeds the length of the list. -/
def sliceFrom {α : Type} (list : List α) (pageLimit offset : Nat) : Run (List α) :=
  if (pageLimit * offset) % U32 > list.length then .panic
  else .done (list.drop ((pageLimit * offset) % U32))

/-- The function `entity.ListInvites`: returns a set of invites that match
the query criteria; `pageLimit` and `offset` are `uint32` values.  The result
is the list and the error, or a panic of the slice expression. -/
def ListInvites {P : Type} (elib : EntityLib P) (slib : ListLib P) (viewErr : Option String)
    (db : DB) (pageLimit : Nat) (term : String) (offset : Nat) :
    Run (List Invite × Option Err) :=
  match viewErr with
  | some msg => .done ([], some (.ErrTx msg))
  | none =>
    match listInvitesLoop elib slib term (pageTarget pageLimit offset) db.invite zeroInvite []
    with
    | (inviteList, some err) => .done (inviteList, some err)
    | (inviteList, none) =>
      -- Slice the relevant data according to the page limit and offset.
      if offset > 0 then
        match sliceFrom inviteList pageLimit offset with
        | .panic => .panic
        | .done inviteList => .done (inviteList, none)
      else .done (inviteList, none)

/-- The cursor loop of `ListRequestLog`, lines 50-66. -/
def listLogLoop {P : Type} (slib : ListLib P) (requestType : String) (target : Nat) :
    KV String → RequestLog P → List (RequestLog P) → List (RequestLog P) × Option Err
  | [], _, logList => (logList, none)
  | (_, v) :: rest, currLog, logList =>
    match slib.unmarshalRequestLog v currLog with
    | none => (logList, some .ErrMalformedJSON)
    | some currLog =>
      let logList :=
        if requestType = "" then logList ++ [currLog]
        else if slib.toLower currLog.RequestType = slib.toLower requestType then
          logList ++ [currLog]
        else logList
      -- Stop iterating when data target has been met.
      if logList.length % U32 = target then (logList, none)
      else listLogLoop slib requestType target rest currLog logList

/-- The function `entity.ListRequestLog`; `zeroLog` is the value
`new(RequestLog)`.  A missing day bucket or token bucket is a nil bucket, whose
use panics; a date that does not parse returns a nil list with the error. -/
def ListRequestLog {P : Type} (lib : Lib P) (elib : EntityLib P) (slib : ListLib P)
    (zeroLog : RequestLog P) (viewErr : Option String) (db : DB) (pageLimit : Nat)
    (date email requestType : String) (offset : Nat) :
    Run (Option (List (RequestLog P)) × Option Err) :=
  match slib.fmtdateParse date with
  | .error msg => .done (none, some (.ErrorsNew msg))
  | .ok time =>
    let dateStr := lib.fmtdateFormat time
    match viewErr with
    | some msg => .done (some [], some (.ErrTx msg))
    | none =>
      match db.log.Get dateStr with
      | none => .panic
      | some dateBucket =>
        let token := elib.base58Encode email
        match dateBucket.Get token with
        | none => .panic
        | some tokenBucket =>
          match listLogLoop slib requestType (pageTarget pageLimit offset) tokenBucket
            zeroLog [] with
          | (logList, some err) => .done (some logList, some err)
          | (logList, none) =>
            if offset > 0 then
              match sliceFrom logList pageLimit offset with
              | .panic => .panic
              | .done logList => .done (some logList, none)
            else .done (some logList, none)

/-! ## The storage mutex (`service/service.go`, `entity/*.go`,
`scheduler/scheduler.go`) -/

/-- What a write path does with the storage mutex and the store, in order. -/
inductive Event where
  | Lock
  | Unlock
  | Update
  deriving DecidableEq, Repr

/-- The write paths of the code. -/
inductive WritePath where
  | auditAppend
  | saveSessions
  | clearSessions
  | userUpdate
  | inviteUpdate
  | passResetUpdate
  | feedbackUpdate
  | serviceDelete
  | expiredInvites
  | expiredPassReset
  deriving DecidableEq, Repr

/-- The calls of `Lock`, `Bolt.Update` and `Unlock` of each write path, in the
order of the source: `ValidateRequest` lines 192-209 (the unlock is deferred),
`SaveSessions` lines 273-296, `ClearSessions` lines 252-263, `User.Update`
lines 47-59, `Invite.Update` lines 55-66, `PassReset.Update` lines 47-57,
`Feedback.Update` lines 44-54, `Service.Delete` lines 468-473,
`ExpiredInvites` lines 92-102 and `ExpiredPassReset` lines 137-147. -/
def WritePath.events : WritePath → List Event
  | .auditAppend => [.Lock, .Update, .Unlock]
  | .saveSessions => [.Lock, .Update, .Unlock]
  | .clearSessions => [.Lock, .Update, .Unlock]
  | .userUpdate => [.Lock, .Update, .Unlock]
  | .inviteUpdate => [.Lock, .Update, .Unlock]
  | .passResetUpdate => [.Update]
  | .feedbackUpdate => [.Update]
  | .serviceDelete => [.Lock, .Update, .Unlock]
  | .expiredInvites => [.Update]
  | .expiredPassReset => [.Update]

/-- Whether every write transaction of a sequence of events runs while the
mutex is held; `held` says whether it is held at the start. -/
def updatesUnderLock : Bool → List Event → Bool
  | _, [] => true
  | _, .Lock :: rest => updatesUnderLock true rest
  | _, .Unlock :: rest => updatesUnderLock false rest
  | held, .Update :: rest => held && updatesUnderLock held rest

/-- The record a cache entry stands for after `LoadSessions`: the value
itself, or the content of the shared record a pointer entry points to. -/
def LoadResult.record (r : LoadResult) (addr : Nat) (k : String) : Option Session :=
  match r.service.SessionMap.Get k with
  | none => none
  | some (.val session) => some session
  | some (.ptr a) => if a = addr then some r.cell else none

/-! ## Instances used to evaluate the handlers and listings on concrete inputs -/

/-- Whether a character list starts with another. -/
def startsWithChars : List Char → List Char → Bool
  | _, [] => true
  | [], _ :: _ => false
  | c :: cs, d :: ds => decide (c = d) && startsWithChars cs ds

/-- Whether a character list contains another as a run. -/
def containsChars : List Char → List Char → Bool
  | [], sub => startsWithChars [] sub
  | c :: cs, sub => startsWithChars (c :: cs) sub || containsChars cs sub

/-- The demo decoding of a log record: the six lines `demoLib` writes. -/
def decRequestLog (v : String) : Option (RequestLog String) :=
  match fieldsOf '\n' v with
  | [origin, requestor, requestType, route, queryParams, payload] =>
    some { Origin := origin, Requestor := requestor, RequestType := requestType,
           Route := route, QueryParams := queryParams, Payload := payload }
  | _ => none

/-- A small instance of the listing library: lower case character by
character, containment as a run of characters, a date written as the number of
its day, and log records decoded from the six lines `demoLib` writes. -/
def demoListLib : ListLib String where
  toLower := fun s => String.mk (s.data.map Char.toLower)
  contains := fun s sub => containsChars s.data sub.data
  fmtdateParse := fun date =>
    match parseInt date with
    | some day => .ok (day * (86400 * 1000000000))
    | none => .error "parsing time"
  unmarshalRequestLog := fun v _ => decRequestLog v

/-- The value `new(RequestLog)` for the demo payloads. -/
def zeroLog : RequestLog String :=
  { Origin := "", Requestor := "", RequestType := "", Route := "", QueryParams := "",
    Payload := "" }

/-- A state with the `admin` session cached under `adm` and the administrator
stored. -/
def exInviteService : Service :=
  { SessionMap := [("adm", .val exAdmin)]
    Bolt := { emptyDB with user := [("b58:admin@x.io", encUser exUser)] } }

/-- A request bearing the token `adm` with the given body. -/
def exAdminRequest (body : String) : Request :=
  { Header := [("Authorization", ["Token adm"])]
    Body := some (.yields body)
    RemoteAddr := "10.0.0.7:4242"
    Method := "POST"
    URLPath := "/invites"
    Form := [] }

/-- Both clock readings of the handler fall in second 3000; the identifier is
`id-1` and the password hash `hash:pw`; no transaction fails. -/
def exHandlerWorld : HandlerWorld :=
  { now := 3000 * 1000000000 + 5, now2 := 3000 * 1000000000 + 9, ident := "id-1",
    hash := some "hash:pw", viewErr := none, scanErr := none, beginErr := none,
    commitErr := none }

/-- A state that stores, under `inv-1`, a pending invitation of `amy@x.io`
for the role `finance` that expires at second 9000. -/
def exSignupService : Service :=
  { SessionMap := []
    Bolt := { emptyDB with
      invite := [("inv-1", encInvite
        { Uuid := "inv-1", Email := "amy@x.io", Role := "finance", Status := "pending",
          LastModified := 0, CreatedOn := 100, Expiry := 9000, InvitedBy := "b58:admin@x.io",
          Deleted := false })] } }

/-- A state whose session bucket holds two sessions that expired at seconds
1500 and 1600, with different users and access levels, and whose session map
is empty. -/
def exTwoCheckpoint : Service :=
  { SessionMap := []
    Bolt := { emptyDB with
      session := [("d1", encSession { User := "U2", Token := "d1", Access := "management",
                                      CreatedOn := 0, Expiry := 1500 }),
                  ("d2", encSession { User := "U9", Token := "d2", Access := "finance",
                                      CreatedOn := 0, Expiry := 1600 })] } }

/-- A state with an `admin` session cached under the token `b58:amy`, the
demo base-58 encoding of `amy`, and an empty store. -/
def exLogService : Service :=
  { SessionMap := [("b58:amy", .val { exAdmin with Token := "b58:amy" })]
    Bolt := emptyDB }

/-! ## Instances at the edge of the `int64` range and with failing transactions -/

/-- A session of the role `admin` whose expiry is ten seconds short of the
largest `int64`. -/
def exFar : Session :=
  { User := "U7", Token := "far", Access := "admin", CreatedOn := 1000,
    Expiry := 9223372036854775797 }

/-- A state with the session `far` cached under its token and an empty
store. -/
def exFarService : Service :=
  { SessionMap := [("far", .val exFar)], Bolt := emptyDB }

/-- A state in which the key `k1` of the cache holds a session that carries
the token `k2`, and the key `k2` holds the session of the administrator. -/
def exAliasService : Service :=
  { SessionMap := [("k1", .val { exSession with Token := "k2" }), ("k2", .val exAdmin)]
    Bolt := emptyDB }

/-- The clock reads second 2000 and the commit of the write transaction
fails. -/
def exTxWorldFault : TxWorld :=
  { now := 2000 * 1000000000 + 5, viewErr := none, beginErr := none,
    commitErr := some "disk full" }

/-- A state that stores, under `inv-2`, an invitation of `amy@x.io` whose
last field does not parse. -/
def exGarbledService : Service :=
  { SessionMap := []
    Bolt := { emptyDB with
      invite := [("inv-2", "inv-2|amy@x.io|finance|pending|0|100|9000|b58:admin@x.io|maybe")] } }

/-! ## Lemmas on the containers -/

theorem KV.Get_Remove_self {α : Type} (m : KV α) (k : String) :
    (m.Remove k).Get k = none := by
  induction m with
  | nil => rfl
  | cons p rest ih =>
    obtain ⟨k', v⟩ := p
    by_cases h : k' = k
    · simpa [KV.Remove, h] using ih
    · simpa [KV.Remove, KV.Get, h] using ih

theorem KV.Get_Remove_ne {α : Type} (m : KV α) {k k' : String} (h : k' ≠ k) :
    (m.Remove k).Get k' = m.Get k' := by
  induction m with
  | nil => rfl
  | cons p rest ih =>
    obtain ⟨k1, v⟩ := p
    by_cases h1 : k1 = k
    · have h2 : k1 ≠ k' := fun e => h (e ▸ h1)
      simpa [KV.Remove, KV.Get, h1, h2, Ne.symm h] using ih
    · by_cases h2 : k1 = k'
      · subst h2
        simp [KV.Remove, KV.Get, List.filter_cons, h1]
      · simpa [KV.Remove, KV.Get, h1, h2] using ih

theorem KV.Get_Set_self {α : Type} (m : KV α) (k : String) (v : α) :
    (m.Set k v).Get k = some v := by
  simp [KV.Set, KV.Get]

theorem KV.Get_Set_ne {α : Type} (m : KV α) {k k' : String} (v : α) (h : k' ≠ k) :
    (m.Set k v).Get k' = m.Get k' := by
  simp [KV.Set, KV.Get, Ne.symm h, KV.Get_Remove_ne m h]

theorem KV.Get_eq_none_iff {α : Type} (m : KV α) (k : String) :
    m.Get k = none ↔ k ∉ m.Keys := by
  induction m with
  | nil => simp [KV.Get, KV.Keys]
  | cons p rest ih =>
    obtain ⟨k', v⟩ := p
    by_cases h : k' = k
    · simp [KV.Get, KV.Keys, h]
    · have h' : ¬ k = k' := fun e => h e.symm
      simpa [KV.Get, KV.Keys, h, h'] using ih

theorem KV.Has_eq_false_iff {α : Type} (m : KV α) (k : String) :
    m.Has k = false ↔ m.Get k = none := by
  cases hg : m.Get k <;> simp [KV.Has, hg]

theorem KV.Get_replace_self {α : Type} (m : KV α) (k : String) (v : α)
    (h : m.Has k = true) : (m.replace k v).Get k = some v := by
  induction m with
  | nil => simp [KV.Has, KV.Get] at h
  | cons p rest ih =>
    obtain ⟨k', v'⟩ := p
    by_cases hk : k' = k
    · simp [KV.replace, KV.Get, hk]
    · have : KV.Has rest k = true := by simpa [KV.Has, KV.Get, hk] using h
      simpa [KV.replace, KV.Get, hk] using ih this

theorem KV.Get_insert_self {α : Type} (m : KV α) (k : String) (v : α)
    (h : m.Get k = none) : (m.insert k v).Get k = some v := by
  induction m with
  | nil => simp [KV.insert, KV.Get]
  | cons p rest ih =>
    obtain ⟨k', v'⟩ := p
    by_cases hk : k' = k
    · simp [KV.Get, hk] at h
    · have hr : KV.Get rest k = none := by simpa [KV.Get, hk] using h
      by_cases hlt : k < k'
      · simp [KV.insert, KV.Get, hlt]
      · simpa [KV.insert, KV.Get, hlt, hk] using ih hr

theorem KV.Get_Put_self {α : Type} (m : KV α) (k : String) (v : α) :
    (m.Put k v).Get k = some v := by
  unfold KV.Put
  by_cases h : m.Has k = true
  · simpa [h] using KV.Get_replace_self m k v h
  · have h' : m.Has k = false := by simpa using h
    simpa [h'] using KV.Get_insert_self m k v ((KV.Has_eq_false_iff m k).1 h')

theorem KV.total_insert {α : Type} (f : α → Nat) (m : KV α) (k : String) (v : α) :
    (m.insert k v).total f = m.total f + f v := by
  induction m with
  | nil => simp [KV.insert, KV.total]
  | cons p rest ih =>
    obtain ⟨k', v'⟩ := p
    by_cases hlt : k < k'
    · simp [KV.insert, KV.total, hlt]; omega
    · simp only [KV.insert, hlt, if_false]
      simp only [KV.total, List.map_cons, List.sum_cons] at ih ⊢
      omega

theorem KV.total_replace {α : Type} (f : α → Nat) (m : KV α) (k : String) (v old : α)
    (h : m.Get k = some old) : (m.replace k v).total f + f old = m.total f + f v := by
  induction m with
  | nil => simp [KV.Get] at h
  | cons p rest ih =>
    obtain ⟨k', v'⟩ := p
    by_cases hk : k' = k
    · have : v' = old := by simpa [KV.Get, hk] using h
      subst this
      simp [KV.replace, KV.total, hk]; omega
    · have hr : KV.Get rest k = some old := by simpa [KV.Get, hk] using h
      have := ih hr
      simp only [KV.replace, hk, if_false]
      simp only [KV.total, List.map_cons, List.sum_cons] at this ⊢
      omega

theorem KV.total_Put_absent {α : Type} (f : α → Nat) (m : KV α) (k : String) (v : α)
    (h : m.Get k = none) : (m.Put k v).total f = m.total f + f v := by
  have h' : m.Has k = false := (KV.Has_eq_false_iff m k).2 h
  simp [KV.Put, h', KV.total_insert]

theorem KV.total_Put_present {α : Type} (f : α → Nat) (m : KV α) (k : String) (v old : α)
    (h : m.Get k = some old) : (m.Put k v).total f + f old = m.total f + f v := by
  have h' : m.Has k = true := by simp [KV.Has, h]
  simpa [KV.Put, h'] using KV.total_replace f m k v old h

/-! ## Lemmas on the code -/

theorem cutAtSpace_sound (l a b : List Char) (h : cutAtSpace l = some (a, b)) :
    l = a ++ ' ' :: b := by
  induction l generalizing a b with
  | nil => simp [cutAtSpace] at h
  | cons c cs ih =>
    by_cases hc : c = ' '
    · simp [cutAtSpace, hc] at h
      obtain ⟨rfl, rfl⟩ := h
      simp [hc]
    · cases hr : cutAtSpace cs with
      | none => simp [cutAtSpace, hc, hr] at h
      | some p =>
        obtain ⟨a', b'⟩ := p
        simp [cutAtSpace, hc, hr] at h
        obtain ⟨rfl, rfl⟩ := h
        simp [ih a' b' hr]

theorem SplitN_token (v : String) : SplitN ("Token " ++ v) = ["Token", v] := by
  have h : ("Token " ++ v).data = 'T' :: 'o' :: 'k' :: 'e' :: 'n' :: ' ' :: v.data := by
    rw [String.data_append]; rfl
  have hc : cutAtSpace ("Token " ++ v).data = some (['T', 'o', 'k', 'e', 'n'], v.data) := by
    rw [h]; simp [cutAtSpace]
  simp only [SplitN, hc]

theorem SplitN_token_inv (first v : String) (h : SplitN first = ["Token", v]) :
    first = "Token " ++ v := by
  unfold SplitN at h
  cases hc : cutAtSpace first.data with
  | none => simp [hc] at h
  | some p =>
    obtain ⟨a, b⟩ := p
    simp only [hc, List.cons.injEq, and_true] at h
    obtain ⟨ha, hb⟩ := h
    have hd := cutAtSpace_sound _ _ _ hc
    have ha' : a = "Token".data := by rw [← ha]
    have hb' : b = v.data := by rw [← hb]
    apply String.ext
    rw [hd, ha', hb', String.data_append]
    rfl

theorem SplitN_length (s : String) :
    (∃ a, SplitN s = [a]) ∨ (∃ a b, SplitN s = [a, b]) := by
  unfold SplitN
  cases cutAtSpace s.data with
  | none => exact Or.inl ⟨_, rfl⟩
  | some p => exact Or.inr ⟨_, _, rfl⟩

theorem roleLoop_iff (access : String) (roles : List String) :
    roleLoop access roles = true ↔ access ∈ roles := by
  induction roles with
  | nil => simp [roleLoop]
  | cons r rest ih =>
    by_cases h : r = access
    · simp [roleLoop, h]
    · have h' : ¬ access = r := fun e => h e.symm
      simp [roleLoop, h, h', ih]

theorem checkAccess_fst (access : String) (roles : List String) (err : Option Err) :
    (checkAccess access roles err).1 = true ↔ (access = "admin" ∨ access ∈ roles) := by
  unfold checkAccess
  by_cases ha : access = Admin
  · have : access = "admin" := ha
    rw [if_pos ha]
    exact ⟨fun _ => Or.inl this, fun _ => rfl⟩
  · have hne : ¬ access = "admin" := ha
    cases hr : roleLoop access roles with
    | true => simp [ha, hr, (roleLoop_iff access roles).1 hr]
    | false =>
      have : ¬ access ∈ roles := fun hm => by
        have := (roleLoop_iff access roles).2 hm
        simp [hr] at this
      simp [ha, hr, hne, this]

theorem checkAccess_snd_denied (access : String) (roles : List String) (err : Option Err)
    (h : (checkAccess access roles err).1 = false) :
    (checkAccess access roles err).2 = some .ErrUnauthorizedAccess := by
  unfold checkAccess at h ⊢
  by_cases ha : access = Admin
  · simp [ha] at h
  · cases hr : roleLoop access roles with
    | true => simp [ha, hr] at h
    | false => simp [ha, hr]

theorem checkAccess_snd_granted (access : String) (roles : List String) (err : Option Err)
    (h : (checkAccess access roles err).1 = true) :
    (checkAccess access roles err).2 = err := by
  unfold checkAccess at h ⊢
  by_cases ha : access = Admin
  · simp [ha]
  · cases hr : roleLoop access roles with
    | true => simp [ha, hr]
    | false => simp [ha, hr] at h

theorem renew_expiry (e : Int) : (GetFutureTime (timeUnix e 0) 0 0 1 0).Unix = e + 60 := by
  simp only [GetFutureTime, timeUnix, Time.Unix, Hour, Minute, Second]
  omega

/-- An integer of the `int64` range is the value the `int64` holds. -/
theorem wrapInt64_of_range (x : Int) (hLow : -9223372036854775808 ≤ x)
    (hHigh : x ≤ 9223372036854775807) : wrapInt64 x = x := by
  unfold wrapInt64
  omega

theorem parseRequest_error {P : Type} (lib : Lib P) (req : Request) (e : Err)
    (h : parseRequest lib req = .error e) :
    e = .ErrMalformedRequest ∨ e = .ErrMalformedPayload := by
  unfold parseRequest at h
  cases hb : req.Body with
  | none => simp [hb] at h
  | some reader =>
    cases reader with
    | fails =>
      simp [hb, ReadAll] at h
      exact Or.inl h.symm
    | yields bytes =>
      cases hu : lib.jsonUnmarshal bytes with
      | none =>
        simp [hb, ReadAll, hu] at h
        exact Or.inr h.symm
      | some p => simp [hb, ReadAll, hu] at h

theorem CreateBucketIfNotExists_error {α : Type} (b : KV (KV α)) (name : String) (e : Err)
    (h : CreateBucketIfNotExists b name = .error e) : e = .ErrBucketNameRequired := by
  unfold CreateBucketIfNotExists at h
  by_cases hn : name.utf8ByteSize = 0
  · simp [hn] at h; exact h.symm
  · cases hg : b.Get name <;> simp [hn, hg] at h

theorem putCheck_error (key : String) (e : Err) (h : putCheck key = some e) :
    e.isStorage = true := by
  unfold putCheck at h
  by_cases h0 : key.utf8ByteSize = 0
  · simp [h0] at h; subst h; rfl
  · by_cases h1 : key.utf8ByteSize > MaxKeySize
    · simp [h0, h1] at h; subst h; rfl
    · simp [h0, h1] at h

theorem logTx_error (dateStr token logBytes : String) (db : DB) (e : Err)
    (h : logTx dateStr token logBytes db = .error e) : e.isStorage = true := by
  unfold logTx at h
  cases h1 : CreateBucketIfNotExists db.log dateStr with
  | error e1 =>
    simp [h1] at h; subst h
    rw [CreateBucketIfNotExists_error _ _ _ h1]; rfl
  | ok dayBucket =>
    cases h2 : CreateBucketIfNotExists dayBucket token with
    | error e2 =>
      simp [h1, h2] at h; subst h
      rw [CreateBucketIfNotExists_error _ _ _ h2]; rfl
    | ok tokenBucket =>
      cases h3 : putCheck logBytes with
      | some e3 =>
        simp [h1, h2, h3] at h; subst h
        exact putCheck_error _ _ h3
      | none => simp [h1, h2, h3] at h

theorem Update_error (db : DB) (b c : Option String) (fn : DB → Except Err DB)
    (hfn : ∀ e, fn db = .error e → e.isStorage = true) (e : Err)
    (h : (db.Update b c fn).1 = some e) :
    e.isStorage = true ∧ (db.Update b c fn).2 = db := by
  unfold DB.Update at h ⊢
  cases b with
  | some msg =>
    simp at h ⊢; subst h; rfl
  | none =>
    cases hf : fn db with
    | error e' =>
      simp [hf] at h ⊢; subst h; exact hfn _ hf
    | ok db' =>
      cases c with
      | some msg => simp [hf] at h ⊢; subst h; rfl
      | none => simp [hf] at h

theorem Update_ok (db : DB) (b c : Option String) (fn : DB → Except Err DB)
    (h : (db.Update b c fn).1 = none) : fn db = .ok (db.Update b c fn).2 := by
  unfold DB.Update at h ⊢
  cases b with
  | some msg => simp at h
  | none =>
    cases hf : fn db with
    | error e' => simp [hf] at h
    | ok db' =>
      cases c with
      | some msg => simp [hf] at h
      | none => simp

/-- The call on a request that passes steps 1-4 and whose log record
serializes: the audit write, the access decision and the renewal. -/
theorem ValidateRequest_pass {P : Type} (lib : Lib P) (w : World) (service : Service)
    (allowedRoles : List String) (req : Request) (token : String) (session : Session)
    (payload : P) (logBytes : String)
    (hTok : GetSessionToken req = .ok token)
    (hGet : service.SessionMap.Get token = some (.val session))
    (hLive : ¬ w.now.Unix > session.Expiry)
    (hBody : parseRequest lib req = .ok payload)
    (hSer : lib.jsonMarshal (mkRequestLog lib req token payload) = some logBytes) :
    ValidateRequest lib w service allowedRoles req =
      if (checkAccess session.Access allowedRoles
          (service.Bolt.Update w.beginErr w.commitErr
            (logTx (lib.fmtdateFormat w.txNow) token logBytes)).1).1 = true then
        (.ret true (service.Bolt.Update w.beginErr w.commitErr
            (logTx (lib.fmtdateFormat w.txNow) token logBytes)).1,
          { SessionMap := service.SessionMap.Set session.Token
              (.val { session with Expiry := wrapInt64 (session.Expiry + 60) })
            Bolt := (service.Bolt.Update w.beginErr w.commitErr
              (logTx (lib.fmtdateFormat w.txNow) token logBytes)).2 })
      else
        (.ret false (some .ErrUnauthorizedAccess),
          { service with
            Bolt := (service.Bolt.Update w.beginErr w.commitErr
              (logTx (lib.fmtdateFormat w.txNow) token logBytes)).2 }) := by
  have hHas : service.SessionMap.Has token = true := by simp [KV.Has, hGet]
  unfold ValidateRequest
  simp only [hTok, hHas, hGet, hLive, hBody, hSer, Bool.not_true, if_false, Bool.false_eq_true]
  cases hU : service.Bolt.Update w.beginErr w.commitErr
      (logTx (lib.fmtdateFormat w.txNow) token logBytes) with
  | mk err bolt =>
    cases hC : checkAccess session.Access allowedRoles err with
    | mk granted err' =>
      cases granted with
      | true =>
        have := checkAccess_snd_granted session.Access allowedRoles err (by rw [hC])
        simp only [hC] at this
        simp [this, renew_expiry]
      | false =>
        have := checkAccess_snd_denied session.Access allowedRoles err (by rw [hC])
        simp only [hC] at this
        simp [this]

/-! ## The access decision (C1) and the renewal (C2) -/

/-- C1: for every request that passes steps 1-4 of `ValidateRequest` (valid
header, token in the cache, session not expired, body parsed) and whose log
record serializes, and for every list of required roles, the call returns,
`granted` is true exactly when the access level of the session is `"admin"` or
is a member of the required roles, and when `granted` is false the error is
`ErrUnauthorizedAccess`. -/
theorem validateRequest_granted_iff {P : Type} (lib : Lib P) (w : World) (service : Service)
    (allowedRoles : List String) (req : Request) (token : String) (session : Session)
    (payload : P) (logBytes : String)
    (hTok : GetSessionToken req = .ok token)
    (hGet : service.SessionMap.Get token = some (.val session))
    (hLive : ¬ w.now.Unix > session.Expiry)
    (hBody : parseRequest lib req = .ok payload)
    (hSer : lib.jsonMarshal (mkRequestLog lib req token payload) = some logBytes) :
    ∃ granted err,
      (ValidateRequest lib w service allowedRoles req).1 = .ret granted err ∧
      (granted = true ↔ (session.Access = "admin" ∨ session.Access ∈ allowedRoles)) ∧
      (granted = false → err = some .ErrUnauthorizedAccess) := by
  rw [ValidateRequest_pass lib w service allowedRoles req token session payload logBytes
    hTok hGet hLive hBody hSer]
  split
  next h =>
    exact ⟨true, _, rfl, Iff.intro (fun _ => (checkAccess_fst _ _ _).1 h) (fun _ => rfl),
      fun hf => by cases hf⟩
  next h =>
    exact ⟨false, _, rfl,
      Iff.intro (fun hf => by cases hf) (fun hr => absurd ((checkAccess_fst _ _ _).2 hr) h),
      fun _ => rfl⟩

/-- C1, at a concrete input: the `finance` session against the required
roles `["admin"]` is denied with `ErrUnauthorizedAccess`. -/
theorem validateRequest_granted_iff_witness :
    ∃ granted err,
      (ValidateRequest demoLib exWorld exService ["admin"]
        (exRequest ["Token tok"] none)).1 = .ret granted err ∧
      (granted = true ↔ (exSession.Access = "admin" ∨ exSession.Access ∈ ["admin"])) ∧
      (granted = false → err = some .ErrUnauthorizedAccess) :=
  validateRequest_granted_iff demoLib exWorld exService ["admin"]
    (exRequest ["Token tok"] none) "tok" exSession demoLib.emptyPayload
    "10.0.0.7:4242\ntok\nGET\n/invites\nlimit=10\n\x7b\x7d"
    (by rfl) (by rfl) (by decide) (by rfl) (by rfl)

/-- C2 fails as stated: the `finance` session is live and satisfies the
required roles `["finance"]`, yet a request whose body cannot be read, or
whose body is not a JSON object, is not granted, and the session keeps its
expiry.  And the live session `far`, whose expiry is ten seconds short of the
largest `int64`, is granted and renewed, but its expiry wraps around to a
negative number of seconds: it does not increase. -/
theorem validateRequest_renewal_counterexample :
    exService.SessionMap.Get "tok" = some (.val exSession) ∧
    exWorld.now.Unix < exSession.Expiry ∧
    exSession.Access ∈ ["finance"] ∧
    ValidateRequest demoLib exWorld exService ["finance"]
        (exRequest ["Token tok"] (some .fails))
      = (.ret false (some .ErrMalformedRequest), exService) ∧
    ValidateRequest demoLib exWorld exService ["finance"]
        (exRequest ["Token tok"] (some (.yields "not json")))
      = (.ret false (some .ErrMalformedPayload), exService) ∧
    exFarService.SessionMap.Get "far" = some (.val exFar) ∧
    exWorld.now.Unix < exFar.Expiry ∧
    exFar.Expiry = 9223372036854775807 - 10 ∧
    (ValidateRequest demoLib exWorld exFarService ["finance"]
        (exRequest ["Token far"] none)).1 = .ret true none ∧
    (ValidateRequest demoLib exWorld exFarService ["finance"]
        (exRequest ["Token far"] none)).2.SessionMap.Get "far"
      = some (.val { User := "U7", Token := "far", Access := "admin", CreatedOn := 1000,
                     Expiry := -9223372036854775759 }) ∧
    (-9223372036854775759 : Int) < exFar.Expiry := by
  refine ⟨by rfl, by decide, by decide, by rfl, by rfl, by rfl, by decide, by decide, by rfl,
    by rfl, by decide⟩

/-- C2, amended: for every session held by value in the cache under its own
token, whose expiry is in the future and is an `int64` value at most
`2^63 - 61` (so that adding 60 seconds does not overflow), and every request
bearing that token that passes step 4 (its body, if any, is read and parsed),
whose log record serializes and whose role requirement the session satisfies,
`ValidateRequest` returns `granted = true` and afterwards the cache holds,
under the same token, the same session with its expiry equal to the old expiry
plus 60 seconds, which is strictly greater. -/
theorem validateRequest_renewal {P : Type} (lib : Lib P) (w : World) (service : Service)
    (allowedRoles : List String) (req : Request) (token : String) (session : Session)
    (payload : P) (logBytes : String)
    (hTok : GetSessionToken req = .ok token)
    (hGet : service.SessionMap.Get token = some (.val session))
    (hKey : session.Token = token)
    (hFuture : w.now.Unix < session.Expiry)
    (hLow : -9223372036854775808 ≤ session.Expiry)
    (hHigh : session.Expiry + 60 ≤ 9223372036854775807)
    (hBody : parseRequest lib req = .ok payload)
    (hSer : lib.jsonMarshal (mkRequestLog lib req token payload) = some logBytes)
    (hRole : session.Access = "admin" ∨ session.Access ∈ allowedRoles) :
    (∃ err, (ValidateRequest lib w service allowedRoles req).1 = .ret true err) ∧
    (ValidateRequest lib w service allowedRoles req).2.SessionMap.Get token =
      some (.val { User := session.User, Token := session.Token, Access := session.Access,
                   CreatedOn := session.CreatedOn, Expiry := session.Expiry + 60 }) ∧
    session.Expiry < session.Expiry + 60 := by
  have hLive : ¬ w.now.Unix > session.Expiry := by omega
  rw [ValidateRequest_pass lib w service allowedRoles req token session payload logBytes
    hTok hGet hLive hBody hSer]
  rw [if_pos ((checkAccess_fst _ _ _).2 hRole)]
  refine ⟨⟨_, rfl⟩, ?_, by omega⟩
  rw [wrapInt64_of_range _ (by omega) hHigh]
  simp only [hKey]
  exact KV.Get_Set_self _ _ _

/-- C2 amended, at a concrete input: the `finance` session against the
required roles `["finance"]`; its expiry goes from 8200 to 8260. -/
theorem validateRequest_renewal_witness :
    (∃ err, (ValidateRequest demoLib exWorld exService ["finance"]
        (exRequest ["Token tok"] (some (.yields "\x7b\x7d")))).1 = .ret true err) ∧
    (ValidateRequest demoLib exWorld exService ["finance"]
        (exRequest ["Token tok"] (some (.yields "\x7b\x7d")))).2.SessionMap.Get "tok" =
      some (.val { User := "U1", Token := "tok", Access := "finance",
                   CreatedOn := 1000, Expiry := 8200 + 60 }) ∧
    (8200 : Int) < 8200 + 60 :=
  validateRequest_renewal demoLib exWorld exService ["finance"]
    (exRequest ["Token tok"] (some (.yields "\x7b\x7d"))) "tok" exSession "\x7b\x7d"
    "10.0.0.7:4242\ntok\nGET\n/invites\nlimit=10\n\x7b\x7d"
    (by rfl) (by rfl) (by rfl) (by decide) (by decide) (by decide) (by rfl) (by rfl)
    (Or.inr (by decide))

/-! ## Expired sessions (C3) -/

/-- The expiry check on a session that the cache holds by value: when
`now > Expiry`, `ValidateRequest` with the token of that session returns
`(false, ErrExpiredSession)` whatever the required roles and the body are, and
removes the token from the cache; a following `ValidateRequest` with the same
token returns `(false, ErrUnauthorizedAccess)` and leaves the state as it
is. -/
theorem validateRequest_expired {P : Type} (lib : Lib P) (w : World) (service : Service)
    (allowedRoles : List String) (req : Request) (token : String) (session : Session)
    (hTok : GetSessionToken req = .ok token)
    (hGet : service.SessionMap.Get token = some (.val session))
    (hExp : w.now.Unix > session.Expiry) :
    (ValidateRequest lib w service allowedRoles req).1 = .ret false (some .ErrExpiredSession) ∧
    (ValidateRequest lib w service allowedRoles req).2.SessionMap.Get token = none ∧
    (ValidateRequest lib w service allowedRoles req).2.SessionMap.Has token = false ∧
    ∀ (w2 : World) (allowedRoles2 : List String) (req2 : Request),
      GetSessionToken req2 = .ok token →
      ValidateRequest lib w2 (ValidateRequest lib w service allowedRoles req).2 allowedRoles2 req2
        = (.ret false (some .ErrUnauthorizedAccess),
            (ValidateRequest lib w service allowedRoles req).2) := by
  have hHas : service.SessionMap.Has token = true := by simp [KV.Has, hGet]
  have hV : ValidateRequest lib w service allowedRoles req =
      (.ret false (some .ErrExpiredSession),
        { service with SessionMap := service.SessionMap.Remove token }) := by
    unfold ValidateRequest
    simp [hTok, hHas, hGet, hExp]
  have hNone : (KV.Remove service.SessionMap token).Get token = none :=
    KV.Get_Remove_self _ _
  have hHas2 : (KV.Remove service.SessionMap token).Has token = false :=
    (KV.Has_eq_false_iff _ _).2 hNone
  rw [hV]
  refine ⟨rfl, hNone, hHas2, ?_⟩
  intro w2 allowedRoles2 req2 hTok2
  unfold ValidateRequest
  simp [hTok2, hHas2]

/-- The expiry check at a concrete input: the session that expired at second
1500, cached by value, is presented at second 2000. -/
theorem validateRequest_expired_witness :
    (ValidateRequest demoLib exWorld exService ["management"]
      (exRequest ["Token old"] none)).1 = .ret false (some .ErrExpiredSession) ∧
    (ValidateRequest demoLib exWorld exService ["management"]
      (exRequest ["Token old"] none)).2.SessionMap.Get "old" = none ∧
    (ValidateRequest demoLib exWorld exService ["management"]
      (exRequest ["Token old"] none)).2.SessionMap.Has "old" = false ∧
    ∀ (w2 : World) (allowedRoles2 : List String) (req2 : Request),
      GetSessionToken req2 = .ok "old" →
      ValidateRequest demoLib w2 (ValidateRequest demoLib exWorld exService ["management"]
          (exRequest ["Token old"] none)).2 allowedRoles2 req2
        = (.ret false (some .ErrUnauthorizedAccess),
            (ValidateRequest demoLib exWorld exService ["management"]
              (exRequest ["Token old"] none)).2) :=
  validateRequest_expired demoLib exWorld exService ["management"]
    (exRequest ["Token old"] none) "old" exStale (by rfl) (by rfl) (by decide)

/-- C3, the failing input: `LoadSessions` at second 2000 on a session bucket
that holds the expired sessions `d1` and `d2` caches both; the record cached
under `d2` is the session `d2`, whose expiry 1600 is before the clock reading
2000 of the request.  `ValidateRequest` with the token `d2` does not return
`(false, ErrExpiredSession)`: the entry is a pointer, the type assertion
panics, and the token stays in the cache. -/
theorem validateRequest_expired_reference_panics :
    (LoadSessions demoEntityLib exTxWorld 1 exTwoCheckpoint).err = none ∧
    (LoadSessions demoEntityLib exTxWorld 1 exTwoCheckpoint).record 1 "d2"
      = some { User := "U9", Token := "d2", Access := "finance", CreatedOn := 0,
               Expiry := 1600 } ∧
    exWorld.now.Unix > 1600 ∧
    ValidateRequest demoLib exWorld
        (LoadSessions demoEntityLib exTxWorld 1 exTwoCheckpoint).service ["finance"]
        (exRequest ["Token d2"] none)
      = (.panic, (LoadSessions demoEntityLib exTxWorld 1 exTwoCheckpoint).service) ∧
    (LoadSessions demoEntityLib exTxWorld 1 exTwoCheckpoint).service.SessionMap.Has "d2"
      = true := by
  refine ⟨by rfl, by rfl, by decide, by rfl, by rfl⟩

/-! ## The Authorization header (C5) and unknown tokens (C6) -/

/-- C5: `GetSessionToken` fails with `ErrAuthorizationNotFound` when the
request has no Authorization header; it fails with
`ErrUnexpectedAuthorization` when the first value of the header, split at its
first space, is not two parts of which the first is `Token` (so for
`Bearer xyz` and for `Token` alone); for a header `Token v` it returns `v`
unchanged; and `ValidateRequest` returns the error of `GetSessionToken` with
`granted = false`, leaving the state as it is. -/
theorem getSessionToken_spec :
    (∀ req : Request, req.Header.Get "Authorization" = none →
      GetSessionToken req = .error .ErrAuthorizationNotFound) ∧
    (∀ (req : Request) (first : String) (rest : List String),
      req.Header.Get "Authorization" = some (first :: rest) →
      (¬ ∃ v, SplitN first = ["Token", v]) →
      GetSessionToken req = .error .ErrUnexpectedAuthorization) ∧
    (∀ (req : Request) (rest : List String),
      req.Header.Get "Authorization" = some ("Bearer xyz" :: rest) →
      GetSessionToken req = .error .ErrUnexpectedAuthorization) ∧
    (∀ (req : Request) (rest : List String),
      req.Header.Get "Authorization" = some ("Token" :: rest) →
      GetSessionToken req = .error .ErrUnexpectedAuthorization) ∧
    (∀ (req : Request) (v : String) (rest : List String),
      req.Header.Get "Authorization" = some (("Token " ++ v) :: rest) →
      GetSessionToken req = .ok v) ∧
    (∀ (P : Type) (lib : Lib P) (w : World) (service : Service) (allowedRoles : List String)
      (req : Request) (e : Err), GetSessionToken req = .error e →
      ValidateRequest lib w service allowedRoles req = (.ret false (some e), service)) := by
  have hB : ∀ (req : Request) (first : String) (rest : List String),
      req.Header.Get "Authorization" = some (first :: rest) →
      (¬ ∃ v, SplitN first = ["Token", v]) →
      GetSessionToken req = .error .ErrUnexpectedAuthorization := by
    intro req first rest hH hN
    unfold GetSessionToken
    simp only [hH, Option.getD_some]
    rcases SplitN_length first with ⟨a, ha⟩ | ⟨a, b, hab⟩
    · simp [ha]
    · by_cases hT : a = "Token"
      · exact absurd ⟨b, by rw [hab, hT]⟩ hN
      · simp [hab, hT]
  refine ⟨?_, hB, ?_, ?_, ?_, ?_⟩
  · intro req hH
    simp [GetSessionToken, hH]
  · intro req rest hH
    refine hB req _ rest hH ?_
    rintro ⟨v, hv⟩
    have h1 : SplitN "Bearer xyz" = ["Bearer", "xyz"] := by rfl
    rw [h1] at hv
    injection hv with h0 _
    exact absurd h0 (by decide)
  · intro req rest hH
    refine hB req _ rest hH ?_
    rintro ⟨v, hv⟩
    have h1 : SplitN "Token" = ["Token"] := by rfl
    rw [h1] at hv
    simp at hv
  · intro req v rest hH
    unfold GetSessionToken
    simp [hH, SplitN_token]
  · intro P lib w service allowedRoles req e hE
    unfold ValidateRequest
    simp [hE]

/-- C5, at concrete inputs: a request without the header, the headers
`Bearer xyz` and `Token`, and the header `Token tok`. -/
theorem getSessionToken_spec_witness :
    GetSessionToken exAnonymous = .error .ErrAuthorizationNotFound ∧
    GetSessionToken (exRequest ["Bearer xyz"] none) = .error .ErrUnexpectedAuthorization ∧
    GetSessionToken (exRequest ["Token"] none) = .error .ErrUnexpectedAuthorization ∧
    GetSessionToken (exRequest ["Token " ++ "tok"] none) = .ok "tok" ∧
    ValidateRequest demoLib exWorld exService ["admin"] (exRequest ["Bearer xyz"] none)
      = (.ret false (some .ErrUnexpectedAuthorization), exService) :=
  ⟨getSessionToken_spec.1 exAnonymous (by rfl),
   getSessionToken_spec.2.2.1 (exRequest ["Bearer xyz"] none) [] (by rfl),
   getSessionToken_spec.2.2.2.1 (exRequest ["Token"] none) [] (by rfl),
   getSessionToken_spec.2.2.2.2.1 (exRequest ["Token " ++ "tok"] none) "tok" [] (by rfl),
   getSessionToken_spec.2.2.2.2.2 String demoLib exWorld exService ["admin"]
     (exRequest ["Bearer xyz"] none) .ErrUnexpectedAuthorization (by rfl)⟩

/-- C6: for every well-formed Authorization header whose token is not a key
of the session cache, `ValidateRequest` returns
`(false, ErrUnauthorizedAccess)` for every list of required roles and every
body, and leaves the state as it is. -/
theorem validateRequest_unknown_token {P : Type} (lib : Lib P) (w : World)
    (service : Service) (allowedRoles : List String) (req : Request) (token : String)
    (hTok : GetSessionToken req = .ok token)
    (hAbsent : token ∉ service.SessionMap.Keys) :
    ValidateRequest lib w service allowedRoles req
      = (.ret false (some .ErrUnauthorizedAccess), service) := by
  have hNone : service.SessionMap.Get token = none := (KV.Get_eq_none_iff _ _).2 hAbsent
  have hHas : service.SessionMap.Has token = false := (KV.Has_eq_false_iff _ _).2 hNone
  unfold ValidateRequest
  simp [hTok, hHas]

/-- C6, at a concrete input: the token `nope` is not cached. -/
theorem validateRequest_unknown_token_witness :
    ValidateRequest demoLib exWorld exService ["finance"]
        (exRequest ["Token nope"] (some (.yields "\x7b\x7d")))
      = (.ret false (some .ErrUnauthorizedAccess), exService) :=
  validateRequest_unknown_token demoLib exWorld exService ["finance"]
    (exRequest ["Token nope"] (some (.yields "\x7b\x7d"))) "nope" (by rfl) (by decide)

/-! ## Rejections leave the sessions alone (C7) -/

/-- C7: every call of `ValidateRequest` that returns `granted = false` leaves
the session cache exactly as it was, except that the session of the presented
token is removed, and nothing else changes, when it is expired (the error is
then `ErrExpiredSession`); so with any other error, in particular
`ErrMalformedRequest`, `ErrMalformedPayload` and a role-denied
`ErrUnauthorizedAccess`, the cache is unchanged. -/
theorem validateRequest_denied_frame {P : Type} (lib : Lib P) (w : World)
    (service : Service) (allowedRoles : List String) (req : Request) (err : Option Err)
    (h : (ValidateRequest lib w service allowedRoles req).1 = .ret false err) :
    ((ValidateRequest lib w service allowedRoles req).2.SessionMap = service.SessionMap ∨
      (err = some .ErrExpiredSession ∧
        ∃ token session, GetSessionToken req = .ok token ∧
          service.SessionMap.Get token = some (.val session) ∧
          w.now.Unix > session.Expiry ∧
          (ValidateRequest lib w service allowedRoles req).2.SessionMap
            = service.SessionMap.Remove token ∧
          (ValidateRequest lib w service allowedRoles req).2.SessionMap.Get token = none ∧
          ∀ k, k ≠ token →
            (ValidateRequest lib w service allowedRoles req).2.SessionMap.Get k
              = service.SessionMap.Get k)) ∧
    (err ≠ some .ErrExpiredSession →
      (ValidateRequest lib w service allowedRoles req).2.SessionMap = service.SessionMap) := by
  cases hTok : GetSessionToken req with
  | error e =>
    have hV : ValidateRequest lib w service allowedRoles req =
        (.ret false (some e), service) := by
      unfold ValidateRequest; simp [hTok]
    rw [hV]
    exact ⟨Or.inl rfl, fun _ => rfl⟩
  | ok token =>
    cases hHas : service.SessionMap.Has token with
    | false =>
      have hV : ValidateRequest lib w service allowedRoles req =
          (.ret false (some .ErrUnauthorizedAccess), service) := by
        unfold ValidateRequest; simp [hTok, hHas]
      rw [hV]
      exact ⟨Or.inl rfl, fun _ => rfl⟩
    | true =>
      cases hGet : service.SessionMap.Get token with
      | none => simp [KV.Has, hGet] at hHas
      | some entry =>
        cases entry with
        | ptr addr =>
          have hV : ValidateRequest lib w service allowedRoles req = (.panic, service) := by
            unfold ValidateRequest; simp [hTok, hHas, hGet]
          rw [hV] at h
          cases h
        | val session =>
          by_cases hExp : w.now.Unix > session.Expiry
          · have hV : ValidateRequest lib w service allowedRoles req =
                (.ret false (some .ErrExpiredSession),
                  { service with SessionMap := service.SessionMap.Remove token }) := by
              unfold ValidateRequest; simp [hTok, hHas, hGet, hExp]
            rw [hV] at h ⊢
            injection h with _ he
            subst he
            refine ⟨Or.inr ⟨rfl, token, session, rfl, hGet, hExp, rfl,
              KV.Get_Remove_self _ _, fun k hk => KV.Get_Remove_ne _ hk⟩, fun hne => ?_⟩
            exact absurd rfl hne
          · cases hBody : parseRequest lib req with
            | error e =>
              have hV : ValidateRequest lib w service allowedRoles req =
                  (.ret false (some e), service) := by
                unfold ValidateRequest; simp [hTok, hHas, hGet, hExp, hBody]
              rw [hV]
              exact ⟨Or.inl rfl, fun _ => rfl⟩
            | ok payload =>
              cases hSer : lib.jsonMarshal (mkRequestLog lib req token payload) with
              | none =>
                have hV : ValidateRequest lib w service allowedRoles req =
                    (.ret false (some .ErrMalformedPayload), service) := by
                  unfold ValidateRequest; simp [hTok, hHas, hGet, hExp, hBody, hSer]
                rw [hV]
                exact ⟨Or.inl rfl, fun _ => rfl⟩
              | some logBytes =>
                have hP := ValidateRequest_pass lib w service allowedRoles req token session
                  payload logBytes hTok hGet hExp hBody hSer
                rw [hP] at h ⊢
                split at h
                · cases h
                · rename_i hc
                  rw [if_neg hc]
                  exact ⟨Or.inl rfl, fun _ => rfl⟩

/-- C7, at a concrete input: the `finance` session is denied against the
required roles `["admin"]` and the cache is unchanged. -/
theorem validateRequest_denied_frame_witness :
    (ValidateRequest demoLib exWorld exService ["admin"]
      (exRequest ["Token tok"] none)).2.SessionMap = exService.SessionMap :=
  (validateRequest_denied_frame demoLib exWorld exService ["admin"]
    (exRequest ["Token tok"] none) (some .ErrUnauthorizedAccess) (by rfl)).2 (by decide)

/-! ## The audit write (C8, C9, C10) -/

theorem logTx_ok_eq (dateStr token logBytes : String) (db db' : DB)
    (h : logTx dateStr token logBytes db = .ok db') :
    db' = { db with
      log := db.log.Put dateStr
        ((((db.log.Get dateStr).getD []).Put token
          (((((db.log.Get dateStr).getD []).Get token).getD []).Put logBytes ""))) } := by
  unfold logTx CreateBucketIfNotExists at h
  by_cases hd : dateStr.utf8ByteSize = 0
  · simp [hd] at h
  · by_cases ht : token.utf8ByteSize = 0
    · cases hg : db.log.Get dateStr <;> simp [hd, ht, hg] at h
    · cases hp : putCheck logBytes with
      | some e =>
        cases hg : db.log.Get dateStr with
        | none => simp [hd, ht, hg, hp, KV.Get] at h
        | some day => cases hg2 : day.Get token <;> simp [hd, ht, hg, hg2, hp] at h
      | none =>
        cases hg : db.log.Get dateStr with
        | none =>
          simp [hd, ht, hg, hp, KV.Get] at h
          simp [← h, KV.Get]
        | some day =>
          cases hg2 : day.Get token with
          | none =>
            simp [hd, ht, hg, hg2, hp] at h
            simp [← h, hg2]
          | some tb =>
            simp [hd, ht, hg, hg2, hp] at h
            simp [← h, hg2]

theorem logTx_get (dateStr token logBytes : String) (db db' : DB)
    (h : logTx dateStr token logBytes db = .ok db') :
    auditGet db' dateStr token logBytes = some "" := by
  rw [logTx_ok_eq _ _ _ _ _ h]
  simp [auditGet, KV.Get_Put_self]

theorem logTx_count (dateStr token logBytes : String) (db db' : DB)
    (h : logTx dateStr token logBytes db = .ok db') :
    auditCount db' =
      auditCount db + (if auditGet db dateStr token logBytes = none then 1 else 0) := by
  rw [logTx_ok_eq _ _ _ _ _ h]
  cases hg : db.log.Get dateStr with
  | none =>
    have ha : auditGet db dateStr token logBytes = none := by simp [auditGet, hg]
    rw [ha]
    simp only [auditCount, Option.getD_none, if_true]
    rw [KV.total_Put_absent _ _ _ _ hg]
    simp [recordCount, KV.Put, KV.Has, KV.Get, KV.insert, KV.total]
  | some day =>
    simp only [auditCount, Option.getD_some]
    have h1 := KV.total_Put_present (KV.total recordCount) db.log dateStr
      (day.Put token (((day.Get token).getD []).Put logBytes "")) day hg
    cases hg2 : day.Get token with
    | none =>
      have ha : auditGet db dateStr token logBytes = none := by simp [auditGet, hg, hg2]
      rw [ha]
      simp only [hg2, Option.getD_none, if_true] at h1 ⊢
      have h2 := KV.total_Put_absent recordCount day token
        (KV.Put [] logBytes "") hg2
      have h3 : recordCount (KV.Put [] logBytes "") = 1 := by
        simp [recordCount, KV.Put, KV.Has, KV.Get, KV.insert, KV.total]
      omega
    | some tb =>
      simp only [hg2, Option.getD_some] at h1 ⊢
      have h2 := KV.total_Put_present recordCount day token
        (tb.Put logBytes "") tb hg2
      cases hg3 : tb.Get logBytes with
      | none =>
        have ha : auditGet db dateStr token logBytes = none := by
          simp [auditGet, hg, hg2, hg3]
        rw [ha]
        have h3 : recordCount (tb.Put logBytes "") = recordCount tb + 1 :=
          KV.total_Put_absent (fun _ : String => 1) tb logBytes "" hg3
        simp only [if_true]
        omega
      | some old =>
        have ha : auditGet db dateStr token logBytes = some old := by
          simp [auditGet, hg, hg2, hg3]
        rw [ha]
        have h3 : recordCount (tb.Put logBytes "") + 1 = recordCount tb + 1 :=
          KV.total_Put_present (fun _ : String => 1) tb logBytes "" old hg3
        simp only [reduceCtorEq, if_false]
        omega

/-- C8 fails as stated: a call without an Authorization header, a call with
an expired session and a call with an unreadable body each leave the audit log
with no record, and a second call with the same request on the same day leaves
the one record of the first call. -/
theorem validateRequest_audit_count_counterexample :
    auditCount exService.Bolt = 0 ∧
    (ValidateRequest demoLib exWorld exService ["admin"] exAnonymous).1
      = .ret false (some .ErrAuthorizationNotFound) ∧
    auditCount (ValidateRequest demoLib exWorld exService ["admin"] exAnonymous).2.Bolt = 0 ∧
    (ValidateRequest demoLib exWorld exService ["admin"] (exRequest ["Token old"] none)).1
      = .ret false (some .ErrExpiredSession) ∧
    auditCount (ValidateRequest demoLib exWorld exService ["admin"]
      (exRequest ["Token old"] none)).2.Bolt = 0 ∧
    (ValidateRequest demoLib exWorld exService ["admin"]
      (exRequest ["Token adm"] (some .fails))).1 = .ret false (some .ErrMalformedRequest) ∧
    auditCount (ValidateRequest demoLib exWorld exService ["admin"]
      (exRequest ["Token adm"] (some .fails))).2.Bolt = 0 ∧
    (ValidateRequest demoLib exWorld exService ["admin"] (exRequest ["Token adm"] none)).1
      = .ret true none ∧
    auditCount (ValidateRequest demoLib exWorld exService ["admin"]
      (exRequest ["Token adm"] none)).2.Bolt = 1 ∧
    (ValidateRequest demoLib exWorld
      (ValidateRequest demoLib exWorld exService ["admin"] (exRequest ["Token adm"] none)).2
      ["admin"] (exRequest ["Token adm"] none)).1 = .ret true none ∧
    auditCount (ValidateRequest demoLib exWorld
      (ValidateRequest demoLib exWorld exService ["admin"] (exRequest ["Token adm"] none)).2
      ["admin"] (exRequest ["Token adm"] none)).2.Bolt = 1 := by
  refine ⟨by rfl, by rfl, by rfl, by rfl, by rfl, by rfl, by rfl, by rfl, by rfl, by rfl,
    by rfl⟩

/-- C8, amended: a call of `ValidateRequest` that passes steps 1-4, whose log
record serializes and whose storage transaction succeeds makes the number of
stored audit records grow by exactly one when the serialized record is not yet
stored under that day and token, and leaves the number as it is when the
record is already stored there; a call whose storage transaction fails, and a
call that does not get that far (missing or malformed header, unknown token,
expired session, malformed body), leaves the store unchanged. -/
theorem validateRequest_audit_count {P : Type} (lib : Lib P) (w : World) (service : Service)
    (allowedRoles : List String) (req : Request) :
    ((¬ ∃ token session payload logBytes,
        GetSessionToken req = .ok token ∧
        service.SessionMap.Get token = some (.val session) ∧
        ¬ w.now.Unix > session.Expiry ∧
        parseRequest lib req = .ok payload ∧
        lib.jsonMarshal (mkRequestLog lib req token payload) = some logBytes) →
      (ValidateRequest lib w service allowedRoles req).2.Bolt = service.Bolt) ∧
    (∀ token session payload logBytes,
        GetSessionToken req = .ok token →
        service.SessionMap.Get token = some (.val session) →
        ¬ w.now.Unix > session.Expiry →
        parseRequest lib req = .ok payload →
        lib.jsonMarshal (mkRequestLog lib req token payload) = some logBytes →
      ((service.Bolt.Update w.beginErr w.commitErr
            (logTx (lib.fmtdateFormat w.txNow) token logBytes)).1 = none →
          auditGet service.Bolt (lib.fmtdateFormat w.txNow) token logBytes = none →
          auditCount (ValidateRequest lib w service allowedRoles req).2.Bolt
            = auditCount service.Bolt + 1) ∧
      ((service.Bolt.Update w.beginErr w.commitErr
            (logTx (lib.fmtdateFormat w.txNow) token logBytes)).1 = none →
          auditGet service.Bolt (lib.fmtdateFormat w.txNow) token logBytes ≠ none →
          auditCount (ValidateRequest lib w service allowedRoles req).2.Bolt
            = auditCount service.Bolt) ∧
      ((service.Bolt.Update w.beginErr w.commitErr
            (logTx (lib.fmtdateFormat w.txNow) token logBytes)).1 ≠ none →
          (ValidateRequest lib w service allowedRoles req).2.Bolt = service.Bolt)) := by
  constructor
  · intro hNo
    cases hTok : GetSessionToken req with
    | error e =>
      unfold ValidateRequest; simp [hTok]
    | ok token =>
      cases hHas : service.SessionMap.Has token with
      | false => unfold ValidateRequest; simp [hTok, hHas]
      | true =>
        cases hGet : service.SessionMap.Get token with
        | none => unfold ValidateRequest; simp [hTok, hHas, hGet]
        | some entry =>
          cases entry with
          | ptr addr => unfold ValidateRequest; simp [hTok, hHas, hGet]
          | val session =>
            by_cases hExp : w.now.Unix > session.Expiry
            · unfold ValidateRequest; simp [hTok, hHas, hGet, hExp]
            · cases hBody : parseRequest lib req with
              | error e => unfold ValidateRequest; simp [hTok, hHas, hGet, hExp, hBody]
              | ok payload =>
                cases hSer : lib.jsonMarshal (mkRequestLog lib req token payload) with
                | none => unfold ValidateRequest; simp [hTok, hHas, hGet, hExp, hBody, hSer]
                | some logBytes =>
                  exact absurd ⟨token, session, payload, logBytes, hTok, hGet, hExp, hBody,
                    hSer⟩ hNo
  · intro token session payload logBytes hTok hGet hLive hBody hSer
    have hB : (ValidateRequest lib w service allowedRoles req).2.Bolt =
        (service.Bolt.Update w.beginErr w.commitErr
          (logTx (lib.fmtdateFormat w.txNow) token logBytes)).2 := by
      rw [ValidateRequest_pass lib w service allowedRoles req token session payload logBytes
        hTok hGet hLive hBody hSer]
      split <;> rfl
    rw [hB]
    refine ⟨fun hOk hAbs => ?_, fun hOk hPres => ?_, fun hErr => ?_⟩
    · rw [logTx_count _ _ _ _ _ (Update_ok _ _ _ _ hOk), if_pos hAbs]
    · rw [logTx_count _ _ _ _ _ (Update_ok _ _ _ _ hOk), if_neg hPres]
      rfl
    · cases hU : (service.Bolt.Update w.beginErr w.commitErr
          (logTx (lib.fmtdateFormat w.txNow) token logBytes)).1 with
      | none => exact absurd hU hErr
      | some e =>
        exact (Update_error service.Bolt w.beginErr w.commitErr _
          (fun e => logTx_error _ _ _ _ e) e hU).2

/-- C8 amended, at a concrete input: the first audited request of the `admin`
session takes the audit log from 0 records to 1. -/
theorem validateRequest_audit_count_witness :
    auditCount (ValidateRequest demoLib exWorld exService ["admin"]
      (exRequest ["Token adm"] none)).2.Bolt = auditCount exService.Bolt + 1 :=
  ((validateRequest_audit_count demoLib exWorld exService ["admin"]
      (exRequest ["Token adm"] none)).2 "adm" exAdmin demoLib.emptyPayload
      "10.0.0.7:4242\nadm\nGET\n/invites\nlimit=10\n\x7b\x7d"
      (by rfl) (by rfl) (by decide) (by rfl) (by rfl)).1 (by rfl) (by rfl)

/-- C9: for every request that passes steps 1-4 of `ValidateRequest`, whether
the role check then grants or denies, and provided the store write succeeds,
after the call the audit log holds, in the bucket named by the date of the
clock reading of the transaction and inside it the bucket named by the session
token, an entry (with an empty value) whose key is the serialized log record
with origin the caller address, requestor the token, and the method, route,
encoded query and parsed payload of the request. -/
theorem validateRequest_audit_record {P : Type} (lib : Lib P) (w : World)
    (service : Service) (allowedRoles : List String) (req : Request) (token : String)
    (session : Session) (payload : P) (logBytes : String)
    (hTok : GetSessionToken req = .ok token)
    (hGet : service.SessionMap.Get token = some (.val session))
    (hLive : ¬ w.now.Unix > session.Expiry)
    (hBody : parseRequest lib req = .ok payload)
    (hSer : lib.jsonMarshal
      { Origin := req.RemoteAddr, Requestor := token, RequestType := req.Method,
        Route := req.URLPath, QueryParams := lib.formEncode req.Form, Payload := payload }
      = some logBytes)
    (hWrite : (service.Bolt.Update w.beginErr w.commitErr
      (logTx (lib.fmtdateFormat w.txNow) token logBytes)).1 = none) :
    auditGet (ValidateRequest lib w service allowedRoles req).2.Bolt
      (lib.fmtdateFormat w.txNow) token logBytes = some "" := by
  have hB : (ValidateRequest lib w service allowedRoles req).2.Bolt =
      (service.Bolt.Update w.beginErr w.commitErr
        (logTx (lib.fmtdateFormat w.txNow) token logBytes)).2 := by
    rw [ValidateRequest_pass lib w service allowedRoles req token session payload logBytes
      hTok hGet hLive hBody hSer]
    split <;> rfl
  rw [hB]
  exact logTx_get _ _ _ _ _ (Update_ok _ _ _ _ hWrite)

/-- C9, at a concrete input: the denied request of the `finance` session is
logged under day 0 and the token `tok`. -/
theorem validateRequest_audit_record_witness :
    auditGet (ValidateRequest demoLib exWorld exService ["admin"]
      (exRequest ["Token tok"] (some (.yields "\x7b\x7d")))).2.Bolt
      "day-0" "tok" "10.0.0.7:4242\ntok\nGET\n/invites\nlimit=10\n\x7b\x7d" = some "" :=
  validateRequest_audit_record demoLib exWorld exService ["admin"]
    (exRequest ["Token tok"] (some (.yields "\x7b\x7d"))) "tok" exSession "\x7b\x7d"
    "10.0.0.7:4242\ntok\nGET\n/invites\nlimit=10\n\x7b\x7d"
    (by rfl) (by rfl) (by decide) (by rfl) (by rfl) (by rfl)

/-- C10 fails as stated: the commit of the audit write fails and the live
`admin` session `far`, whose expiry is ten seconds short of the largest
`int64`, is granted with the storage error, but its expiry is not extended: the
renewal wraps around to a negative number of seconds. -/
theorem validateRequest_audit_failure_counterexample :
    exFarService.SessionMap.Get "far" = some (.val exFar) ∧
    ¬ exWorldFault.now.Unix > exFar.Expiry ∧
    exFar.Expiry = 9223372036854775807 - 10 ∧
    ValidateRequest demoLib exWorldFault exFarService ["finance"]
        (exRequest ["Token far"] none)
      = (.ret true (some (.ErrTx "disk full")),
          { SessionMap := [("far", .val { User := "U7", Token := "far", Access := "admin",
                                          CreatedOn := 1000,
                                          Expiry := -9223372036854775759 })]
            Bolt := emptyDB }) ∧
    (-9223372036854775759 : Int) < exFar.Expiry := by
  refine ⟨by rfl, by decide, by decide, by rfl, by decide⟩

/-- C10, amended: for every request that passes steps 1-4 of
`ValidateRequest`, whose session has an expiry that is an `int64` value at most
`2^63 - 61` (so that adding 60 seconds does not overflow), and whose audit
write fails with a storage error, the store is left as it was and `granted` is
what the role check decides; when the access level is `"admin"` or a member of
the required roles the call returns `granted = true` with the storage error as
its error and the expiry of the session is extended by 60 seconds; otherwise it
returns `(false, ErrUnauthorizedAccess)`. -/
theorem validateRequest_audit_failure {P : Type} (lib : Lib P) (w : World)
    (service : Service) (allowedRoles : List String) (req : Request) (token : String)
    (session : Session) (payload : P) (logBytes : String) (e : Err)
    (hTok : GetSessionToken req = .ok token)
    (hGet : service.SessionMap.Get token = some (.val session))
    (hLive : ¬ w.now.Unix > session.Expiry)
    (hLow : -9223372036854775808 ≤ session.Expiry)
    (hHigh : session.Expiry + 60 ≤ 9223372036854775807)
    (hBody : parseRequest lib req = .ok payload)
    (hSer : lib.jsonMarshal (mkRequestLog lib req token payload) = some logBytes)
    (hFail : (service.Bolt.Update w.beginErr w.commitErr
      (logTx (lib.fmtdateFormat w.txNow) token logBytes)).1 = some e) :
    e.isStorage = true ∧
    (ValidateRequest lib w service allowedRoles req).2.Bolt = service.Bolt ∧
    ((session.Access = "admin" ∨ session.Access ∈ allowedRoles) →
      (ValidateRequest lib w service allowedRoles req).1 = .ret true (some e) ∧
      (ValidateRequest lib w service allowedRoles req).2.SessionMap.Get session.Token =
        some (.val { User := session.User, Token := session.Token, Access := session.Access,
                     CreatedOn := session.CreatedOn, Expiry := session.Expiry + 60 }) ∧
      session.Expiry < session.Expiry + 60) ∧
    (¬ (session.Access = "admin" ∨ session.Access ∈ allowedRoles) →
      (ValidateRequest lib w service allowedRoles req).1
        = .ret false (some .ErrUnauthorizedAccess) ∧
      (ValidateRequest lib w service allowedRoles req).2.SessionMap = service.SessionMap) := by
  have hU := Update_error service.Bolt w.beginErr w.commitErr _
    (fun e => logTx_error (lib.fmtdateFormat w.txNow) token logBytes service.Bolt e) e hFail
  have hP := ValidateRequest_pass lib w service allowedRoles req token session payload
    logBytes hTok hGet hLive hBody hSer
  refine ⟨hU.1, ?_, fun hRole => ?_, fun hRole => ?_⟩
  · rw [hP]
    split
    · exact hU.2
    · exact hU.2
  · rw [hP, if_pos ((checkAccess_fst _ _ _).2 hRole), hFail,
      wrapInt64_of_range _ (by omega) hHigh]
    exact ⟨rfl, KV.Get_Set_self _ _ _, by omega⟩
  · have hc : ¬ (checkAccess session.Access allowedRoles
        (service.Bolt.Update w.beginErr w.commitErr
          (logTx (lib.fmtdateFormat w.txNow) token logBytes)).1).1 = true :=
      fun hc => hRole ((checkAccess_fst _ _ _).1 hc)
    rw [hP, if_neg hc]
    exact ⟨rfl, rfl⟩

/-- C10 amended, at a concrete input: the commit of the audit write fails and
the `admin` session is granted all the same, with the storage error returned
and the expiry extended from 8200 to 8260. -/
theorem validateRequest_audit_failure_witness :
    (ValidateRequest demoLib exWorldFault exService ["finance"]
      (exRequest ["Token adm"] none)).1 = .ret true (some (.ErrTx "disk full")) ∧
    (ValidateRequest demoLib exWorldFault exService ["finance"]
      (exRequest ["Token adm"] none)).2.SessionMap.Get exAdmin.Token =
        some (.val { User := exAdmin.User, Token := exAdmin.Token, Access := exAdmin.Access,
                     CreatedOn := exAdmin.CreatedOn, Expiry := exAdmin.Expiry + 60 }) ∧
    exAdmin.Expiry < exAdmin.Expiry + 60 :=
  (validateRequest_audit_failure demoLib exWorldFault exService ["finance"]
    (exRequest ["Token adm"] none) "adm" exAdmin demoLib.emptyPayload
    "10.0.0.7:4242\nadm\nGET\n/invites\nlimit=10\n\x7b\x7d" (.ErrTx "disk full")
    (by rfl) (by rfl) (by decide) (by decide) (by decide) (by rfl) (by rfl) (by rfl)).2.2.1
    (Or.inl (by rfl))

/-! ## Session creation and lookup (C11, C12, C13) -/

theorem GetUser_ok {P : Type} (elib : EntityLib P) (id : String) (db : DB)
    (viewErr : Option String) (user : User)
    (h : GetUser elib id db viewErr = (user, none)) :
    viewErr = none ∧ ∃ v, db.user.Get id = some v ∧ elib.unmarshalUser v zeroUser = some user := by
  unfold GetUser DB.View at h
  cases viewErr with
  | some msg => simp at h
  | none =>
    cases hg : db.user.Get id with
    | none => simp [hg] at h
    | some v =>
      cases hu : elib.unmarshalUser v zeroUser with
      | none => simp [hg, hu] at h
      | some u =>
        simp [hg, hu] at h
        exact ⟨rfl, v, rfl, h ▸ hu⟩

theorem GetUser_missing {P : Type} (elib : EntityLib P) (id : String) (db : DB)
    (viewErr : Option String) (h : db.user.Get id = none) :
    ∃ user err, GetUser elib id db viewErr = (user, some err) := by
  unfold GetUser DB.View
  cases viewErr with
  | some msg => exact ⟨_, _, rfl⟩
  | none => exact ⟨zeroUser, .ErrKeyNotFound id, by simp [h]⟩

/-- The call of `CreateSession` once the body is read and decoded and both
keys are present: the user is fetched, the password compared and the session
stored. -/
theorem CreateSession_parsed {P : Type} (lib : Lib P) (elib : EntityLib P) (w : LoginWorld)
    (service : Service) (req : Request) (body : String) (payload : P) (email password : String)
    (hBody : req.Body = some (.yields body))
    (hLen : body.utf8ByteSize ≠ 0)
    (hJson : lib.jsonUnmarshal body = some payload)
    (hEmail : elib.payloadString payload "email" = some email)
    (hPass : elib.payloadString payload "password" = some password) :
    CreateSession lib elib w service req =
      match GetUser elib (elib.base58Encode email) service.Bolt w.viewErr with
      | (_, some err) => (.done (.error StatusBadRequest err), service)
      | (user, none) =>
        if elib.compareHashAndPassword user.Password password = true then
          (.done (.json StatusCreated
              { User := user.Uuid, Token := w.token, Access := user.Role,
                CreatedOn := w.now.Unix, Expiry := (GetFutureTime w.expiryNow 0 2 0 0).Unix }),
            { SessionMap := service.SessionMap.Set w.token
                (.val { User := user.Uuid, Token := w.token, Access := user.Role,
                        CreatedOn := w.now.Unix,
                        Expiry := (GetFutureTime w.expiryNow 0 2 0 0).Unix })
              Bolt := (User.Update elib { user with LastLogin := w.now.Unix } service.Bolt
                w.beginErr w.commitErr).2 })
        else (.done (.error StatusBadRequest .ErrUnauthorizedAccess), service) := by
  unfold CreateSession
  simp only [hBody, ReadAll, Option.getD_some, hLen, if_false, hJson, hEmail, hPass]
  cases hU : GetUser elib (elib.base58Encode email) service.Bolt w.viewErr with
  | mk user err =>
    cases err with
    | some e => rfl
    | none =>
      cases hc : elib.compareHashAndPassword user.Password password <;>
        simp [hc, Session.Update]

/-- A call of `CreateSession` that answers with a session went through every
check, and the session it answers with is the one it stored. -/
theorem CreateSession_json {P : Type} (lib : Lib P) (elib : EntityLib P) (w : LoginWorld)
    (service : Service) (req : Request) (code : Nat) (session : Session)
    (h : (CreateSession lib elib w service req).1 = .done (.json code session)) :
    ∃ body payload email password v user,
      req.Body = some (.yields body) ∧
      lib.jsonUnmarshal body = some payload ∧
      elib.payloadString payload "email" = some email ∧
      elib.payloadString payload "password" = some password ∧
      service.Bolt.user.Get (elib.base58Encode email) = some v ∧
      elib.unmarshalUser v zeroUser = some user ∧
      elib.compareHashAndPassword user.Password password = true ∧
      code = StatusCreated ∧
      session = { User := user.Uuid, Token := w.token, Access := user.Role,
                  CreatedOn := w.now.Unix,
                  Expiry := (GetFutureTime w.expiryNow 0 2 0 0).Unix } ∧
      (CreateSession lib elib w service req).2.SessionMap
        = service.SessionMap.Set session.Token (.val session) := by
  cases hBody : req.Body with
  | none => simp [CreateSession, hBody] at h
  | some reader =>
    cases reader with
    | fails => simp [CreateSession, hBody, ReadAll] at h
    | yields body =>
      by_cases hLen : body.utf8ByteSize = 0
      · simp [CreateSession, hBody, ReadAll, hLen] at h
      · cases hJson : lib.jsonUnmarshal body with
        | none => simp [CreateSession, hBody, ReadAll, hLen, hJson] at h
        | some payload =>
          cases hEmail : elib.payloadString payload "email" with
          | none => simp [CreateSession, hBody, ReadAll, hLen, hJson, hEmail] at h
          | some email =>
            cases hPass : elib.payloadString payload "password" with
            | none => simp [CreateSession, hBody, ReadAll, hLen, hJson, hEmail, hPass] at h
            | some password =>
              have hP := CreateSession_parsed lib elib w service req body payload email
                password hBody hLen hJson hEmail hPass
              rw [hP] at h ⊢
              cases hU : GetUser elib (elib.base58Encode email) service.Bolt w.viewErr with
              | mk user err =>
                cases err with
                | some e => simp [hU] at h
                | none =>
                  obtain ⟨_, v, hv, hd⟩ := GetUser_ok elib _ _ _ _ hU
                  cases hc : elib.compareHashAndPassword user.Password password with
                  | false => simp [hU, hc] at h
                  | true =>
                    simp only [hU, hc, if_true, Run.done.injEq, Response.json.injEq] at h ⊢
                    obtain ⟨hcode, hs⟩ := h
                    subst hs
                    exact ⟨body, payload, email, password, v, user, rfl, hJson, hEmail,
                      hPass, hv, hd, hc, hcode.symm, rfl, rfl⟩

/-- C11, at the failing input: the administrator logs in with the matching
password while the clock passes from second 1000 to second 1001 between the
reading of line 78 and the reading of line 85.  The stored session has the
uuid and the role of the user, `CreatedOn = 1000` and the key of its token,
but its `Expiry` is 8201, which is 7201 seconds after `CreatedOn`. -/
theorem createSession_expiry_from_second_reading :
    (CreateSession demoLib demoEntityLib exLoginWorldTick exLoginService
      (exLoginRequest "\x7bemail=admin@x.io;password=secret\x7d")).1
      = .done (.json StatusCreated
          { User := exUser.Uuid, Token := "tok-1", Access := exUser.Role,
            CreatedOn := 1000, Expiry := 8201 }) ∧
    (CreateSession demoLib demoEntityLib exLoginWorldTick exLoginService
      (exLoginRequest "\x7bemail=admin@x.io;password=secret\x7d")).2.SessionMap.Get "tok-1"
      = some (.val { User := exUser.Uuid, Token := "tok-1", Access := exUser.Role,
                     CreatedOn := 1000, Expiry := 8201 }) ∧
    exLoginWorldTick.now.Unix = 1000 ∧
    (8201 : Int) = 1000 + 7201 ∧
    (8201 : Int) ≠ 1000 + 7200 := by
  refine ⟨by rfl, by rfl, by decide, by decide, by decide⟩

/-- C12: for every session that `CreateSession` answers with, a lookup by
its token right after (`entity.GetSession`, and the handler
`Service.GetSession`) succeeds and returns the same record, field by field;
and `GetSession` for an identifier that is not a key of the session map fails
with `ErrKeyNotFound` naming that identifier. -/
theorem getSession_roundtrip {P : Type} (lib : Lib P) (elib : EntityLib P) (w : LoginWorld)
    (service : Service) (req : Request) (code : Nat) (session : Session)
    (h : (CreateSession lib elib w service req).1 = .done (.json code session)) :
    GetSession session.Token (CreateSession lib elib w service req).2.SessionMap
      = .done (.ok session) ∧
    Service.GetSession (CreateSession lib elib w service req).2 session.Token
      = .done (.json StatusOK session) ∧
    (∀ (sessionMap : ConcurrentMap) (id : String), id ∉ sessionMap.Keys →
      GetSession id sessionMap = .done (.error (.ErrKeyNotFound id)) ∧
      Service.GetSession { SessionMap := sessionMap, Bolt := service.Bolt } id
        = .done (.error StatusBadRequest (.ErrKeyNotFound id))) := by
  obtain ⟨_, _, _, _, _, _, _, _, _, _, _, _, _, _, _, hMap⟩ :=
    CreateSession_json lib elib w service req code session h
  have hG : GetSession session.Token (CreateSession lib elib w service req).2.SessionMap
      = .done (.ok session) := by
    simp [GetSession, hMap, KV.Get_Set_self]
  refine ⟨hG, ?_, ?_⟩
  · simp [Service.GetSession, hG]
  · intro sessionMap id hid
    have hN : sessionMap.Get id = none := (KV.Get_eq_none_iff _ _).2 hid
    have hE : GetSession id sessionMap = .done (.error (.ErrKeyNotFound id)) := by
      simp [GetSession, hN]
    exact ⟨hE, by simp [Service.GetSession, hE]⟩

/-- C12, at a concrete input: the administrator logs in and the session is
looked up by its token `tok-1`. -/
theorem getSession_roundtrip_witness :
    GetSession "tok-1" (CreateSession demoLib demoEntityLib exLoginWorld exLoginService
        (exLoginRequest "\x7bemail=admin@x.io;password=secret\x7d")).2.SessionMap
      = .done (.ok { User := "b58:admin@x.io", Token := "tok-1", Access := "admin",
                     CreatedOn := 1000, Expiry := 8200 }) :=
  (getSession_roundtrip demoLib demoEntityLib exLoginWorld exLoginService
    (exLoginRequest "\x7bemail=admin@x.io;password=secret\x7d") StatusCreated
    { User := "b58:admin@x.io", Token := "tok-1", Access := "admin",
      CreatedOn := 1000, Expiry := 8200 } (by rfl)).1

theorem CreateSession_cases {P : Type} (lib : Lib P) (elib : EntityLib P) (w : LoginWorld)
    (service : Service) (req : Request) :
    (CreateSession lib elib w service req).2 = service ∨
    ∃ code session, (CreateSession lib elib w service req).1 = .done (.json code session) := by
  cases hBody : req.Body with
  | none => left; simp [CreateSession, hBody]
  | some reader =>
    cases reader with
    | fails => left; simp [CreateSession, hBody, ReadAll]
    | yields body =>
      by_cases hLen : body.utf8ByteSize = 0
      · left; simp [CreateSession, hBody, ReadAll, hLen]
      · cases hJson : lib.jsonUnmarshal body with
        | none => left; simp [CreateSession, hBody, ReadAll, hLen, hJson]
        | some payload =>
          cases hEmail : elib.payloadString payload "email" with
          | none => left; simp [CreateSession, hBody, ReadAll, hLen, hJson, hEmail]
          | some email =>
            cases hPass : elib.payloadString payload "password" with
            | none => left; simp [CreateSession, hBody, ReadAll, hLen, hJson, hEmail, hPass]
            | some password =>
              rw [CreateSession_parsed lib elib w service req body payload email
                password hBody hLen hJson hEmail hPass]
              cases hU : GetUser elib (elib.base58Encode email) service.Bolt w.viewErr with
              | mk user err =>
                cases err with
                | some e => left; rfl
                | none =>
                  by_cases hc : elib.compareHashAndPassword user.Password password = true
                  · right
                    simp only [if_pos hc]
                    exact ⟨_, _, rfl⟩
                  · left
                    simp only [if_neg hc]

/-- C13: `CreateSession` changes the state only when it answers with a
created session, and it answers with one only when the payload has the keys
`email` and `password`, the email names a stored user and the password matches
the stored hash of that user; when the `email` key or the `password` key is
missing, when no user is stored for the email, and when the password does not
match (`ErrUnauthorizedAccess`), it answers with an error and leaves the state,
so the session cache, as it was. -/
theorem createSession_requires_credentials {P : Type} (lib : Lib P) (elib : EntityLib P)
    (w : LoginWorld) (service : Service) (req : Request) :
    ((∀ code session, (CreateSession lib elib w service req).1 ≠ .done (.json code session)) →
      (CreateSession lib elib w service req).2 = service) ∧
    (∀ code session, (CreateSession lib elib w service req).1 = .done (.json code session) →
      ∃ body payload email password v user,
        req.Body = some (.yields body) ∧
        lib.jsonUnmarshal body = some payload ∧
        elib.payloadString payload "email" = some email ∧
        elib.payloadString payload "password" = some password ∧
        service.Bolt.user.Get (elib.base58Encode email) = some v ∧
        elib.unmarshalUser v zeroUser = some user ∧
        elib.compareHashAndPassword user.Password password = true) ∧
    (∀ body payload, req.Body = some (.yields body) → body.utf8ByteSize ≠ 0 →
      lib.jsonUnmarshal body = some payload →
      (elib.payloadString payload "email" = none →
        CreateSession lib elib w service req
          = (.done (.error StatusBadRequest (.ErrKeyNotFound "email")), service)) ∧
      (∀ email, elib.payloadString payload "email" = some email →
        elib.payloadString payload "password" = none →
        CreateSession lib elib w service req
          = (.done (.error StatusBadRequest (.ErrKeyNotFound "password")), service)) ∧
      (∀ email password, elib.payloadString payload "email" = some email →
        elib.payloadString payload "password" = some password →
        service.Bolt.user.Get (elib.base58Encode email) = none →
        ∃ err, CreateSession lib elib w service req
            = (.done (.error StatusBadRequest err), service) ∧
          (w.viewErr = none → err = .ErrKeyNotFound (elib.base58Encode email))) ∧
      (∀ email password user, elib.payloadString payload "email" = some email →
        elib.payloadString payload "password" = some password →
        GetUser elib (elib.base58Encode email) service.Bolt w.viewErr = (user, none) →
        elib.compareHashAndPassword user.Password password = false →
        CreateSession lib elib w service req
          = (.done (.error StatusBadRequest .ErrUnauthorizedAccess), service))) := by
  refine ⟨fun hNo => ?_, fun code session h => ?_, fun body payload hBody hLen hJson => ?_⟩
  · rcases CreateSession_cases lib elib w service req with h | ⟨code, session, h⟩
    · exact h
    · exact absurd h (hNo code session)
  · obtain ⟨body, payload, email, password, v, user, h1, h2, h3, h4, h5, h6, h7, _⟩ :=
      CreateSession_json lib elib w service req code session h
    exact ⟨body, payload, email, password, v, user, h1, h2, h3, h4, h5, h6, h7⟩
  · refine ⟨fun hE => ?_, fun email hE hP => ?_, fun email password hE hP hG => ?_,
      fun email password user hE hP hU hc => ?_⟩
    · simp [CreateSession, hBody, ReadAll, hLen, hJson, hE]
    · simp [CreateSession, hBody, ReadAll, hLen, hJson, hE, hP]
    · rw [CreateSession_parsed lib elib w service req body payload email password hBody hLen
        hJson hE hP]
      cases hv : w.viewErr with
      | some msg =>
        exact ⟨.ErrTx msg, by simp [GetUser, DB.View], fun h => by cases h⟩
      | none =>
        exact ⟨.ErrKeyNotFound (elib.base58Encode email), by simp [GetUser, DB.View, hG],
          fun _ => rfl⟩
    · rw [CreateSession_parsed lib elib w service req body payload email password hBody hLen
        hJson hE hP, hU]
      simp [hc]

/-- C13, at concrete inputs: a payload without the `email` key, an email
that names no stored user and a password that does not match each get an
error and leave the state as it was. -/
theorem createSession_requires_credentials_witness :
    CreateSession demoLib demoEntityLib exLoginWorld exLoginService
        (exLoginRequest "\x7bpassword=secret\x7d")
      = (.done (.error StatusBadRequest (.ErrKeyNotFound "email")), exLoginService) ∧
    (∃ err, CreateSession demoLib demoEntityLib exLoginWorld exLoginService
        (exLoginRequest "\x7bemail=nobody@x.io;password=secret\x7d")
      = (.done (.error StatusBadRequest err), exLoginService) ∧
      (exLoginWorld.viewErr = none → err = .ErrKeyNotFound "b58:nobody@x.io")) ∧
    CreateSession demoLib demoEntityLib exLoginWorld exLoginService
        (exLoginRequest "\x7bemail=admin@x.io;password=wrong\x7d")
      = (.done (.error StatusBadRequest .ErrUnauthorizedAccess), exLoginService) :=
  ⟨((createSession_requires_credentials demoLib demoEntityLib exLoginWorld exLoginService
      (exLoginRequest "\x7bpassword=secret\x7d")).2.2 "\x7bpassword=secret\x7d"
      "\x7bpassword=secret\x7d" (by rfl) (by decide) (by rfl)).1 (by rfl),
   ((createSession_requires_credentials demoLib demoEntityLib exLoginWorld exLoginService
      (exLoginRequest "\x7bemail=nobody@x.io;password=secret\x7d")).2.2
      "\x7bemail=nobody@x.io;password=secret\x7d" "\x7bemail=nobody@x.io;password=secret\x7d"
      (by rfl) (by decide) (by rfl)).2.2.1 "nobody@x.io" "secret" (by rfl) (by rfl) (by rfl),
   ((createSession_requires_credentials demoLib demoEntityLib exLoginWorld exLoginService
      (exLoginRequest "\x7bemail=admin@x.io;password=wrong\x7d")).2.2
      "\x7bemail=admin@x.io;password=wrong\x7d" "\x7bemail=admin@x.io;password=wrong\x7d"
      (by rfl) (by decide) (by rfl)).2.2.2 "admin@x.io" "wrong" exUser (by rfl) (by rfl)
      (by rfl) (by rfl)⟩

/-! ## The session checkpoint (C14, C15) -/

/-- C14, at the failing input: the session bucket holds a session that
expired at second 1500 under `dead` and one that expires at second 9000 under
`live`, the cache is empty and the clock reads second 2000.  `LoadSessions`
returns no error and loads the expired session and not the live one: the
tokens in the cache are `dead` alone. -/
theorem loadSessions_loads_expired :
    exCheckpoint.SessionMap = [] ∧
    exCheckpoint.Bolt.session.Keys = ["dead", "live"] ∧
    ((exCheckpoint.Bolt.session.Get "dead").bind decSession).map (fun x => x.Expiry)
      = some 1500 ∧
    ((exCheckpoint.Bolt.session.Get "live").bind decSession).map (fun x => x.Expiry)
      = some 9000 ∧
    exTxWorld.now.Unix = 2000 ∧
    (LoadSessions demoEntityLib exTxWorld 1 exCheckpoint).err = none ∧
    (LoadSessions demoEntityLib exTxWorld 1 exCheckpoint).service.SessionMap.Keys = ["dead"] ∧
    (LoadSessions demoEntityLib exTxWorld 1 exCheckpoint).service.SessionMap.Has "live"
      = false := by
  refine ⟨by rfl, by rfl, by rfl, by rfl, by decide, by rfl, by rfl, by rfl⟩

theorem KV.Get_replace_ne {α : Type} (m : KV α) {k k' : String} (v : α) (h : k' ≠ k) :
    (m.replace k v).Get k' = m.Get k' := by
  induction m with
  | nil => rfl
  | cons p rest ih =>
    obtain ⟨k1, v1⟩ := p
    by_cases h1 : k1 = k
    · have h2 : ¬ k1 = k' := fun e => h (e ▸ h1)
      simp [KV.replace, KV.Get, h1, h2, Ne.symm h]
    · by_cases h2 : k1 = k'
      · subst h2
        simp [KV.replace, KV.Get, h1]
      · simpa [KV.replace, KV.Get, h1, h2] using ih

theorem KV.Get_insert_ne {α : Type} (m : KV α) {k k' : String} (v : α) (h : k' ≠ k) :
    (m.insert k v).Get k' = m.Get k' := by
  induction m with
  | nil => simp [KV.insert, KV.Get, Ne.symm h]
  | cons p rest ih =>
    obtain ⟨k1, v1⟩ := p
    by_cases hlt : k < k1
    · simp [KV.insert, KV.Get, hlt, Ne.symm h]
    · by_cases h2 : k1 = k'
      · subst h2
        simp [KV.insert, KV.Get, hlt]
      · simpa [KV.insert, KV.Get, hlt, h2] using ih

theorem KV.Get_Put_ne {α : Type} (m : KV α) {k k' : String} (v : α) (h : k' ≠ k) :
    (m.Put k v).Get k' = m.Get k' := by
  unfold KV.Put
  by_cases hh : m.Has k = true
  · simpa [hh] using KV.Get_replace_ne m v h
  · have hh' : m.Has k = false := by simpa using hh
    simpa [hh'] using KV.Get_insert_ne m v h

theorem KV.mem_of_Get {α : Type} (m : KV α) (k : String) (v : α) (h : m.Get k = some v) :
    (k, v) ∈ m := by
  induction m with
  | nil => simp [KV.Get] at h
  | cons p rest ih =>
    obtain ⟨k1, v1⟩ := p
    by_cases h1 : k1 = k
    · simp [KV.Get, h1] at h
      simp [h1, h]
    · have := ih (by simpa [KV.Get, h1] using h)
      exact List.mem_cons_of_mem _ this

theorem saveLoop_spec {P : Type} (elib : EntityLib P) (now : Int) (sessionMap : ConcurrentMap)
    (keys : List String) (bucket : KV String)
    (hVals : ∀ key, key ∈ keys → ∃ s, sessionMap.Get key = some (.val s))
    (hEnc : ∀ key s, sessionMap.Get key = some (.val s) → now < s.Expiry →
      ∃ b, elib.marshalSession s = some b ∧ putCheckValue key b = none) :
    ∃ bucket', saveLoop elib now sessionMap keys bucket = .done (.ok bucket') ∧
      (∀ k s, k ∈ keys → sessionMap.Get k = some (.val s) → now < s.Expiry →
        bucket'.Get k = elib.marshalSession s) ∧
      (∀ k, (k ∉ keys ∨ ∃ s, sessionMap.Get k = some (.val s) ∧ ¬ now < s.Expiry) →
        bucket'.Get k = bucket.Get k) := by
  induction keys generalizing bucket with
  | nil =>
    refine ⟨bucket, rfl, ?_, fun _ _ => rfl⟩
    intro k s hk
    simp at hk
  | cons key keys ih =>
    obtain ⟨s0, hs0⟩ := hVals key (List.mem_cons_self _ _)
    have hVals' : ∀ key', key' ∈ keys → ∃ s, sessionMap.Get key' = some (.val s) :=
      fun key' hk => hVals key' (List.mem_cons_of_mem _ hk)
    by_cases hLive : now < s0.Expiry
    · obtain ⟨b, hb, hchk⟩ := hEnc key s0 hs0 hLive
      obtain ⟨bucket', hrun, hA, hB⟩ := ih (bucket.Put key b) hVals'
      refine ⟨bucket', ?_, ?_, ?_⟩
      · simp [saveLoop, hs0, hLive, hb, hchk, hrun]
      · intro k s hk hs hl
        by_cases hmem : k ∈ keys
        · exact hA k s hmem hs hl
        · have hkk : k = key := by
            rcases List.mem_cons.1 hk with h | h
            · exact h
            · exact absurd h hmem
          subst hkk
          rw [hB k (Or.inl hmem), KV.Get_Put_self]
          have : s = s0 := by
            rw [hs0] at hs
            injection hs with hs
            injection hs with hs
            exact hs.symm
          rw [this, hb]
      · intro k hk
        have hne : k ≠ key := by
          rintro rfl
          rcases hk with h | ⟨s, hs, hn⟩
          · exact h (List.mem_cons_self _ _)
          · rw [hs0] at hs
            injection hs with hs
            injection hs with hs
            exact hn (hs ▸ hLive)
        have hk' : k ∉ keys ∨ ∃ s, sessionMap.Get k = some (.val s) ∧ ¬ now < s.Expiry := by
          rcases hk with h | h
          · exact Or.inl (fun hm => h (List.mem_cons_of_mem _ hm))
          · exact Or.inr h
        rw [hB k hk', KV.Get_Put_ne _ _ hne]
    · obtain ⟨bucket', hrun, hA, hB⟩ := ih bucket hVals'
      refine ⟨bucket', ?_, ?_, ?_⟩
      · simp [saveLoop, hs0, hLive, hrun]
      · intro k s hk hs hl
        by_cases hmem : k ∈ keys
        · exact hA k s hmem hs hl
        · have hkk : k = key := by
            rcases List.mem_cons.1 hk with h | h
            · exact h
            · exact absurd h hmem
          subst hkk
          rw [hs0] at hs
          injection hs with hs
          injection hs with hs
          exact absurd (hs ▸ hl) hLive
      · intro k hk
        by_cases hkk : k = key
        · subst hkk
          exact hB k (Or.inr ⟨s0, hs0, hLive⟩)
        · have hk' : k ∉ keys ∨ ∃ s, sessionMap.Get k = some (.val s) ∧ ¬ now < s.Expiry := by
            rcases hk with h | h
            · exact Or.inl (fun hm => h (List.mem_cons_of_mem _ hm))
            · exact Or.inr h
          exact hB k hk'

/-- The checkpoint on a cache of values: when `SaveSessions` runs at time
`now` on an empty session bucket, with a cache that holds sessions (values), a
write transaction that begins and commits and live sessions that serialize
into storable entries, it returns no error and the bucket then holds exactly
the cached sessions with `now < Expiry`, each under its cache key with the
encoding of its record. -/
theorem SaveSessions_spec {P : Type} (elib : EntityLib P) (w : TxWorld)
    (service : Service)
    (hEmpty : service.Bolt.session = [])
    (hVals : ∀ k e, (k, e) ∈ service.SessionMap → ∃ s, e = .val s)
    (hBegin : w.beginErr = none)
    (hCommit : w.commitErr = none)
    (hEnc : ∀ k s, service.SessionMap.Get k = some (.val s) → w.now.Unix < s.Expiry →
      ∃ b, elib.marshalSession s = some b ∧ putCheckValue k b = none) :
    (SaveSessions elib w service).1 = .done none ∧
    (SaveSessions elib w service).2.SessionMap = service.SessionMap ∧
    (∃ bucket, (SaveSessions elib w service).2.Bolt = { service.Bolt with session := bucket }) ∧
    (∀ k s, service.SessionMap.Get k = some (.val s) → w.now.Unix < s.Expiry →
      (SaveSessions elib w service).2.Bolt.session.Get k = elib.marshalSession s) ∧
    (∀ k s, service.SessionMap.Get k = some (.val s) → s.Expiry ≤ w.now.Unix →
      (SaveSessions elib w service).2.Bolt.session.Get k = none) ∧
    (∀ k, k ∉ service.SessionMap.Keys →
      (SaveSessions elib w service).2.Bolt.session.Get k = none) := by
  have hKeys : ∀ key, key ∈ service.SessionMap.Keys →
      ∃ s, service.SessionMap.Get key = some (.val s) := by
    intro key hk
    cases hg : service.SessionMap.Get key with
    | none => exact absurd hk ((KV.Get_eq_none_iff _ _).1 hg)
    | some e =>
      obtain ⟨s, hs⟩ := hVals key e (KV.mem_of_Get _ _ _ hg)
      exact ⟨s, by rw [hs]⟩
  obtain ⟨bucket', hrun, hA, hB⟩ := saveLoop_spec elib w.now.Unix service.SessionMap
    service.SessionMap.Keys service.Bolt.session hKeys hEnc
  have hV : SaveSessions elib w service =
      (.done none, { service with Bolt := { service.Bolt with session := bucket' } }) := by
    simp [SaveSessions, hBegin, hCommit, hrun]
  rw [hV]
  refine ⟨rfl, rfl, ⟨bucket', rfl⟩, ?_, ?_, ?_⟩
  · intro k s hs hl
    have hk : k ∈ service.SessionMap.Keys := by
      by_contra hn
      rw [(KV.Get_eq_none_iff _ _).2 hn] at hs
      cases hs
    exact hA k s hk hs hl
  · intro k s hs hl
    have : bucket'.Get k = service.Bolt.session.Get k :=
      hB k (Or.inr ⟨s, hs, by omega⟩)
    simp [this, hEmpty, KV.Get]
  · intro k hk
    have : bucket'.Get k = service.Bolt.session.Get k := hB k (Or.inl hk)
    simp [this, hEmpty, KV.Get]

/-- C15 fails as stated: at second 2000 the cache holds the live session
`tok` (expiry 8200) and the session bucket is empty, but the commit of the write
transaction fails: `SaveSessions` returns the error of the commit and the bucket
stays empty. -/
theorem saveSessions_commit_fails_counterexample :
    exService.SessionMap.Get "tok" = some (.val exSession) ∧
    exTxWorldFault.now.Unix < exSession.Expiry ∧
    exService.Bolt.session = [] ∧
    (SaveSessions demoEntityLib exTxWorldFault exService).1
      = .done (some (.ErrTx "disk full")) ∧
    (SaveSessions demoEntityLib exTxWorldFault exService).2.Bolt.session = [] := by
  refine ⟨by rfl, by decide, by rfl, by rfl, by rfl⟩

/-- C15, amended: when `SaveSessions` runs at time `now` on an empty session
bucket, with a cache whose entries are all `Session` values, a write
transaction that begins and commits and live sessions that serialize into
entries bolt accepts, it returns no error and the bucket then holds exactly the
cached sessions with `now < Expiry`, each under its cache key with the encoding
of its record; cached sessions with `Expiry ≤ now` are not written, no other
key is written, and the cache and the other buckets are unchanged. -/
theorem saveSessions_checkpoint {P : Type} (elib : EntityLib P) (w : TxWorld)
    (service : Service)
    (hEmpty : service.Bolt.session = [])
    (hVals : ∀ k e, (k, e) ∈ service.SessionMap → ∃ s, e = .val s)
    (hBegin : w.beginErr = none)
    (hCommit : w.commitErr = none)
    (hEnc : ∀ k s, service.SessionMap.Get k = some (.val s) → w.now.Unix < s.Expiry →
      ∃ b, elib.marshalSession s = some b ∧ putCheckValue k b = none) :
    (SaveSessions elib w service).1 = .done none ∧
    (SaveSessions elib w service).2.SessionMap = service.SessionMap ∧
    (∃ bucket, (SaveSessions elib w service).2.Bolt = { service.Bolt with session := bucket }) ∧
    (∀ k s, service.SessionMap.Get k = some (.val s) → w.now.Unix < s.Expiry →
      (SaveSessions elib w service).2.Bolt.session.Get k = elib.marshalSession s) ∧
    (∀ k s, service.SessionMap.Get k = some (.val s) → s.Expiry ≤ w.now.Unix →
      (SaveSessions elib w service).2.Bolt.session.Get k = none) ∧
    (∀ k, k ∉ service.SessionMap.Keys →
      (SaveSessions elib w service).2.Bolt.session.Get k = none) :=
  SaveSessions_spec elib w service hEmpty hVals hBegin hCommit hEnc

/-- C15 amended, at a concrete input: at second 2000 the sessions `tok` and `adm`
(expiry 8200) are written, the sessions `old` (expiry 1500) and `edge` (expiry
2000) are not. -/
theorem saveSessions_checkpoint_witness :
    (SaveSessions demoEntityLib exTxWorld exService).1 = .done none ∧
    (SaveSessions demoEntityLib exTxWorld exService).2.SessionMap = exService.SessionMap ∧
    (SaveSessions demoEntityLib exTxWorld exService).2.Bolt.session.Get "tok"
      = some "U1|tok|finance|1000|8200" ∧
    (SaveSessions demoEntityLib exTxWorld exService).2.Bolt.session.Get "edge" = none :=
  have h := saveSessions_checkpoint demoEntityLib exTxWorld exService (by rfl)
    (fun k e hm => by
      simp only [exService, List.mem_cons, Prod.mk.injEq, List.mem_nil_iff, or_false] at hm
      rcases hm with ⟨_, rfl⟩ | ⟨_, rfl⟩ | ⟨_, rfl⟩ | ⟨_, rfl⟩ <;> exact ⟨_, rfl⟩)
    (by rfl) (by rfl)
    (fun k s hg _ => by
      have hm := KV.mem_of_Get _ _ _ hg
      simp only [exService, List.mem_cons, Prod.mk.injEq, List.mem_nil_iff, or_false,
        Entry.val.injEq] at hm
      rcases hm with ⟨rfl, rfl⟩ | ⟨rfl, rfl⟩ | ⟨rfl, rfl⟩ | ⟨rfl, rfl⟩ <;>
        exact ⟨_, rfl, by rfl⟩)
  ⟨h.1, h.2.1, h.2.2.2.1 "tok" exSession (by rfl) (by decide),
    h.2.2.2.2.1 "edge" exEdge (by rfl) (by decide)⟩

/-! ## The expiry check at the boundary (C4) -/

/-- C4, the failing input: the session `edge`, whose expiry is second 2000, is
presented at second 2000.  `ValidateRequest` does not reject it: the call
grants access and the token stays in the cache, with the expiry extended to
2060.  `SaveSessions`, run at the same second on the same cache, treats the
same session as expired: it writes `tok` and does not write `edge`. -/
theorem validateRequest_grants_at_expiry :
    exService.SessionMap.Get "edge" = some (.val exEdge) ∧
    exEdge.Expiry = exWorld.now.Unix ∧
    exEdge.Expiry ≤ exWorld.now.Unix ∧
    (ValidateRequest demoLib exWorld exService ["finance"]
      (exRequest ["Token edge"] none)).1 = .ret true none ∧
    (ValidateRequest demoLib exWorld exService ["finance"]
      (exRequest ["Token edge"] none)).2.SessionMap.Get "edge" =
        some (.val { User := "U3", Token := "edge", Access := "finance",
                     CreatedOn := 0, Expiry := 2060 }) ∧
    exTxWorld.now.Unix = exWorld.now.Unix ∧
    (SaveSessions demoEntityLib exTxWorld exService).1 = .done none ∧
    (SaveSessions demoEntityLib exTxWorld exService).2.Bolt.session.Get "tok"
      = some (encSession exSession) ∧
    (SaveSessions demoEntityLib exTxWorld exService).2.Bolt.session.Get "edge" = none := by
  have h := SaveSessions_spec demoEntityLib exTxWorld exService (by rfl)
    (fun k e hm => by
      simp only [exService, List.mem_cons, Prod.mk.injEq, List.mem_nil_iff, or_false] at hm
      rcases hm with ⟨_, rfl⟩ | ⟨_, rfl⟩ | ⟨_, rfl⟩ | ⟨_, rfl⟩ <;> exact ⟨_, rfl⟩)
    (by rfl) (by rfl)
    (fun k s hg _ => by
      have hm := KV.mem_of_Get _ _ _ hg
      simp only [exService, List.mem_cons, Prod.mk.injEq, List.mem_nil_iff, or_false,
        Entry.val.injEq] at hm
      rcases hm with ⟨rfl, rfl⟩ | ⟨rfl, rfl⟩ | ⟨rfl, rfl⟩ | ⟨rfl, rfl⟩ <;>
        exact ⟨_, rfl, by rfl⟩)
  exact ⟨by rfl, by decide, by decide, by rfl, by rfl, by decide, h.1,
    h.2.2.2.1 "tok" exSession (by rfl) (by decide),
    h.2.2.2.2.1 "edge" exEdge (by rfl) (by decide)⟩

/-! ## The expiry sweeps (C16, C17, C18) -/

theorem KV.Get_of_mem_nodup {α : Type} (m : KV α) (k : String) (v : α)
    (hN : m.Keys.Nodup) (h : (k, v) ∈ m) : m.Get k = some v := by
  induction m with
  | nil => simp at h
  | cons p rest ih =>
    obtain ⟨k1, v1⟩ := p
    simp only [KV.Keys, List.map_cons, List.nodup_cons] at hN
    rcases List.mem_cons.1 h with h | h
    · injection h with h1 h2
      subst h1; subst h2
      simp [KV.Get]
    · have hk : k ∈ rest.map Prod.fst := List.mem_map.2 ⟨(k, v), h, rfl⟩
      have hne : ¬ k1 = k := fun e => hN.1 (e ▸ hk)
      simpa [KV.Get, hne] using ih hN.2 h

theorem KV.Get_filter_keep {α : Type} (m : KV α) (f : String × α → Bool) (k : String) (v : α)
    (hN : m.Keys.Nodup) (h : (k, v) ∈ m) (hf : f (k, v) = true) :
    KV.Get (m.filter f) k = some v := by
  apply KV.Get_of_mem_nodup
  · exact List.Nodup.sublist (List.Sublist.map _ (List.filter_sublist m)) hN
  · exact List.mem_filter.2 ⟨h, hf⟩

theorem KV.Get_filter_drop {α : Type} (m : KV α) (f : String × α → Bool) (k : String) (v : α)
    (hN : m.Keys.Nodup) (h : (k, v) ∈ m) (hf : f (k, v) = false) :
    KV.Get (m.filter f) k = none := by
  rw [KV.Get_eq_none_iff]
  intro hk
  obtain ⟨⟨k', v'⟩, hm, hk'⟩ := List.mem_map.1 hk
  simp only at hk'
  subst hk'
  obtain ⟨hm1, hm2⟩ := List.mem_filter.1 hm
  have := KV.Get_of_mem_nodup m k' v' hN hm1
  rw [KV.Get_of_mem_nodup m k' v hN h] at this
  injection this with this
  subst this
  rw [hf] at hm2
  cases hm2

theorem KV.Get_filter_absent {α : Type} (m : KV α) (f : String × α → Bool) (k : String)
    (h : k ∉ m.Keys) : KV.Get (m.filter f) k = none := by
  rw [KV.Get_eq_none_iff]
  intro hk
  obtain ⟨p, hm, hk'⟩ := List.mem_map.1 hk
  exact h (List.mem_map.2 ⟨p, (List.mem_filter.1 hm).1, hk'⟩)

theorem deleteAll_eq_filter (bucket : KV String) (uuids : List String) :
    deleteAll bucket uuids = bucket.filter (fun p => decide (p.1 ∉ uuids)) := by
  induction uuids generalizing bucket with
  | nil => simp [deleteAll]
  | cons u rest ih =>
    rw [deleteAll, ih, KV.Remove, List.filter_filter]
    apply List.filter_congr
    intro p _
    by_cases h1 : p.1 = u <;> by_cases h2 : p.1 ∈ rest <;> simp [h1, h2]

theorem sweep_filter_eq {α : Type} (bucket : KV String) (dec : String → Option α)
    (stale : α → Bool) (uuid : α → String)
    (hKeys : bucket.Keys.Nodup)
    (hEnc : ∀ k v, (k, v) ∈ bucket → ∃ r, dec v = some r ∧ uuid r = k) :
    bucket.filter (fun p => decide
        (p.1 ∉ ((bucket.filterMap (fun q => dec q.2)).filter stale).map uuid))
      = bucket.filter (fun p => (dec p.2).all (fun r => !stale r)) := by
  apply List.filter_congr
  rintro ⟨k, v⟩ hp
  obtain ⟨r, hr, hu⟩ := hEnc k v hp
  simp only [hr]
  by_cases hs : stale r = true
  · have hmem : k ∈ ((bucket.filterMap (fun q => dec q.2)).filter stale).map uuid := by
      refine List.mem_map.2 ⟨r, List.mem_filter.2 ⟨?_, hs⟩, hu⟩
      exact List.mem_filterMap.2 ⟨(k, v), hp, hr⟩
    simp [hmem, hs]
  · have hnot : k ∉ ((bucket.filterMap (fun q => dec q.2)).filter stale).map uuid := by
      intro hmem
      obtain ⟨r', hr', hu'⟩ := List.mem_map.1 hmem
      obtain ⟨hr1, hr2⟩ := List.mem_filter.1 hr'
      obtain ⟨⟨k', v'⟩, hq, hd⟩ := List.mem_filterMap.1 hr1
      obtain ⟨r'', hr'', hu''⟩ := hEnc k' v' hq
      simp only at hd
      rw [hr''] at hd
      injection hd with hd
      subst hd
      have hk : k' = k := by rw [← hu'', hu']
      subst hk
      have h1 := KV.Get_of_mem_nodup bucket k' v' hKeys hq
      rw [KV.Get_of_mem_nodup bucket k' v hKeys hp] at h1
      injection h1 with h1
      subst h1
      rw [hr] at hr''
      injection hr'' with hr''
      subst hr''
      exact hs hr2
    have hs' : stale r = false := by simpa using hs
    simp [hnot, hs']

theorem scanInvites_complete {P : Type} (elib : EntityLib P) (now : Int) (l : KV String)
    (cur : Invite) (acc : List Invite)
    (h : ∀ p, p ∈ l → ∃ r, ∀ prev, elib.unmarshalInvite p.2 prev = some r) :
    scanInvites elib now l cur acc =
      (acc ++ (l.filterMap (fun p => elib.unmarshalInvite p.2 zeroInvite)).filter
        (staleInvite now), none) := by
  induction l generalizing cur acc with
  | nil => simp [scanInvites]
  | cons p rest ih =>
    obtain ⟨k, v⟩ := p
    obtain ⟨r, hr⟩ := h (k, v) (List.mem_cons_self _ _)
    have h' : ∀ p, p ∈ rest → ∃ r, ∀ prev, elib.unmarshalInvite p.2 prev = some r :=
      fun p hp => h p (List.mem_cons_of_mem _ hp)
    by_cases hs : staleInvite now r = true
    · simp [scanInvites, hr, hs, ih _ _ h', List.filterMap_cons, List.filter_cons]
    · simp [scanInvites, hr, hs, ih _ _ h', List.filterMap_cons, List.filter_cons]

theorem scanResets_complete {P : Type} (elib : EntityLib P) (now : Int) (l : KV String)
    (cur : PassReset) (acc : List PassReset)
    (h : ∀ p, p ∈ l → ∃ r, ∀ prev, elib.unmarshalReset p.2 prev = some r) :
    scanResets elib now l cur acc =
      (acc ++ (l.filterMap (fun p => elib.unmarshalReset p.2 zeroReset)).filter
        (staleReset now), none) := by
  induction l generalizing cur acc with
  | nil => simp [scanResets]
  | cons p rest ih =>
    obtain ⟨k, v⟩ := p
    obtain ⟨r, hr⟩ := h (k, v) (List.mem_cons_self _ _)
    have h' : ∀ p, p ∈ rest → ∃ r, ∀ prev, elib.unmarshalReset p.2 prev = some r :=
      fun p hp => h p (List.mem_cons_of_mem _ hp)
    by_cases hs : staleReset now r = true
    · simp [scanResets, hr, hs, ih _ _ h', List.filterMap_cons, List.filter_cons]
    · simp [scanResets, hr, hs, ih _ _ h', List.filterMap_cons, List.filter_cons]

/-- The sweep of the invitations when no transaction fails and every value
is a complete encoding: the keys deleted are the identifiers of the stale
records. -/
theorem ExpiredInvites_eq {P : Type} (elib : EntityLib P) (w : TxWorld) (app : Service)
    (hView : w.viewErr = none) (hBegin : w.beginErr = none) (hCommit : w.commitErr = none)
    (hDec : ∀ p, p ∈ app.Bolt.invite → ∃ r, ∀ prev, elib.unmarshalInvite p.2 prev = some r) :
    ExpiredInvites elib w app =
      { app with Bolt := { app.Bolt with
          invite := app.Bolt.invite.filter (fun p => decide (p.1 ∉
            ((app.Bolt.invite.filterMap (fun q => elib.unmarshalInvite q.2 zeroInvite)).filter
              (staleInvite w.now.Unix)).map (fun invite => invite.Uuid))) } } := by
  unfold ExpiredInvites
  simp only [DB.View, hView, scanInvites_complete elib _ _ _ _ hDec, List.nil_append]
  split
  · simp [DB.Update, hBegin, hCommit, deleteAll_eq_filter]
  · rename_i hlen
    have hnil : (app.Bolt.invite.filterMap (fun q => elib.unmarshalInvite q.2 zeroInvite)).filter
        (staleInvite w.now.Unix) = [] := by
      apply List.eq_nil_of_length_eq_zero
      omega
    rw [hnil]
    simp

/-- The sweep of the password resets when no transaction fails and every
value is a complete encoding. -/
theorem ExpiredPassReset_eq {P : Type} (elib : EntityLib P) (w : TxWorld) (app : Service)
    (hView : w.viewErr = none) (hBegin : w.beginErr = none) (hCommit : w.commitErr = none)
    (hDec : ∀ p, p ∈ app.Bolt.passreset → ∃ r, ∀ prev, elib.unmarshalReset p.2 prev = some r) :
    ExpiredPassReset elib w app =
      { app with Bolt := { app.Bolt with
          passreset := app.Bolt.passreset.filter (fun p => decide (p.1 ∉
            ((app.Bolt.passreset.filterMap (fun q => elib.unmarshalReset q.2 zeroReset)).filter
              (staleReset w.now.Unix)).map (fun reset => reset.Uuid))) } } := by
  unfold ExpiredPassReset
  simp only [DB.View, hView, scanResets_complete elib _ _ _ _ hDec, List.nil_append]
  split
  · simp [DB.Update, hBegin, hCommit, deleteAll_eq_filter]
  · rename_i hlen
    have hnil : (app.Bolt.passreset.filterMap
        (fun q => elib.unmarshalReset q.2 zeroReset)).filter (staleReset w.now.Unix) = [] := by
      apply List.eq_nil_of_length_eq_zero
      omega
    rw [hnil]
    simp

theorem staleInvite_iff (now : Int) (r : Invite) :
    staleInvite now r = true ↔
      ((now > r.Expiry ∧ r.Status ≠ "pending") ∨ r.Status = "cancelled") := by
  simp [staleInvite, Pending, Cancelled]

theorem staleReset_iff (now : Int) (r : PassReset) :
    staleReset now r = true ↔ (now > r.Expiry ∧ r.Used = false) := by
  simp [staleReset]

/-- C16 fails as stated: the four invitations are stored under their own
uuid; `a` is cancelled, so it satisfies the staleness predicate.  The commit of
the write transaction of the sweep fails, and after `ExpiredInvites` the bucket
is as it was: `a` is still there. -/
theorem expiredInvites_failed_write_counterexample :
    (exStore exInvites exResets).Bolt.invite.Get "a"
      = some (encInvite (exInvite "a" "cancelled" 9000)) ∧
    staleInvite exTxWorldFault.now.Unix (exInvite "a" "cancelled" 9000) = true ∧
    ExpiredInvites demoEntityLib exTxWorldFault (exStore exInvites exResets)
      = exStore exInvites exResets ∧
    (ExpiredInvites demoEntityLib exTxWorldFault (exStore exInvites exResets)).Bolt.invite.Get "a"
      = some (encInvite (exInvite "a" "cancelled" 9000)) := by
  refine ⟨by rfl, by rfl, by rfl, by rfl⟩

/-- C16, amended: for every clock reading and every content of the
invitation bucket in which each value is the complete encoding of a record
stored under the key equal to its own uuid, when no transaction of the sweep
fails: after `ExpiredInvites` the bucket holds exactly the entries whose record does not satisfy
`(now > expiry AND status != "pending") OR status == "cancelled"`, each with
its value unchanged and in the same order, and nothing else of the state has
changed.  In particular a `pending` invitation is kept whatever its expiry and
a `cancelled` one is removed whatever its expiry. -/
theorem expiredInvites_sweep {P : Type} (elib : EntityLib P) (w : TxWorld) (app : Service)
    (hView : w.viewErr = none) (hBegin : w.beginErr = none) (hCommit : w.commitErr = none)
    (hKeys : app.Bolt.invite.Keys.Nodup)
    (hEnc : ∀ k v, (k, v) ∈ app.Bolt.invite →
      ∃ r, (∀ prev, elib.unmarshalInvite v prev = some r) ∧ r.Uuid = k) :
    ExpiredInvites elib w app =
      { app with Bolt := { app.Bolt with
          invite := app.Bolt.invite.filter (fun p =>
            (elib.unmarshalInvite p.2 zeroInvite).all
              (fun r => !staleInvite w.now.Unix r)) } } ∧
    (∀ r, staleInvite w.now.Unix r = true ↔
      ((w.now.Unix > r.Expiry ∧ r.Status ≠ "pending") ∨ r.Status = "cancelled")) ∧
    (∀ k v r, (k, v) ∈ app.Bolt.invite → elib.unmarshalInvite v zeroInvite = some r →
      (((w.now.Unix > r.Expiry ∧ r.Status ≠ "pending") ∨ r.Status = "cancelled") →
        (ExpiredInvites elib w app).Bolt.invite.Get k = none) ∧
      (¬ ((w.now.Unix > r.Expiry ∧ r.Status ≠ "pending") ∨ r.Status = "cancelled") →
        (ExpiredInvites elib w app).Bolt.invite.Get k = some v) ∧
      (r.Status = "pending" → (ExpiredInvites elib w app).Bolt.invite.Get k = some v) ∧
      (r.Status = "cancelled" → (ExpiredInvites elib w app).Bolt.invite.Get k = none)) ∧
    (∀ k, k ∉ app.Bolt.invite.Keys → (ExpiredInvites elib w app).Bolt.invite.Get k = none) := by
  have hDec : ∀ p, p ∈ app.Bolt.invite →
      ∃ r, ∀ prev, elib.unmarshalInvite p.2 prev = some r := by
    rintro ⟨k, v⟩ hp
    obtain ⟨r, hr, _⟩ := hEnc k v hp
    exact ⟨r, hr⟩
  have hEnc' : ∀ k v, (k, v) ∈ app.Bolt.invite →
      ∃ r, (fun v => elib.unmarshalInvite v zeroInvite) v = some r ∧
        (fun invite : Invite => invite.Uuid) r = k := by
    intro k v hp
    obtain ⟨r, hr, hu⟩ := hEnc k v hp
    exact ⟨r, hr zeroInvite, hu⟩
  have hE : ExpiredInvites elib w app =
      { app with Bolt := { app.Bolt with
          invite := app.Bolt.invite.filter (fun p =>
            (elib.unmarshalInvite p.2 zeroInvite).all
              (fun r => !staleInvite w.now.Unix r)) } } := by
    rw [ExpiredInvites_eq elib w app hView hBegin hCommit hDec]
    have := sweep_filter_eq app.Bolt.invite (fun v => elib.unmarshalInvite v zeroInvite)
      (staleInvite w.now.Unix) (fun invite => invite.Uuid) hKeys hEnc'
    simp only at this
    rw [this]
  have hDrop : ∀ k v r, (k, v) ∈ app.Bolt.invite →
      elib.unmarshalInvite v zeroInvite = some r → staleInvite w.now.Unix r = true →
      (ExpiredInvites elib w app).Bolt.invite.Get k = none := by
    intro k v r hp hr hs
    rw [hE]
    exact KV.Get_filter_drop _ _ k v hKeys hp (by simp [hr, hs])
  have hKeep : ∀ k v r, (k, v) ∈ app.Bolt.invite →
      elib.unmarshalInvite v zeroInvite = some r → ¬ staleInvite w.now.Unix r = true →
      (ExpiredInvites elib w app).Bolt.invite.Get k = some v := by
    intro k v r hp hr hs
    rw [hE]
    exact KV.Get_filter_keep _ _ k v hKeys hp (by simp [hr, hs])
  refine ⟨hE, fun r => staleInvite_iff _ r, fun k v r hp hr => ⟨?_, ?_, ?_, ?_⟩, fun k hk => ?_⟩
  · exact fun h => hDrop k v r hp hr ((staleInvite_iff _ r).2 h)
  · exact fun h => hKeep k v r hp hr (fun hs => h ((staleInvite_iff _ r).1 hs))
  · intro hs
    refine hKeep k v r hp hr (fun h => ?_)
    rcases (staleInvite_iff _ r).1 h with ⟨_, h2⟩ | h2
    · exact h2 hs
    · rw [hs] at h2
      exact absurd h2 (by decide)
  · exact fun hs => hDrop k v r hp hr ((staleInvite_iff _ r).2 (Or.inr hs))
  · rw [hE]
    exact KV.Get_filter_absent _ _ k hk

/-- C16 amended, at a concrete input: at second 2000, of the four invitations `a`
(cancelled, expiry 9000), `b` (pending, expiry 1500), `c` (accepted, expiry
1500) and `d` (accepted, expiry 9000), the sweep keeps `b` and `d`. -/
theorem expiredInvites_sweep_witness :
    (ExpiredInvites demoEntityLib exTxWorld (exStore exInvites exResets)).Bolt.invite.Get "b"
      = some (encInvite (exInvite "b" "pending" 1500)) ∧
    (ExpiredInvites demoEntityLib exTxWorld (exStore exInvites exResets)).Bolt.invite.Get "a"
      = none :=
  have h := expiredInvites_sweep demoEntityLib exTxWorld (exStore exInvites exResets)
    (by rfl) (by rfl) (by rfl) (by decide)
    (fun k v hm => by
      simp only [exStore, exInvites, List.mem_cons, Prod.mk.injEq, List.mem_nil_iff,
        or_false] at hm
      rcases hm with ⟨rfl, rfl⟩ | ⟨rfl, rfl⟩ | ⟨rfl, rfl⟩ | ⟨rfl, rfl⟩
      · exact ⟨exInvite "a" "cancelled" 9000, fun _ => by rfl, by rfl⟩
      · exact ⟨exInvite "b" "pending" 1500, fun _ => by rfl, by rfl⟩
      · exact ⟨exInvite "c" "accepted" 1500, fun _ => by rfl, by rfl⟩
      · exact ⟨exInvite "d" "accepted" 9000, fun _ => by rfl, by rfl⟩)
  ⟨(h.2.2.1 "b" (encInvite (exInvite "b" "pending" 1500)) (exInvite "b" "pending" 1500)
      (by decide) (by rfl)).2.2.1 (by rfl),
   (h.2.2.1 "a" (encInvite (exInvite "a" "cancelled" 9000)) (exInvite "a" "cancelled" 9000)
      (by decide) (by rfl)).2.2.2 (by rfl)⟩

/-- C17 fails as stated: both values of the password-reset bucket decode;
the record under the key `a` is expired and unused but carries the uuid `b`,
the record under the key `b` is used.  At second 2000 `ExpiredPassReset`
deletes the key `b` and keeps the key `a`. -/
theorem expiredPassReset_deletes_by_uuid_counterexample :
    decReset (encReset (exReset "b" 1500 false)) = some (exReset "b" 1500 false) ∧
    decReset (encReset (exReset "b" 1500 true)) = some (exReset "b" 1500 true) ∧
    exTxWorld.now.Unix = 2000 ∧
    (ExpiredPassReset demoEntityLib exTxWorld
      (exStore [] [("a", encReset (exReset "b" 1500 false)),
                   ("b", encReset (exReset "b" 1500 true))])).Bolt.passreset
      = [("a", encReset (exReset "b" 1500 false))] := by
  refine ⟨by rfl, by rfl, by decide, by rfl⟩

/-- C17, amended: for every clock reading and every content of the
password-reset bucket in which each value is the complete encoding of a record
stored under the key equal to its own uuid, when no transaction fails:
`ExpiredPassReset` deletes exactly the keys whose record satisfies
`now > expiry AND NOT used` and leaves every other key and value of the bucket,
and the rest of the state, unchanged. -/
theorem expiredPassReset_sweep {P : Type} (elib : EntityLib P) (w : TxWorld) (app : Service)
    (hView : w.viewErr = none) (hBegin : w.beginErr = none) (hCommit : w.commitErr = none)
    (hKeys : app.Bolt.passreset.Keys.Nodup)
    (hEnc : ∀ k v, (k, v) ∈ app.Bolt.passreset →
      ∃ r, (∀ prev, elib.unmarshalReset v prev = some r) ∧ r.Uuid = k) :
    ExpiredPassReset elib w app =
      { app with Bolt := { app.Bolt with
          passreset := app.Bolt.passreset.filter (fun p =>
            (elib.unmarshalReset p.2 zeroReset).all
              (fun r => !staleReset w.now.Unix r)) } } ∧
    (∀ k v r, (k, v) ∈ app.Bolt.passreset → elib.unmarshalReset v zeroReset = some r →
      ((w.now.Unix > r.Expiry ∧ r.Used = false) →
        (ExpiredPassReset elib w app).Bolt.passreset.Get k = none) ∧
      (¬ (w.now.Unix > r.Expiry ∧ r.Used = false) →
        (ExpiredPassReset elib w app).Bolt.passreset.Get k = some v)) ∧
    (∀ k, k ∉ app.Bolt.passreset.Keys →
      (ExpiredPassReset elib w app).Bolt.passreset.Get k = none) := by
  have hDec : ∀ p, p ∈ app.Bolt.passreset →
      ∃ r, ∀ prev, elib.unmarshalReset p.2 prev = some r := by
    rintro ⟨k, v⟩ hp
    obtain ⟨r, hr, _⟩ := hEnc k v hp
    exact ⟨r, hr⟩
  have hEnc' : ∀ k v, (k, v) ∈ app.Bolt.passreset →
      ∃ r, (fun v => elib.unmarshalReset v zeroReset) v = some r ∧
        (fun reset : PassReset => reset.Uuid) r = k := by
    intro k v hp
    obtain ⟨r, hr, hu⟩ := hEnc k v hp
    exact ⟨r, hr zeroReset, hu⟩
  have hE : ExpiredPassReset elib w app =
      { app with Bolt := { app.Bolt with
          passreset := app.Bolt.passreset.filter (fun p =>
            (elib.unmarshalReset p.2 zeroReset).all
              (fun r => !staleReset w.now.Unix r)) } } := by
    rw [ExpiredPassReset_eq elib w app hView hBegin hCommit hDec]
    have := sweep_filter_eq app.Bolt.passreset (fun v => elib.unmarshalReset v zeroReset)
      (staleReset w.now.Unix) (fun reset => reset.Uuid) hKeys hEnc'
    simp only at this
    rw [this]
  refine ⟨hE, fun k v r hp hr => ⟨fun h => ?_, fun h => ?_⟩, fun k hk => ?_⟩
  · rw [hE]
    exact KV.Get_filter_drop _ _ k v hKeys hp (by simp [hr, (staleReset_iff _ r).2 h])
  · have hs : staleReset w.now.Unix r = false := by
      cases hb : staleReset w.now.Unix r with
      | false => rfl
      | true => exact absurd ((staleReset_iff _ r).1 hb) h
    rw [hE]
    exact KV.Get_filter_keep _ _ k v hKeys hp (by simp [hr, hs])
  · rw [hE]
    exact KV.Get_filter_absent _ _ k hk

/-- C17 amended, at a concrete input: at second 2000, of the three password
resets `p` (expiry 1500, unused), `q` (expiry 1500, used) and `r` (expiry 9000,
unused), the sweep deletes `p` alone. -/
theorem expiredPassReset_sweep_witness :
    (ExpiredPassReset demoEntityLib exTxWorld (exStore exInvites exResets)).Bolt.passreset
      = [("q", encReset (exReset "q" 1500 true)), ("r", encReset (exReset "r" 9000 false))] :=
  (expiredPassReset_sweep demoEntityLib exTxWorld (exStore exInvites exResets)
    (by rfl) (by rfl) (by rfl) (by decide)
    (fun k v hm => by
      simp only [exStore, exResets, List.mem_cons, Prod.mk.injEq, List.mem_nil_iff,
        or_false] at hm
      rcases hm with ⟨rfl, rfl⟩ | ⟨rfl, rfl⟩ | ⟨rfl, rfl⟩
      · exact ⟨exReset "p" 1500 false, fun _ => by rfl, by rfl⟩
      · exact ⟨exReset "q" 1500 true, fun _ => by rfl, by rfl⟩
      · exact ⟨exReset "r" 9000 false, fun _ => by rfl, by rfl⟩)).1 ▸ (by rfl)

/-- A sweep of the invitations on a bucket of complete encodings none of
whose keys is the identifier of a stale record changes nothing, whatever the
transactions do. -/
theorem ExpiredInvites_noop {P : Type} (elib : EntityLib P) (w : TxWorld) (app : Service)
    (hDec : ∀ p, p ∈ app.Bolt.invite → ∃ r, ∀ prev, elib.unmarshalInvite p.2 prev = some r)
    (hNone : ∀ p, p ∈ app.Bolt.invite → p.1 ∉
      ((app.Bolt.invite.filterMap (fun q => elib.unmarshalInvite q.2 zeroInvite)).filter
        (staleInvite w.now.Unix)).map (fun invite => invite.Uuid)) :
    ExpiredInvites elib w app = app := by
  unfold ExpiredInvites
  cases hv : w.viewErr with
  | some msg => simp [DB.View]
  | none =>
    simp only [DB.View, scanInvites_complete elib _ _ _ _ hDec, List.nil_append]
    split
    · have hF : deleteAll app.Bolt.invite
          (((app.Bolt.invite.filterMap (fun q => elib.unmarshalInvite q.2 zeroInvite)).filter
            (staleInvite w.now.Unix)).map (fun invite => invite.Uuid)) = app.Bolt.invite := by
        rw [deleteAll_eq_filter]
        apply List.filter_eq_self.2
        intro p hp
        simpa using hNone p hp
      cases hb : w.beginErr with
      | some msg => simp [DB.Update]
      | none =>
        cases hc : w.commitErr with
        | some msg => simp [DB.Update]
        | none => simp [DB.Update, hF]
    · rfl

/-- The second sweep changes nothing on a bucket whose values are all
complete encodings, whatever their keys. -/
theorem ExpiredInvites_idem_decodable {P : Type} (elib : EntityLib P) (w w2 : TxWorld)
    (app : Service)
    (hView : w.viewErr = none) (hBegin : w.beginErr = none) (hCommit : w.commitErr = none)
    (hClock : w2.now.Unix = w.now.Unix)
    (hDec : ∀ k v, (k, v) ∈ app.Bolt.invite →
      ∃ r, ∀ prev, elib.unmarshalInvite v prev = some r) :
    ExpiredInvites elib w2 (ExpiredInvites elib w app) = ExpiredInvites elib w app := by
  have hDec' : ∀ p, p ∈ app.Bolt.invite →
      ∃ r, ∀ prev, elib.unmarshalInvite p.2 prev = some r := by
    rintro ⟨k, v⟩ hp
    exact hDec k v hp
  have hE := ExpiredInvites_eq elib w app hView hBegin hCommit hDec'
  have hB : (ExpiredInvites elib w app).Bolt.invite =
      app.Bolt.invite.filter (fun p => decide (p.1 ∉
        ((app.Bolt.invite.filterMap (fun q => elib.unmarshalInvite q.2 zeroInvite)).filter
          (staleInvite w.now.Unix)).map (fun invite => invite.Uuid))) := by
    rw [hE]
  apply ExpiredInvites_noop
  · intro p hp
    rw [hB] at hp
    exact hDec' p (List.mem_filter.1 hp).1
  · intro p hp hmem
    rw [hB] at hp hmem
    obtain ⟨hp1, hp2⟩ := List.mem_filter.1 hp
    have hp3 : p.1 ∉ ((app.Bolt.invite.filterMap
        (fun q => elib.unmarshalInvite q.2 zeroInvite)).filter
          (staleInvite w.now.Unix)).map (fun invite => invite.Uuid) := by
      simpa using hp2
    apply hp3
    obtain ⟨r, hr, hu⟩ := List.mem_map.1 hmem
    obtain ⟨hr1, hr2⟩ := List.mem_filter.1 hr
    obtain ⟨q, hq, hd⟩ := List.mem_filterMap.1 hr1
    refine List.mem_map.2 ⟨r, List.mem_filter.2 ⟨?_, ?_⟩, hu⟩
    · exact List.mem_filterMap.2 ⟨q, (List.mem_filter.1 hq).1, hd⟩
    · rw [← hClock]
      exact hr2

/-- The cursor loop of `ExpiredInvites` only appends to the list it is given. -/
theorem scanInvites_acc {P : Type} (elib : EntityLib P) (now : Int) (l : KV String)
    (cur : Invite) (acc : List Invite) :
    scanInvites elib now l cur acc =
      (acc ++ (scanInvites elib now l cur []).1, (scanInvites elib now l cur []).2) := by
  induction l generalizing cur acc with
  | nil => simp [scanInvites]
  | cons p rest ih =>
    obtain ⟨k, v⟩ := p
    cases hd : elib.unmarshalInvite v cur with
    | none => simp [scanInvites, hd]
    | some r =>
      by_cases hs : staleInvite now r = true
      · simp only [scanInvites, hd, hs, if_true, List.nil_append]
        rw [ih r (acc ++ [r]), ih r [r]]
        simp
      · simp only [scanInvites, hd, hs, if_false, Bool.false_eq_true]
        rw [ih r acc]

/-- Every record the cursor loop collects is the decoding of a value of the
bucket. -/
theorem scanInvites_mem {P : Type} (elib : EntityLib P) (now : Int) (l : KV String)
    (cur : Invite) (r : Invite) (h : r ∈ (scanInvites elib now l cur []).1) :
    ∃ k v prev, (k, v) ∈ l ∧ elib.unmarshalInvite v prev = some r := by
  induction l generalizing cur with
  | nil => simp [scanInvites] at h
  | cons p rest ih =>
    obtain ⟨k, v⟩ := p
    cases hd : elib.unmarshalInvite v cur with
    | none => simp [scanInvites, hd] at h
    | some r0 =>
      by_cases hs : staleInvite now r0 = true
      · simp only [scanInvites, hd, hs, if_true, List.nil_append] at h
        rw [scanInvites_acc] at h
        simp only [List.mem_append, List.mem_singleton] at h
        rcases h with h | h
        · subst h
          exact ⟨k, v, cur, List.mem_cons_self _ _, hd⟩
        · obtain ⟨k', v', prev, hm, hu⟩ := ih r0 h
          exact ⟨k', v', prev, List.mem_cons_of_mem _ hm, hu⟩
      · simp only [scanInvites, hd, hs, if_false, Bool.false_eq_true] at h
        obtain ⟨k', v', prev, hm, hu⟩ := ih r0 h
        exact ⟨k', v', prev, List.mem_cons_of_mem _ hm, hu⟩

/-- On a bucket whose values are complete encodings stored under their own
uuid or do not decode, once the keys of what the loop collects are deleted, and
no key of a value that does not decode is, the loop collects nothing. -/
theorem scanInvites_filter_nil {P : Type} (elib : EntityLib P) (now : Int) (l : KV String)
    (D : List String) (cur cur2 : Invite)
    (hWF : ∀ k v, (k, v) ∈ l →
      (∃ r, (∀ prev, elib.unmarshalInvite v prev = some r) ∧ r.Uuid = k) ∨
      (∀ prev, elib.unmarshalInvite v prev = none))
    (hD : ∀ r, r ∈ (scanInvites elib now l cur []).1 → r.Uuid ∈ D)
    (hG : ∀ k v, (k, v) ∈ l → (∀ prev, elib.unmarshalInvite v prev = none) → k ∉ D) :
    (scanInvites elib now (l.filter (fun p => decide (p.1 ∉ D))) cur2 []).1 = [] := by
  induction l generalizing cur cur2 with
  | nil => simp [scanInvites]
  | cons p rest ih =>
    obtain ⟨k, v⟩ := p
    have hWF' : ∀ k v, (k, v) ∈ rest →
        (∃ r, (∀ prev, elib.unmarshalInvite v prev = some r) ∧ r.Uuid = k) ∨
        (∀ prev, elib.unmarshalInvite v prev = none) :=
      fun k v hm => hWF k v (List.mem_cons_of_mem _ hm)
    have hG' : ∀ k v, (k, v) ∈ rest → (∀ prev, elib.unmarshalInvite v prev = none) → k ∉ D :=
      fun k v hm => hG k v (List.mem_cons_of_mem _ hm)
    rcases hWF k v (List.mem_cons_self _ _) with ⟨r, hr, hu⟩ | hbad
    · by_cases hs : staleInvite now r = true
      · have hscan : (scanInvites elib now ((k, v) :: rest) cur []).1
            = [r] ++ (scanInvites elib now rest r []).1 := by
          simp only [scanInvites, hr, hs, if_true, List.nil_append]
          rw [scanInvites_acc]
        have hk : k ∈ D := by
          rw [← hu]
          exact hD r (by rw [hscan]; simp)
        have hD' : ∀ r', r' ∈ (scanInvites elib now rest r []).1 → r'.Uuid ∈ D :=
          fun r' hr' => hD r' (by rw [hscan]; simp [hr'])
        simp only [List.filter_cons, hk, not_true_eq_false, decide_False, Bool.false_eq_true,
          if_false]
        exact ih r cur2 hWF' hD' hG'
      · have hscan : (scanInvites elib now ((k, v) :: rest) cur []).1
            = (scanInvites elib now rest r []).1 := by
          simp only [scanInvites, hr, hs, if_false, Bool.false_eq_true]
        have hD' : ∀ r', r' ∈ (scanInvites elib now rest r []).1 → r'.Uuid ∈ D :=
          fun r' hr' => hD r' (by rw [hscan]; exact hr')
        by_cases hk : k ∈ D
        · simp only [List.filter_cons, hk, not_true_eq_false, decide_False,
            Bool.false_eq_true, if_false]
          exact ih r cur2 hWF' hD' hG'
        · simp only [List.filter_cons, hk, not_false_eq_true, decide_True, if_true]
          simp only [scanInvites, hr, hs, if_false, Bool.false_eq_true]
          exact ih r r hWF' hD' hG'
    · have hk : k ∉ D := hG k v (List.mem_cons_self _ _) hbad
      simp only [List.filter_cons, hk, not_false_eq_true, decide_True, if_true]
      simp [scanInvites, hbad]

/-- A sweep whose cursor loop collects nothing changes nothing. -/
theorem ExpiredInvites_of_scan_nil {P : Type} (elib : EntityLib P) (w : TxWorld)
    (app : Service)
    (h : (scanInvites elib w.now.Unix app.Bolt.invite zeroInvite []).1 = []) :
    ExpiredInvites elib w app = app := by
  unfold ExpiredInvites
  cases hv : w.viewErr with
  | some msg => simp [DB.View]
  | none => simp [DB.View, h]

/-- The second sweep changes nothing on a bucket of distinct keys whose values
are complete encodings stored under their own uuid or do not decode. -/
theorem ExpiredInvites_idem_own_keys {P : Type} (elib : EntityLib P) (w w2 : TxWorld)
    (app : Service)
    (hView : w.viewErr = none) (hBegin : w.beginErr = none) (hCommit : w.commitErr = none)
    (hClock : w2.now.Unix = w.now.Unix)
    (hKeys : app.Bolt.invite.Keys.Nodup)
    (hWF : ∀ k v, (k, v) ∈ app.Bolt.invite →
      (∃ r, (∀ prev, elib.unmarshalInvite v prev = some r) ∧ r.Uuid = k) ∨
      (∀ prev, elib.unmarshalInvite v prev = none)) :
    ExpiredInvites elib w2 (ExpiredInvites elib w app) = ExpiredInvites elib w app := by
  have hE : ExpiredInvites elib w app =
      if (scanInvites elib w.now.Unix app.Bolt.invite zeroInvite []).1.length > 0 then
        { app with Bolt := { app.Bolt with
            invite := app.Bolt.invite.filter (fun p => decide (p.1 ∉
              ((scanInvites elib w.now.Unix app.Bolt.invite zeroInvite []).1.map
                (fun invite => invite.Uuid)))) } }
      else app := by
    unfold ExpiredInvites
    simp [DB.View, hView, DB.Update, hBegin, hCommit, deleteAll_eq_filter]
  by_cases hlen : (scanInvites elib w.now.Unix app.Bolt.invite zeroInvite []).1.length > 0
  · rw [hE, if_pos hlen]
    apply ExpiredInvites_of_scan_nil
    rw [hClock]
    refine scanInvites_filter_nil elib _ app.Bolt.invite _ zeroInvite zeroInvite hWF
      (fun r hr => List.mem_map.2 ⟨r, hr, rfl⟩) ?_
    intro k v hm hbad hmem
    obtain ⟨r, hr, hu⟩ := List.mem_map.1 hmem
    obtain ⟨k', v', prev, hm', hdec⟩ := scanInvites_mem elib _ _ _ r hr
    rcases hWF k' v' hm' with ⟨r0, hr0, hu0⟩ | hb
    · rw [hr0 prev] at hdec
      cases hdec
      have hk : k' = k := by rw [← hu0]; exact hu
      subst hk
      have h1 := KV.Get_of_mem_nodup _ _ _ hKeys hm
      have h2 := KV.Get_of_mem_nodup _ _ _ hKeys hm'
      rw [h1] at h2
      cases h2
      have h3 := hr0 prev
      rw [hbad prev] at h3
      cases h3
    · rw [hb prev] at hdec
      cases hdec
  · rw [hE, if_neg hlen]
    apply ExpiredInvites_of_scan_nil
    rw [hClock]
    apply List.eq_nil_of_length_eq_zero
    omega

/-- Where the conditions on the content fail: the invitation bucket holds
under `a` a cancelled invitation that carries the uuid `b`, under `b` a value
that does not decode, and under `c` a cancelled invitation.  The first run of
`ExpiredInvites` stops reading at `b` and, going on after the failed read,
deletes the key `b`; the second run, at the same clock reading, reads on and
deletes the key `c`. -/
theorem expiredInvites_second_run_after_failed_read :
    (ExpiredInvites demoEntityLib exTxWorld
      (exStore [("a", encInvite (exInvite "b" "cancelled" 9000)), ("b", "garbage"),
                ("c", encInvite (exInvite "c" "cancelled" 9000))] [])).Bolt.invite
      = [("a", encInvite (exInvite "b" "cancelled" 9000)),
         ("c", encInvite (exInvite "c" "cancelled" 9000))] ∧
    (ExpiredInvites demoEntityLib exTxWorld
      (ExpiredInvites demoEntityLib exTxWorld
        (exStore [("a", encInvite (exInvite "b" "cancelled" 9000)), ("b", "garbage"),
                  ("c", encInvite (exInvite "c" "cancelled" 9000))] []))).Bolt.invite
      = [("a", encInvite (exInvite "b" "cancelled" 9000))] := by
  refine ⟨by rfl, by rfl⟩

/-- C18 fails as stated: the four invitations are stored under their own
uuid and all decode.  The commit of the write transaction of the first run
fails, so the first run leaves the bucket as it was; the second run, at the
same clock reading, whose transactions succeed, deletes `a` and `c`: the bucket
after the second run is not the one after the first run. -/
theorem expiredInvites_idempotent_counterexample :
    exTxWorldFault.now.Unix = exTxWorld.now.Unix ∧
    ExpiredInvites demoEntityLib exTxWorldFault (exStore exInvites exResets)
      = exStore exInvites exResets ∧
    (ExpiredInvites demoEntityLib exTxWorldFault
      (exStore exInvites exResets)).Bolt.invite.Keys = ["a", "b", "c", "d"] ∧
    (ExpiredInvites demoEntityLib exTxWorld
      (ExpiredInvites demoEntityLib exTxWorldFault
        (exStore exInvites exResets))).Bolt.invite.Keys = ["b", "d"] := by
  refine ⟨by decide, by rfl, by rfl, by rfl⟩

/-- C18, amended: for every content of the invitation bucket whose values are
all complete encodings of invitations, whatever their keys, and for every
content of distinct keys in which each value is the complete encoding of a
record stored under the key equal to its own uuid or does not decode: a run of
`ExpiredInvites` whose transactions succeed followed, with no write in between
and at the same clock reading, by a second run leaves after the second run the
state that the first run left: the second run deletes nothing. -/
theorem expiredInvites_idempotent {P : Type} (elib : EntityLib P) (w w2 : TxWorld)
    (app : Service)
    (hView : w.viewErr = none) (hBegin : w.beginErr = none) (hCommit : w.commitErr = none)
    (hClock : w2.now.Unix = w.now.Unix)
    (hContent :
      (∀ k v, (k, v) ∈ app.Bolt.invite →
        ∃ r, ∀ prev, elib.unmarshalInvite v prev = some r) ∨
      (app.Bolt.invite.Keys.Nodup ∧
        ∀ k v, (k, v) ∈ app.Bolt.invite →
          (∃ r, (∀ prev, elib.unmarshalInvite v prev = some r) ∧ r.Uuid = k) ∨
          (∀ prev, elib.unmarshalInvite v prev = none))) :
    ExpiredInvites elib w2 (ExpiredInvites elib w app) = ExpiredInvites elib w app := by
  rcases hContent with hDec | ⟨hKeys, hWF⟩
  · exact ExpiredInvites_idem_decodable elib w w2 app hView hBegin hCommit hClock hDec
  · exact ExpiredInvites_idem_own_keys elib w w2 app hView hBegin hCommit hClock hKeys hWF

/-- C18 amended, at a concrete input: the bucket holds a cancelled invitation
under `a`, a value that does not decode under `b` and a cancelled invitation
under `c`; the first sweep at second 2000 deletes `a` and the second sweep
changes nothing. -/
theorem expiredInvites_idempotent_witness :
    ExpiredInvites demoEntityLib exTxWorld
        (ExpiredInvites demoEntityLib exTxWorld
          (exStore [("a", encInvite (exInvite "a" "cancelled" 9000)), ("b", "garbage"),
                    ("c", encInvite (exInvite "c" "cancelled" 9000))] []))
      = ExpiredInvites demoEntityLib exTxWorld
          (exStore [("a", encInvite (exInvite "a" "cancelled" 9000)), ("b", "garbage"),
                    ("c", encInvite (exInvite "c" "cancelled" 9000))] []) :=
  expiredInvites_idempotent demoEntityLib exTxWorld exTxWorld
    (exStore [("a", encInvite (exInvite "a" "cancelled" 9000)), ("b", "garbage"),
              ("c", encInvite (exInvite "c" "cancelled" 9000))] [])
    (by rfl) (by rfl) (by rfl) (by rfl)
    (Or.inr ⟨by decide, fun k v hm => by
      simp only [exStore, List.mem_cons, Prod.mk.injEq, List.mem_nil_iff, or_false] at hm
      rcases hm with ⟨rfl, rfl⟩ | ⟨rfl, rfl⟩ | ⟨rfl, rfl⟩
      · exact Or.inl ⟨exInvite "a" "cancelled" 9000, fun _ => by rfl, by rfl⟩
      · exact Or.inr (fun _ => by rfl)
      · exact Or.inl ⟨exInvite "c" "cancelled" 9000, fun _ => by rfl, by rfl⟩⟩)

/-! ## The job dispatch (C19) and failed reads (C20) -/

/-- C19, at the failing input: the store holds the password reset `p`,
expired and unused, and the worker receives the password-reset job.  The
invitation job runs `ExpiredInvites`, but the password-reset job falls to the
default case: the store is left as it was, whereas `ExpiredPassReset` would
delete `p`. -/
theorem process_passreset_job_not_dispatched :
    PassResetJob = "passreset" ∧
    dispatch demoEntityLib exTxWorld InviteJob (exStore exInvites exResets)
      = ExpiredInvites demoEntityLib exTxWorld (exStore exInvites exResets) ∧
    dispatch demoEntityLib exTxWorld PassResetJob (exStore exInvites exResets)
      = exStore exInvites exResets ∧
    Process demoEntityLib [(PassResetJob, exTxWorld)] (exStore exInvites exResets)
      = exStore exInvites exResets ∧
    (ExpiredPassReset demoEntityLib exTxWorld (exStore exInvites exResets)).Bolt.passreset.Keys
      = ["q", "r"] ∧
    (Process demoEntityLib [(PassResetJob, exTxWorld)]
      (exStore exInvites exResets)).Bolt.passreset.Keys = ["p", "q", "r"] := by
  refine ⟨by rfl, by rfl, by rfl, by rfl, by rfl, by rfl⟩

/-- C20, at the failing input: the invitation bucket holds a cancelled
invitation under `a`, a value that does not decode under `b` and a cancelled
invitation under `c`.  The read transaction of `ExpiredInvites` fails at `b`
with the decoding error, and the sweep goes on to delete `a`, collected before
the failure.  `ExpiredPassReset` does the same with an expired unused reset
under `p` followed by a value that does not decode under `q`. -/
theorem sweep_deletes_after_failed_read :
    (DB.View (exStore [("a", encInvite (exInvite "a" "cancelled" 9000)), ("b", "garbage"),
        ("c", encInvite (exInvite "c" "cancelled" 9000))] []).Bolt exTxWorld.viewErr []
      (fun db => scanInvites demoEntityLib exTxWorld.now.Unix db.invite zeroInvite [])).2
      = some .ErrJSON ∧
    (ExpiredInvites demoEntityLib exTxWorld
      (exStore [("a", encInvite (exInvite "a" "cancelled" 9000)), ("b", "garbage"),
                ("c", encInvite (exInvite "c" "cancelled" 9000))] [])).Bolt.invite
      = [("b", "garbage"), ("c", encInvite (exInvite "c" "cancelled" 9000))] ∧
    (DB.View (exStore [] [("p", encReset (exReset "p" 1500 false)),
        ("q", "garbage")]).Bolt exTxWorld.viewErr []
      (fun db => scanResets demoEntityLib exTxWorld.now.Unix db.passreset zeroReset [])).2
      = some .ErrJSON ∧
    (ExpiredPassReset demoEntityLib exTxWorld
      (exStore [] [("p", encReset (exReset "p" 1500 false)),
                   ("q", "garbage")])).Bolt.passreset
      = [("q", "garbage")] := by
  refine ⟨by rfl, by rfl, by rfl, by rfl⟩

/-! ## Creation of invitations and password resets (C21, C22) -/

/-- The seconds of a time extended by whole hours. -/
theorem hours_unix (t : Time) (h : Int) :
    (GetFutureTime t 0 h 0 0).Unix = t.Unix + 3600 * h := by
  simp only [GetFutureTime, Time.Unix, Hour, Minute, Second]
  omega

/-- A successful `Invite.Update` leaves the encoding of the invitation under
its uuid. -/
theorem Invite_Update_ok {P : Type} (elib : EntityLib P) (invite : Invite) (db : DB)
    (b c : Option String) (bolt : DB)
    (h : invite.Update elib db b c = (none, bolt)) :
    ∃ bytes, elib.marshalInvite invite = some bytes ∧
      bolt.invite.Get invite.Uuid = some bytes := by
  unfold Invite.Update at h
  have h1 := Update_ok db b c _ (congrArg Prod.fst h)
  rw [congrArg Prod.snd h] at h1
  simp only at h1
  cases hM : elib.marshalInvite invite with
  | none => simp [hM] at h1
  | some bytes =>
    simp only [hM] at h1
    cases hP : putCheckValue invite.Uuid bytes with
    | some err => simp [hP] at h1
    | none =>
      simp only [hP] at h1
      cases h1
      exact ⟨bytes, rfl, KV.Get_Put_self _ _ _⟩

/-- The answer 201 of the handler of a granted request: the invitation it
carries and the store it leaves. -/
theorem createInviteGranted_created {P : Type} (lib : Lib P) (elib : EntityLib P)
    (w : HandlerWorld) (service : Service) (req : Request) (code : Nat) (invite : Invite)
    (h : (createInviteGranted lib elib w service req).1 = .done (.json code invite)) :
    code = StatusCreated ∧ invite.CreatedOn = w.now.Unix ∧
    invite.Expiry = (GetFutureTime w.now 0 7 0 0).Unix ∧ invite.Status = Pending ∧
    ∃ bytes, elib.marshalInvite invite = some bytes ∧
      (createInviteGranted lib elib w service req).2.Bolt.invite.Get invite.Uuid
        = some bytes := by
  unfold createInviteGranted at h ⊢
  cases hB : req.Body with
  | none => simp [hB] at h
  | some reader =>
    cases reader with
    | fails => simp [hB, ReadAll] at h
    | yields bytes =>
      simp only [hB, ReadAll, Option.getD_some] at h ⊢
      split at h
      · simp at h
      · rename_i hLen
        simp only [hLen, if_false] at h ⊢
        cases hJ : lib.jsonUnmarshal bytes with
        | none => simp [hJ] at h
        | some payload =>
          simp only [hJ] at h ⊢
          cases hE : elib.payloadString payload "email" with
          | none => simp [hE] at h
          | some email =>
            simp only [hE] at h ⊢
            cases hR : elib.payloadString payload "role" with
            | none => simp [hR] at h
            | some role =>
              simp only [hR] at h ⊢
              cases hI : elib.payloadString payload "invitedBy" with
              | none => simp [hI] at h
              | some invitedBy =>
                simp only [hI] at h ⊢
                cases hU : (GetUser elib invitedBy service.Bolt w.viewErr).2 with
                | some e => simp [hU] at h
                | none =>
                  simp only [hU] at h ⊢
                  split at h
                  · simp at h
                  · rename_i hF
                    simp only [hF, if_false] at h ⊢
                    cases hUp : Invite.Update elib
                        { Uuid := w.ident, Email := email, Role := role, Status := Pending,
                          LastModified := 0, CreatedOn := w.now.Unix,
                          Expiry := (GetFutureTime w.now 0 7 0 0).Unix, InvitedBy := invitedBy,
                          Deleted := false }
                        service.Bolt w.beginErr w.commitErr with
                    | mk err bolt =>
                      cases err with
                      | some e => simp [hUp] at h
                      | none =>
                        simp only [hUp, Run.done.injEq, Response.json.injEq] at h
                        obtain ⟨hc, hi⟩ := h
                        subst hi
                        refine ⟨hc.symm, rfl, rfl, rfl, ?_⟩
                        simpa [hUp] using Invite_Update_ok elib _ service.Bolt w.beginErr
                          w.commitErr bolt hUp

/-- C21 fails as stated: the administrator invites `new@x.io` at second 3000;
the invitation answered has `CreatedOn = 3000`, status `"pending"` and
`Expiry = 28200`, which is not 3000 + 604800. -/
theorem createInvite_seven_days_counterexample :
    (CreateInvite demoLib demoEntityLib exWorld exHandlerWorld exInviteService
        (exAdminRequest "\x7bemail=new@x.io;role=finance;invitedBy=b58:admin@x.io\x7d")).1
      = .done (some (.json StatusCreated
          { Uuid := "id-1", Email := "new@x.io", Role := "finance", Status := "pending",
            LastModified := 0, CreatedOn := 3000, Expiry := 28200,
            InvitedBy := "b58:admin@x.io", Deleted := false })) ∧
    (28200 : Int) ≠ 3000 + 604800 := by
  refine ⟨by rfl, by decide⟩

/-- C21, amended: every invitation `CreateInvite` answers with (status 201) has
its expiry exactly 7 hours (25200 seconds) after its `CreatedOn`, has the
status `"pending"`, and its encoding is in the invitation bucket under its
uuid when the call ends. -/
theorem createInvite_expiry {P : Type} (lib : Lib P) (elib : EntityLib P) (vw : World)
    (w : HandlerWorld) (service : Service) (req : Request) (code : Nat) (invite : Invite)
    (h : (CreateInvite lib elib vw w service req).1 = .done (some (.json code invite))) :
    invite.Expiry = invite.CreatedOn + 25200 ∧ invite.Status = "pending" ∧
    ∃ bytes, elib.marshalInvite invite = some bytes ∧
      (CreateInvite lib elib vw w service req).2.Bolt.invite.Get invite.Uuid = some bytes := by
  unfold CreateInvite at h ⊢
  cases hV : ValidateRequest lib vw service [Admin] req with
  | mk out svc =>
    cases out with
    | panic => simp [hV] at h
    | ret granted err =>
      cases err with
      | some e => simp [hV] at h
      | none =>
        cases granted with
        | false => simp [hV] at h
        | true =>
          simp only [hV] at h ⊢
          cases hG : createInviteGranted lib elib w svc req with
          | mk run svc2 =>
            cases run with
            | panic => simp [hG] at h
            | done response =>
              simp only [hG, Run.done.injEq, Option.some.injEq] at h
              subst h
              obtain ⟨_, hC, hE, hS, hStore⟩ := createInviteGranted_created lib elib w svc req
                code invite (by rw [hG])
              refine ⟨?_, hS, ?_⟩
              · rw [hE, hC, hours_unix]
                norm_num
              · simpa [hG] using hStore

/-- C21 amended, at a concrete input: the invitation of `new@x.io` created at
second 3000 expires at second 28200 and is stored under `id-1`. -/
theorem createInvite_expiry_witness :
    (28200 : Int) = 3000 + 25200 ∧ "pending" = "pending" ∧
    ∃ bytes,
      demoEntityLib.marshalInvite
          { Uuid := "id-1", Email := "new@x.io", Role := "finance", Status := "pending",
            LastModified := 0, CreatedOn := 3000, Expiry := 28200,
            InvitedBy := "b58:admin@x.io", Deleted := false } = some bytes ∧
      (CreateInvite demoLib demoEntityLib exWorld exHandlerWorld exInviteService
        (exAdminRequest "\x7bemail=new@x.io;role=finance;invitedBy=b58:admin@x.io\x7d")
        ).2.Bolt.invite.Get "id-1" = some bytes :=
  createInvite_expiry demoLib demoEntityLib exWorld exHandlerWorld exInviteService
    (exAdminRequest "\x7bemail=new@x.io;role=finance;invitedBy=b58:admin@x.io\x7d")
    StatusCreated
    { Uuid := "id-1", Email := "new@x.io", Role := "finance", Status := "pending",
      LastModified := 0, CreatedOn := 3000, Expiry := 28200,
      InvitedBy := "b58:admin@x.io", Deleted := false }
    (by rfl)

/-- C22, the failing input: a password reset is requested for `amy@x.io` with
both clock readings in second 3000.  The reset answered and stored has
`Used = false`, `CreatedOn = 3000` and `Expiry = 21000`, which is 5 hours after
its creation and not 3000 + 432000, the 5 days the comment of line 65
announces. -/
theorem createReset_expiry_five_hours :
    (CreateReset demoLib demoEntityLib exHandlerWorld "https://app" exInviteService
        (exAdminRequest "\x7bemail=amy@x.io;user=U1\x7d")).1
      = .done (.json StatusCreated
          { Uuid := "id-1", Email := "amy@x.io", User := "U1", ResetURL := "",
            Expiry := 21000, LastModified := 0, CreatedOn := 3000, Used := false }) ∧
    (CreateReset demoLib demoEntityLib exHandlerWorld "https://app" exInviteService
        (exAdminRequest "\x7bemail=amy@x.io;user=U1\x7d")).2.Bolt.passreset.Get "id-1"
      = some (encReset
          { Uuid := "id-1", Email := "amy@x.io", User := "U1",
            ResetURL := "https://app/#!/reset/id-1",
            Expiry := 21000, LastModified := 0, CreatedOn := 3000, Used := false }) ∧
    (21000 : Int) = 3000 + 5 * 3600 ∧ (21000 : Int) ≠ 3000 + 432000 := by
  refine ⟨by rfl, by rfl, by decide, by decide⟩

/-! ## Requests without body content (C23) -/

/-- C23, the failing input: the live `finance` session presents its token for
the required roles `["finance"]`.  With a body that is present and holds zero
bytes the call returns `(false, ErrMalformedPayload)` and leaves the state as it
was; with no body at all it is granted. -/
theorem validateRequest_empty_body_rejected :
    exService.SessionMap.Get "tok" = some (.val exSession) ∧
    ¬ exWorld.now.Unix > exSession.Expiry ∧
    ValidateRequest demoLib exWorld exService ["finance"]
        (exRequest ["Token tok"] (some (.yields "")))
      = (.ret false (some .ErrMalformedPayload), exService) ∧
    (ValidateRequest demoLib exWorld exService ["finance"]
        (exRequest ["Token tok"] none)).1 = .ret true none := by
  refine ⟨by rfl, by decide, by rfl, by rfl⟩

/-! ## Monotone expiry (C24) -/

/-- The session map a call of `ValidateRequest` leaves: the one it found, or
that one with the entry of the presented token removed or replaced by the same
session renewed. -/
theorem ValidateRequest_sessionMap {P : Type} (lib : Lib P) (w : World) (service : Service)
    (allowedRoles : List String) (req : Request) :
    (ValidateRequest lib w service allowedRoles req).2.SessionMap = service.SessionMap ∨
    ∃ token session, GetSessionToken req = .ok token ∧
      service.SessionMap.Get token = some (.val session) ∧
      ((ValidateRequest lib w service allowedRoles req).2.SessionMap
          = service.SessionMap.Remove token ∨
       (ValidateRequest lib w service allowedRoles req).2.SessionMap
          = service.SessionMap.Set session.Token
              (.val { session with Expiry := wrapInt64 (session.Expiry + 60) })) := by
  cases hTok : GetSessionToken req with
  | error err => left; unfold ValidateRequest; simp [hTok]
  | ok token =>
    cases hGet : service.SessionMap.Get token with
    | none =>
      left; unfold ValidateRequest; simp only [hTok, hGet]; split <;> rfl
    | some entry =>
      cases entry with
      | ptr a => left; unfold ValidateRequest; simp only [hTok, hGet]; split <;> rfl
      | val session =>
        have hHas : service.SessionMap.Has token = true := by simp [KV.Has, hGet]
        by_cases hLive : w.now.Unix > session.Expiry
        · right
          refine ⟨token, session, rfl, hGet, Or.inl ?_⟩
          unfold ValidateRequest
          simp [hTok, hGet, hHas, hLive]
        · cases hBody : parseRequest lib req with
          | error err =>
            left; unfold ValidateRequest
            simp [hTok, hGet, hHas, hLive, hBody]
          | ok payload =>
            cases hSer : lib.jsonMarshal (mkRequestLog lib req token payload) with
            | none =>
              left; unfold ValidateRequest
              simp [hTok, hGet, hHas, hLive, hBody, hSer]
            | some logBytes =>
              rw [ValidateRequest_pass lib w service allowedRoles req token session payload
                logBytes hTok hGet hLive hBody hSer]
              split
              · right; exact ⟨token, session, rfl, hGet, Or.inr rfl⟩
              · left; rfl

/-- C24 fails as stated: the live `admin` session `far`, whose expiry is ten
seconds short of the largest `int64`, is granted and is in the cache before and
after the call, but its expiry afterwards is a negative number of seconds, less
than before.  And in a cache whose key `k1` holds a session that carries the
token `k2`, a granted call with the token `k1` replaces the entry of the other
token `k2`. -/
theorem validateRequest_expiry_monotone_counterexample :
    exFarService.SessionMap.Get "far" = some (.val exFar) ∧
    exFar.Expiry = 9223372036854775807 - 10 ∧
    (ValidateRequest demoLib exWorld exFarService ["finance"]
        (exRequest ["Token far"] none)).1 = .ret true none ∧
    (ValidateRequest demoLib exWorld exFarService ["finance"]
        (exRequest ["Token far"] none)).2.SessionMap.Get "far"
      = some (.val { User := "U7", Token := "far", Access := "admin", CreatedOn := 1000,
                     Expiry := -9223372036854775759 }) ∧
    ¬ exFar.Expiry ≤ (-9223372036854775759 : Int) ∧
    exAliasService.SessionMap.Get "k2" = some (.val exAdmin) ∧
    (ValidateRequest demoLib exWorld exAliasService ["finance"]
        (exRequest ["Token k1"] none)).1 = .ret true none ∧
    (ValidateRequest demoLib exWorld exAliasService ["finance"]
        (exRequest ["Token k1"] none)).2.SessionMap.Get "k2"
      = some (.val { User := "U1", Token := "k2", Access := "finance", CreatedOn := 1000,
                     Expiry := 8260 }) := by
  refine ⟨by rfl, by decide, by rfl, by rfl, by decide, by rfl, by rfl, by rfl⟩

/-- C24, amended: for every call of `ValidateRequest`, whatever its outcome,
on a state in which the session held by value under the presented token
carries that token and has an expiry that is an `int64` value at most
`2^63 - 61` (so that adding 60 seconds does not overflow): if the session of
the presented token is in the cache before and after the call, its expiry
afterwards is at least its expiry before and its user, token, access level and
creation time are unchanged; an entry of the presented token that is not a
`Session` value is left as it is; and the entry of every key other than the
presented token is unchanged. -/
theorem validateRequest_expiry_monotone {P : Type} (lib : Lib P) (w : World)
    (service : Service) (allowedRoles : List String) (req : Request)
    (hOwn : ∀ token s, GetSessionToken req = .ok token →
      service.SessionMap.Get token = some (.val s) →
      s.Token = token ∧ -9223372036854775808 ≤ s.Expiry ∧
        s.Expiry + 60 ≤ 9223372036854775807) :
    (∀ token s s', GetSessionToken req = .ok token →
      service.SessionMap.Get token = some (.val s) →
      (ValidateRequest lib w service allowedRoles req).2.SessionMap.Get token
        = some (.val s') →
      s.Expiry ≤ s'.Expiry ∧ s'.User = s.User ∧ s'.Token = s.Token ∧
        s'.Access = s.Access ∧ s'.CreatedOn = s.CreatedOn) ∧
    (∀ token a, GetSessionToken req = .ok token →
      service.SessionMap.Get token = some (.ptr a) →
      (ValidateRequest lib w service allowedRoles req).2.SessionMap.Get token
        = some (.ptr a)) ∧
    (∀ k, GetSessionToken req ≠ .ok k →
      (ValidateRequest lib w service allowedRoles req).2.SessionMap.Get k
        = service.SessionMap.Get k) := by
  rcases ValidateRequest_sessionMap lib w service allowedRoles req with
    h | ⟨token, session, hTok, hGet, h | h⟩
  · rw [h]
    refine ⟨fun token s s' _ hs hs' => ?_, fun token a _ ha => ha, fun k _ => rfl⟩
    rw [hs] at hs'
    cases hs'
    exact ⟨le_refl _, rfl, rfl, rfl, rfl⟩
  · rw [h]
    refine ⟨fun token' s s' hTok' hs hs' => ?_, fun token' a hTok' ha => ?_, fun k hk => ?_⟩
    · rw [hTok] at hTok'
      cases hTok'
      rw [KV.Get_Remove_self] at hs'
      cases hs'
    · rw [hTok] at hTok'
      cases hTok'
      rw [hGet] at ha
      cases ha
    · apply KV.Get_Remove_ne
      intro hEq
      exact hk (hEq ▸ hTok)
  · rw [h]
    obtain ⟨hT, hLow, hHigh⟩ := hOwn token session hTok hGet
    refine ⟨fun token' s s' hTok' hs hs' => ?_, fun token' a hTok' ha => ?_, fun k hk => ?_⟩
    · rw [hTok] at hTok'
      cases hTok'
      rw [hGet] at hs
      cases hs
      rw [hT, KV.Get_Set_self, wrapInt64_of_range _ (by omega) hHigh] at hs'
      cases hs'
      exact ⟨by simp, rfl, hT.symm, rfl, rfl⟩
    · rw [hTok] at hTok'
      cases hTok'
      rw [hGet] at ha
      cases ha
    · apply KV.Get_Set_ne
      intro hEq
      rw [hT] at hEq
      exact hk (hEq ▸ hTok)

/-- C24 amended, at a concrete input: the `finance` session is granted; its
expiry goes from 8200 to 8260 and the entry of `adm` stays as it was. -/
theorem validateRequest_expiry_monotone_witness :
    (exSession.Expiry ≤ 8260 ∧ exSession.User = exSession.User ∧
      exSession.Token = exSession.Token ∧ exSession.Access = exSession.Access ∧
      exSession.CreatedOn = exSession.CreatedOn) ∧
    (ValidateRequest demoLib exWorld exService ["finance"]
        (exRequest ["Token tok"] none)).2.SessionMap.Get "adm"
      = exService.SessionMap.Get "adm" :=
  ⟨(validateRequest_expiry_monotone demoLib exWorld exService ["finance"]
      (exRequest ["Token tok"] none)
      (fun token s hTok hGet => by
        have h1 : GetSessionToken (exRequest ["Token tok"] none) = .ok "tok" := rfl
        rw [h1] at hTok
        cases hTok
        have h2 : exService.SessionMap.Get "tok" = some (.val exSession) := rfl
        rw [h2] at hGet
        cases hGet
        exact ⟨rfl, by decide, by decide⟩)).1 "tok" exSession
      { exSession with Expiry := 8260 } rfl rfl rfl,
   (validateRequest_expiry_monotone demoLib exWorld exService ["finance"]
      (exRequest ["Token tok"] none)
      (fun token s hTok hGet => by
        have h1 : GetSessionToken (exRequest ["Token tok"] none) = .ok "tok" := rfl
        rw [h1] at hTok
        cases hTok
        have h2 : exService.SessionMap.Get "tok" = some (.val exSession) := rfl
        rw [h2] at hGet
        cases hGet
        exact ⟨rfl, by decide, by decide⟩)).2.2 "adm" (fun h => by
          have h1 : GetSessionToken (exRequest ["Token tok"] none) = .ok "tok" := rfl
          rw [h1] at h
          exact absurd (Except.ok.inj h) (by decide))⟩

/-! ## What the cache holds after `LoadSessions` (C25, C27) -/

/-- C25, the failing input: `LoadSessions` at second 2000 on a store whose
session bucket holds the session `dead`.  The entry cached under `dead` is a
pointer to the record of the loop, not a `Session` value, and reading it as a
`Session` panics in `GetSession`, in `ValidateRequest` and in
`SaveSessions`. -/
theorem loadSessions_caches_reference :
    (LoadSessions demoEntityLib exTxWorld 1 exCheckpoint).service.SessionMap.Get "dead"
      = some (.ptr 1) ∧
    (LoadSessions demoEntityLib exTxWorld 1 exCheckpoint).service.GetSession "dead" = .panic ∧
    (ValidateRequest demoLib exWorld
        (LoadSessions demoEntityLib exTxWorld 1 exCheckpoint).service ["admin"]
        (exRequest ["Token dead"] none)).1 = .panic ∧
    (SaveSessions demoEntityLib exTxWorld
        (LoadSessions demoEntityLib exTxWorld 1 exCheckpoint).service).1 = .panic := by
  refine ⟨by rfl, by rfl, by rfl, by rfl⟩

/-- C27, the failing input: `LoadSessions` at second 2000 on a session bucket
that holds `d1` (user `U2`, `management`, expiry 1500) and `d2` (user `U9`,
`finance`, expiry 1600).  The load succeeds, and the record cached under `d1`
is the record of `d2`: both entries point to the one record of the loop, which
holds what was decoded last. -/
theorem loadSessions_shares_record :
    (LoadSessions demoEntityLib exTxWorld 1 exTwoCheckpoint).err = none ∧
    exTwoCheckpoint.Bolt.session.Get "d1"
      = some (encSession { User := "U2", Token := "d1", Access := "management",
                           CreatedOn := 0, Expiry := 1500 }) ∧
    (LoadSessions demoEntityLib exTxWorld 1 exTwoCheckpoint).record 1 "d1"
      = some { User := "U9", Token := "d2", Access := "finance", CreatedOn := 0,
               Expiry := 1600 } ∧
    (LoadSessions demoEntityLib exTxWorld 1 exTwoCheckpoint).record 1 "d2"
      = some { User := "U9", Token := "d2", Access := "finance", CreatedOn := 0,
               Expiry := 1600 } := by
  refine ⟨by rfl, by rfl, by rfl, by rfl⟩

/-! ## The storage mutex (C26) -/

/-- C26, the failing input: the write transactions of `PassReset.Update`,
`Feedback.Update`, `ExpiredInvites` and `ExpiredPassReset` run without the
storage mutex held, while those of `User.Update` and `Invite.Update` run under
it. -/
theorem writes_without_storage_mutex :
    updatesUnderLock false WritePath.passResetUpdate.events = false ∧
    updatesUnderLock false WritePath.feedbackUpdate.events = false ∧
    updatesUnderLock false WritePath.expiredInvites.events = false ∧
    updatesUnderLock false WritePath.expiredPassReset.events = false ∧
    updatesUnderLock false WritePath.userUpdate.events = true ∧
    updatesUnderLock false WritePath.inviteUpdate.events = true := by
  decide

/-! ## The role of a created user (C28) -/

/-- Every answer 201 of lines 104-151 of `CreateUser` carries the role, the
email and the invitation reference it was called with. -/
theorem createUserFrom_role {P : Type} (elib : EntityLib P) (w : HandlerWorld)
    (service : Service) (inviteRef firstName lastName password email role : String)
    (code : Nat) (user : User)
    (h : Response.json code user ∈
      (createUserFrom elib w service inviteRef firstName lastName password email role).1) :
    user.Role = role ∧ user.Email = email ∧ user.Invite = inviteRef := by
  unfold createUserFrom at h
  cases hI : GetInvite elib inviteRef service.Bolt w.viewErr with
  | mk invite err =>
    have hA : ∀ (e : Option Err), Response.json code user ∉
        (match e with
          | some err => [Response.error StatusBadRequest err]
          | none => ([] : List (Response User))) := by
      intro e; cases e <;> simp
    simp only [hI] at h
    split at h
    · simp [hA] at h
    · split at h
      · simp [hA] at h
      · cases hH : w.hash with
        | none => simp [hH, hA] at h
        | some hashed =>
          simp only [hH] at h
          split at h
          · simp [hA] at h
          · simp only [List.mem_append, List.mem_singleton, Response.json.injEq] at h
            rcases h with h | h
            · exact absurd h (hA _)
            · obtain ⟨_, hu⟩ := h
              subst hu
              exact ⟨rfl, rfl, rfl⟩

/-- C28 fails as stated: the stored invitation `inv-1` grants `amy@x.io` the
role `finance`; the payload references it and asks for the role `admin`; it is
accepted and the user created has the role `admin`. -/
theorem createUser_invite_role_counterexample :
    exSignupService.Bolt.invite.Get "inv-1"
      = some (encInvite
          { Uuid := "inv-1", Email := "amy@x.io", Role := "finance", Status := "pending",
            LastModified := 0, CreatedOn := 100, Expiry := 9000,
            InvitedBy := "b58:admin@x.io", Deleted := false }) ∧
    (CreateUser demoLib demoEntityLib exHandlerWorld exSignupService
        (exAdminRequest
          "\x7binvite=inv-1;firstName=Amy;lastName=A;password=pw;email=amy@x.io;role=admin\x7d")).1
      = .done [.json StatusCreated
          { Uuid := "b58:amy@x.io", FirstName := "Amy", LastName := "A", Password := "",
            Email := "amy@x.io", Role := "admin", LastLogin := 0, LastModified := 0,
            CreatedOn := 3000, Deleted := false, Invite := "inv-1" }] ∧
    "admin" ≠ "finance" := by
  refine ⟨by rfl, by rfl, by decide⟩

/-- The handler after a failed decoding of the invitation: the value stored
under `inv-2` does not decode, `GetInvite` returns the error together with the
record holding the fields that were decoded, and `CreateUser`, which answers the
error and does not return, goes on to create the user. -/
theorem createUser_after_failed_decode :
    GetInvite demoEntityLib "inv-2" exGarbledService.Bolt none
      = ({ Uuid := "inv-2", Email := "amy@x.io", Role := "finance", Status := "pending",
           LastModified := 0, CreatedOn := 100, Expiry := 9000,
           InvitedBy := "b58:admin@x.io", Deleted := false }, some .ErrJSON) ∧
    (CreateUser demoLib demoEntityLib exHandlerWorld exGarbledService
        (exAdminRequest
          "\x7binvite=inv-2;firstName=Amy;lastName=A;password=pw;email=amy@x.io;role=admin\x7d")).1
      = .done [.error StatusBadRequest .ErrJSON,
          .json StatusCreated
          { Uuid := "b58:amy@x.io", FirstName := "Amy", LastName := "A", Password := "",
            Email := "amy@x.io", Role := "admin", LastLogin := 0, LastModified := 0,
            CreatedOn := 3000, Deleted := false, Invite := "inv-2" }] := by
  refine ⟨by rfl, by rfl⟩

/-- C28, amended: every user `CreateUser` answers with (status 201), also
after it has answered the error of a failed fetch of the invitation, has the
role, the email and the invitation reference the payload of the request gives
under the keys `role`, `email` and `invite`; the role recorded in the
invitation is not consulted. -/
theorem createUser_role_from_payload {P : Type} (lib : Lib P) (elib : EntityLib P)
    (w : HandlerWorld) (service : Service) (req : Request) (answers : List (Response User))
    (code : Nat) (user : User)
    (hRun : (CreateUser lib elib w service req).1 = .done answers)
    (hMem : Response.json code user ∈ answers) :
    ∃ body payload, req.Body = some (.yields body) ∧
      lib.jsonUnmarshal body = some payload ∧
      elib.payloadString payload "role" = some user.Role ∧
      elib.payloadString payload "email" = some user.Email ∧
      elib.payloadString payload "invite" = some user.Invite := by
  unfold CreateUser at hRun
  cases hB : req.Body with
  | none => simp [hB] at hRun
  | some reader =>
    cases reader with
    | fails =>
      simp only [hB, ReadAll, Run.done.injEq] at hRun
      subst hRun
      simp at hMem
    | yields bytes =>
      simp only [hB, ReadAll, Option.getD_some] at hRun
      split at hRun
      · simp only [Run.done.injEq] at hRun
        subst hRun
        simp at hMem
      · cases hJ : lib.jsonUnmarshal bytes with
        | none =>
          simp only [hJ, Run.done.injEq] at hRun
          subst hRun
          simp at hMem
        | some payload =>
          simp only [hJ] at hRun
          cases h1 : elib.payloadString payload "invite" with
          | none => simp only [h1, Run.done.injEq] at hRun; subst hRun; simp at hMem
          | some inviteRef =>
          cases h2 : elib.payloadString payload "firstName" with
          | none => simp only [h1, h2, Run.done.injEq] at hRun; subst hRun; simp at hMem
          | some firstName =>
          cases h3 : elib.payloadString payload "lastName" with
          | none => simp only [h1, h2, h3, Run.done.injEq] at hRun; subst hRun; simp at hMem
          | some lastName =>
          cases h4 : elib.payloadString payload "password" with
          | none =>
            simp only [h1, h2, h3, h4, Run.done.injEq] at hRun; subst hRun; simp at hMem
          | some password =>
          cases h5 : elib.payloadString payload "email" with
          | none =>
            simp only [h1, h2, h3, h4, h5, Run.done.injEq] at hRun; subst hRun; simp at hMem
          | some email =>
          cases h6 : elib.payloadString payload "role" with
          | none =>
            simp only [h1, h2, h3, h4, h5, h6, Run.done.injEq] at hRun
            subst hRun; simp at hMem
          | some role =>
            simp only [h1, h2, h3, h4, h5, h6, Run.done.injEq] at hRun
            subst hRun
            obtain ⟨hr, he, hi⟩ := createUserFrom_role elib w service inviteRef firstName
              lastName password email role code user hMem
            exact ⟨bytes, payload, rfl, hJ, by rw [hr]; exact h6, by rw [he]; exact h5,
              by rw [hi]; exact h1⟩

/-- C28 amended, at a concrete input: the user created for `amy@x.io` has the
role `admin` of the payload. -/
theorem createUser_role_from_payload_witness :
    ∃ body payload,
      (exAdminRequest
        "\x7binvite=inv-1;firstName=Amy;lastName=A;password=pw;email=amy@x.io;role=admin\x7d"
        ).Body = some (.yields body) ∧
      demoLib.jsonUnmarshal body = some payload ∧
      demoEntityLib.payloadString payload "role" = some "admin" ∧
      demoEntityLib.payloadString payload "email" = some "amy@x.io" ∧
      demoEntityLib.payloadString payload "invite" = some "inv-1" :=
  createUser_role_from_payload demoLib demoEntityLib exHandlerWorld exSignupService
    (exAdminRequest
      "\x7binvite=inv-1;firstName=Amy;lastName=A;password=pw;email=amy@x.io;role=admin\x7d")
    [.json StatusCreated
      { Uuid := "b58:amy@x.io", FirstName := "Amy", LastName := "A", Password := "",
        Email := "amy@x.io", Role := "admin", LastLogin := 0, LastModified := 0,
        CreatedOn := 3000, Deleted := false, Invite := "inv-1" }]
    StatusCreated
    { Uuid := "b58:amy@x.io", FirstName := "Amy", LastName := "A", Password := "",
      Email := "amy@x.io", Role := "admin", LastLogin := 0, LastModified := 0,
      CreatedOn := 3000, Deleted := false, Invite := "inv-1" }
    (by rfl) (by simp)

/-! ## Reading the audit log back (C29) -/

/-- C29, the failing input: `ValidateRequest` grants and audits a request of
the token `b58:amy` on day 0; `ListRequestLog` is then queried for day 0 and
the email `amy`, whose base-58 encoding is that token, with an empty request
type, offset 0 and page limit 10.  The listing decodes the value of the entry,
which is empty since the record was written as the key, and returns an empty
list with `ErrMalformedJSON`. -/
theorem listRequestLog_roundtrip_fails :
    (ValidateRequest demoLib exWorld exLogService ["admin"]
        (exRequest ["Token b58:amy"] none)).1 = .ret true none ∧
    demoEntityLib.base58Encode "amy" = "b58:amy" ∧
    demoListLib.fmtdateParse "0" = .ok 0 ∧
    demoLib.fmtdateFormat 0 = demoLib.fmtdateFormat exWorld.txNow ∧
    ListRequestLog demoLib demoEntityLib demoListLib zeroLog none
        (ValidateRequest demoLib exWorld exLogService ["admin"]
          (exRequest ["Token b58:amy"] none)).2.Bolt 10 "0" "amy" "" 0
      = .done (some [], some .ErrMalformedJSON) := by
  refine ⟨by rfl, by rfl, by rfl, by rfl, by rfl⟩

/-! ## Pagination (C30) -/

/-- C30, the failing input: the invitation bucket holds four invitations, the
term is empty and the offset is 1.  With the page limit 10 the walk collects
four records and the slice expression from index 10 panics; with the page
limit 2 the second page is answered. -/
theorem listInvites_slice_out_of_range :
    (exStore exInvites exResets).Bolt.invite.Keys = ["a", "b", "c", "d"] ∧
    ListInvites demoEntityLib demoListLib none (exStore exInvites exResets).Bolt 10 "" 1
      = .panic ∧
    ListInvites demoEntityLib demoListLib none (exStore exInvites exResets).Bolt 2 "" 1
      = .done ([exInvite "c" "accepted" 1500, exInvite "d" "accepted" 9000], none) := by
  refine ⟨by rfl, by rfl, by rfl⟩

end Boltkit
